import Mathlib

/-! # MSPEIRV age-stratified ODE model: `conduct_sia` and `get_ode_rates`

A shallow embedding of `helper_scripts/mspeirv_ode_model.cpp`.

Conventions of the embedding
* A C++ `double` that is finite is an exact rational (`ℚ`); rounding and overflow are not
  modelled. In this exact arithmetic the only operation of the source that leaves the
  finite values on finite operands is the division by the stratum population `aN`; a
  derivative that depends on such a quotient is an `Option ℚ`, `none` standing for a
  non-finite value (`NaN`, `±inf`), which `+`, `-` and `*` propagate.
* A C++ `int` is an `Int`; the source does no arithmetic on them that comes near the
  machine bounds (indices into the vectors).
* An `Rcpp::NumericVector` with a `names` attribute is a list of (name, value) pairs.
  The element access `v[k]` of the source is unchecked: an index outside the vector
  is undefined behaviour in C++ and is reported here as `Err.outOfBounds`.
* `cos` and `pow` of the C library are parameters (`Libm`).
-/

namespace Mspeirv

/-! ## Rcpp vector primitives -/

/-- Outcomes other than a normal return. -/
inductive Err where
  /-- Lookup by name (`findName`, `operator[](std::string)`): no element carries the name
  (Rcpp throws). -/
  | unknownName (name : String)
  /-- Range `seq(a, b)` with `b < a` (Rcpp throws `range_error`). -/
  | rangeError
  /-- subsetting by an integer vector with an index outside the vector (Rcpp throws). -/
  | indexError
  /-- unchecked element access outside the vector: undefined behaviour in the source. -/
  | outOfBounds
  deriving DecidableEq, Repr

instance {ε α : Type} [DecidableEq ε] [DecidableEq α] : DecidableEq (Except ε α)
  | .ok a, .ok b => if h : a = b then isTrue (by rw [h]) else isFalse (by simpa using h)
  | .error a, .error b => if h : a = b then isTrue (by rw [h]) else isFalse (by simpa using h)
  | .ok _, .error _ => isFalse (by simp)
  | .error _, .ok _ => isFalse (by simp)

/-- A named numeric vector: one (name, value) pair per element. -/
abbrev NumericVector := List (String × ℚ)

/-- Position of the first element called `name`, if any. -/
def findIdx (name : String) : NumericVector → Option Nat
  | [] => none
  | p :: v => if p.1 = name then some 0 else (findIdx name v).map (· + 1)

/-- The call `v.findName(name)`: the index of the first element with that name; throws if absent. -/
def findName (v : NumericVector) (name : String) : Except Err Int :=
  match findIdx name v with
  | some k => .ok (k : Int)
  | none => .error (.unknownName name)

/-- Value stored at position `n` (0 past the end; only used below the length). -/
def valAt : NumericVector → Nat → ℚ
  | [], _ => 0
  | p :: _, 0 => p.2
  | _ :: v, n + 1 => valAt v n

/-- Replace the value at position `n`, keeping the name (no change past the end). -/
def setAt : NumericVector → Nat → ℚ → NumericVector
  | [], _, _ => []
  | p :: v, 0, x => (p.1, x) :: v
  | p :: v, n + 1, x => p :: setAt v n x

/-- An index that lies inside the vector. -/
def InB (v : NumericVector) (k : Int) : Prop := 0 ≤ k ∧ k < (v.length : Int)

instance (v : NumericVector) (k : Int) : Decidable (InB v k) := by
  unfold InB; infer_instance

/-- Total view of the contents: the value at index `k` (0 outside the vector). -/
def val (v : NumericVector) (k : Int) : ℚ := if InB v k then valAt v k.toNat else 0

/-- Total update: the vector with `x` at index `k` (unchanged when `k` is outside). -/
def upd (v : NumericVector) (k : Int) (x : ℚ) : NumericVector :=
  if InB v k then setAt v k.toNat x else v

/-- Reading `v[k]`. -/
def readAt (v : NumericVector) (k : Int) : Except Err ℚ :=
  if InB v k then .ok (val v k) else .error .outOfBounds

/-- The assignment `v[k] = x`. -/
def writeAt (v : NumericVector) (k : Int) (x : ℚ) : Except Err NumericVector :=
  if InB v k then .ok (upd v k x) else .error .outOfBounds

/-! ## `conduct_sia` -/

/-- The nine offsets `conduct_sia` resolves (it does not resolve `I1`). -/
structure SiaIds where
  M_id : Int
  S_id : Int
  E_id : Int
  R_id : Int
  V_id : Int
  SP1_id : Int
  SP2_id : Int
  SP3_id : Int
  EP_id : Int
  deriving DecidableEq, Repr

/-- Lines 8-16: the name lookups, in source order. -/
def sia_ids (y : NumericVector) : Except Err SiaIds := do
  let M_id ← findName y "M1"
  let S_id ← findName y "S1"
  let E_id ← findName y "E1"
  let R_id ← findName y "R1"
  let V_id ← findName y "V1"
  let SP1_id ← findName y "1SP1"
  let SP2_id ← findName y "2SP1"
  let SP3_id ← findName y "3SP1"
  let EP_id ← findName y "EP1"
  pure ⟨M_id, S_id, E_id, R_id, V_id, SP1_id, SP2_id, SP3_id, EP_id⟩

/-- Lines 19-27: the body of the loop for age group `i` (1-based). Line 19 reads
`y[E_id+(i-1)]` and `y[E_id+i-1]`: the exposed compartment enters the sum twice. -/
def sia_body (d : SiaIds) (cov : ℚ) (y : NumericVector) (i : Int) :
    Except Err NumericVector := do
  let v ← readAt y (d.V_id + i - 1)
  let m ← readAt y (d.M_id + i - 1)
  let s ← readAt y (d.S_id + (i - 1))
  let sp1 ← readAt y (d.SP1_id + (i - 1))
  let sp2 ← readAt y (d.SP2_id + (i - 1))
  let sp3 ← readAt y (d.SP3_id + (i - 1))
  let e ← readAt y (d.E_id + (i - 1))
  let ep ← readAt y (d.EP_id + (i - 1))
  let e' ← readAt y (d.E_id + i - 1)
  let r ← readAt y (d.R_id + i - 1)
  let y ← writeAt y (d.V_id + i - 1) (v + cov * (m + s + sp1 + sp2 + sp3 + e + ep + e' + r))
  let m ← readAt y (d.M_id + i - 1)
  let y ← writeAt y (d.M_id + i - 1) ((1 - cov) * m)
  let s ← readAt y (d.S_id + i - 1)
  let y ← writeAt y (d.S_id + i - 1) ((1 - cov) * s)
  let sp1 ← readAt y (d.SP1_id + i - 1)
  let y ← writeAt y (d.SP1_id + i - 1) ((1 - cov) * sp1)
  let sp2 ← readAt y (d.SP2_id + i - 1)
  let y ← writeAt y (d.SP2_id + i - 1) ((1 - cov) * sp2)
  let sp3 ← readAt y (d.SP3_id + i - 1)
  let y ← writeAt y (d.SP3_id + i - 1) ((1 - cov) * sp3)
  let e ← readAt y (d.E_id + i - 1)
  let y ← writeAt y (d.E_id + i - 1) ((1 - cov) * e)
  let ep ← readAt y (d.EP_id + i - 1)
  let y ← writeAt y (d.EP_id + i - 1) ((1 - cov) * ep)
  let r ← readAt y (d.R_id + i - 1)
  writeAt y (d.R_id + i - 1) ((1 - cov) * r)

/-- The loop `for (i = st; i <= end; ++i)` with `n` iterations left, at counter `i`. -/
def sia_loop (d : SiaIds) (cov : ℚ) : Nat → Int → NumericVector → Except Err NumericVector
  | 0, _, y => .ok y
  | n + 1, i, y => do
    let y ← sia_body d cov y i
    sia_loop d cov n (i + 1) y

/-- The function `conduct_sia(y, st_agegrp_idx, end_agegrp_idx, cov)`: the loop runs
`end_agegrp_idx - st_agegrp_idx + 1` times (not at all when that is not positive). -/
def conduct_sia (y : NumericVector) (st_agegrp_idx end_agegrp_idx : Int) (cov : ℚ) :
    Except Err NumericVector := do
  let d ← sia_ids y
  sia_loop d cov (end_agegrp_idx + 1 - st_agegrp_idx).toNat st_agegrp_idx y

/-! ## State layout -/

/-- The ten offsets of the state vector, in the order `get_ode_rates` resolves them
(lines 66-75). -/
structure StateIds where
  M_id : Int
  S_id : Int
  E_id : Int
  I_id : Int
  R_id : Int
  V_id : Int
  SP1_id : Int
  SP2_id : Int
  SP3_id : Int
  EP_id : Int
  deriving DecidableEq, Repr

/-- The nine of the ten offsets that `conduct_sia` uses. -/
def StateIds.sia (L : StateIds) : SiaIds :=
  ⟨L.M_id, L.S_id, L.E_id, L.R_id, L.V_id, L.SP1_id, L.SP2_id, L.SP3_id, L.EP_id⟩

/-- The ten name lookups on the state vector (lines 66-75), in source order. -/
def state_ids (y : NumericVector) : Except Err StateIds := do
  let M_id ← findName y "M1"
  let S_id ← findName y "S1"
  let E_id ← findName y "E1"
  let I_id ← findName y "I1"
  let R_id ← findName y "R1"
  let V_id ← findName y "V1"
  let SP1_id ← findName y "1SP1"
  let SP2_id ← findName y "2SP1"
  let SP3_id ← findName y "3SP1"
  let EP_id ← findName y "EP1"
  pure ⟨M_id, S_id, E_id, I_id, R_id, V_id, SP1_id, SP2_id, SP3_id, EP_id⟩

/-! ## `get_ode_rates`: library primitives -/

/-- The two functions of the C library the source calls. -/
structure Libm where
  cos : ℚ → ℚ
  pow : ℚ → ℚ → ℚ

/-- The constant of line 35. -/
def PI : ℚ := 3.14159265358979323846

/-- Conversion of a `double` to `int`: truncation toward zero. -/
def toInt (x : ℚ) : Int := if 0 ≤ x then ⌊x⌋ else ⌈x⌉

/-- Division of doubles: a zero divisor gives a non-finite value. -/
def fdiv (x y : ℚ) : Option ℚ := if y = 0 then none else some (x / y)

/-- The access `parms[name]`: the element called `name`; throws if absent. -/
def readName (v : NumericVector) (name : String) : Except Err ℚ := do
  let k ← findName v name
  readAt v k

/-- The call `seq(a, b)`: the range `a..b`, kept as its two ends; throws when `b < a`. -/
def seq (a b : Int) : Except Err (Int × Int) :=
  if b < a then .error .rangeError else .ok (a, b)

/-- The integers `0, 1, .., n - 1`. -/
def upto (n : Int) : List Int := (List.range n.toNat).map (fun (j : Nat) => (j : Int))

/-- The access `v[r]` for a range `r` (unchecked, like the element access): the values at
`r.1, .., r.2`. -/
def readRange (v : NumericVector) (r : Int × Int) : Except Err (List ℚ) :=
  if InB v r.1 ∧ InB v r.2 then .ok ((upto (r.2 - r.1 + 1)).map (fun j => val v (r.1 + j)))
  else .error .outOfBounds

/-- The access `v[idx]` for an integer vector `idx` (checked subsetting): the values at those
indices; throws when one of them is outside the vector. -/
def subset (v : NumericVector) (idx : List Int) : Except Err (List ℚ) :=
  if ∀ k ∈ idx, InB v k then .ok (idx.map (val v)) else .error .indexError

/-- The sum `sum((1 + alpha * seasonal_force) * beta * all_I)`, elementwise over the three
vectors. -/
def foiSum (seasonal_force : ℚ) : List ℚ → List ℚ → List ℚ → ℚ
  | a :: alpha, b :: beta, x :: all_I =>
    (1 + a * seasonal_force) * b * x + foiSum seasonal_force alpha beta all_I
  | _, _, _ => 0

/-- The assignment `rates[k] = x` on the output vector (unchecked). -/
def setRate (rates : List (Option ℚ)) (k : Int) (x : Option ℚ) :
    Except Err (List (Option ℚ)) :=
  if 0 ≤ k ∧ k < (rates.length : Int) then .ok (rates.set k.toNat x) else .error .outOfBounds

/-! ## `get_ode_rates`: function-level statics -/

/-- The `static int` locals that carry an initialiser (lines 41-56 and 66-75). -/
inductive SVar where
  | mu_id | b_id | omega_id | sigma_id | theta_id | gamma_id | beta_id | alpha_id | f_id
  | delta1_id | delta2_id | delta3_id | num_stages | num_classes
  | M_id | S_id | E_id | I_id | R_id | V_id | SP1_id | SP2_id | SP3_id | EP_id
  deriving DecidableEq, Repr

/-- The statics of `get_ode_rates` that carry a value from one call to the next.
`ints x` is `none` until the initialiser of `x` has completed without throwing; `pv_id` and
`eps_id` have no initialiser (zero-initialised, assigned inside the call); `rates` is the
output vector, allocated once. The other statics of the source (`beta`, `alpha`, `M` .. `aN`,
`FOI`, `dM` .. `dEP`) are assigned in every iteration before they are read and are locals
here. -/
structure Statics where
  ints : SVar → Option Int
  pv_id : Int
  eps_id : Int
  rates : Option (List (Option ℚ))

/-- The statics before the first call. -/
def Statics.fresh : Statics := ⟨fun _ => none, 0, 0, none⟩

/-- The initialiser of each `static int`, evaluated on the vectors of the current call. -/
def initOf (y parms : NumericVector) : SVar → Except Err Int
  | .mu_id => findName parms "mu1"
  | .b_id => findName parms "b1"
  | .omega_id => findName parms "omega1"
  | .sigma_id => findName parms "sigma1"
  | .theta_id => findName parms "theta1"
  | .gamma_id => findName parms "gamma1"
  | .beta_id => findName parms "beta1"
  | .alpha_id => findName parms "alpha1"
  | .f_id => findName parms "f1"
  | .delta1_id => findName parms "1delta1"
  | .delta2_id => findName parms "2delta1"
  | .delta3_id => findName parms "3delta1"
  | .num_stages => do
    let x ← readName parms "num_stages"
    pure (toInt x)
  | .num_classes => do
    let x ← readName parms "num_classes"
    pure (toInt x)
  | .M_id => findName y "M1"
  | .S_id => findName y "S1"
  | .E_id => findName y "E1"
  | .I_id => findName y "I1"
  | .R_id => findName y "R1"
  | .V_id => findName y "V1"
  | .SP1_id => findName y "1SP1"
  | .SP2_id => findName y "2SP1"
  | .SP3_id => findName y "3SP1"
  | .EP_id => findName y "EP1"

/-- A computation inside `get_ode_rates`: it reads and updates the statics and may throw;
what it did to the statics before throwing stays. -/
def SM (α : Type) : Type := Statics → Except Err α × Statics

instance : Monad SM where
  pure a := fun s => (.ok a, s)
  bind m f := fun s =>
    match m s with
    | (.ok a, s') => f a s'
    | (.error e, s') => (.error e, s')

/-- A step that does not touch the statics. -/
def liftE {α : Type} (e : Except Err α) : SM α := fun s => (e, s)

/-- The declaration `static int x = init;`: the initialiser runs only while `x` is not yet
initialised, and `x` stays uninitialised when it throws. -/
def staticInt (y parms : NumericVector) (x : SVar) : SM Int := fun s =>
  match s.ints x with
  | some v => (.ok v, s)
  | none =>
    match initOf y parms x with
    | .ok v => (.ok v, { s with ints := Function.update s.ints x (some v) })
    | .error e => (.error e, s)

/-- The declaration `static NumericVector rates (num_stages*num_classes);` (line 81): a
zero vector allocated by the first call that reaches it. -/
def staticRates (num_stages num_classes : Int) : SM Unit := fun s =>
  match s.rates with
  | some _ => (.ok (), s)
  | none =>
    (.ok (), { s with rates := some (List.replicate (num_stages * num_classes).toNat (some 0)) })

/-- Line 87: `pv_id = ...`. -/
def setPvId (k : Int) : SM Unit := fun s => (.ok (), { s with pv_id := k })

/-- Line 90: `eps_id = ...`. -/
def setEpsId (k : Int) : SM Unit := fun s => (.ok (), { s with eps_id := k })

/-- The current value of the static `pv_id`. -/
def getPvId : SM Int := fun s => (.ok s.pv_id, s)

/-- A step on the static output vector `rates`. -/
def onRates (f : List (Option ℚ) → Except Err (List (Option ℚ))) : SM Unit := fun s =>
  match s.rates with
  | none => (.error .outOfBounds, s)
  | some r =>
    match f r with
    | .ok r' => (.ok (), { s with rates := some r' })
    | .error e => (.error e, s)

/-- The contents of the static output vector, as the call returns them. -/
def getRates : SM (List (Option ℚ)) := fun s =>
  match s.rates with
  | none => (.error .outOfBounds, s)
  | some r => (.ok r, s)

/-- The `static int` declarations of lines 41-56, in source order. -/
def paramStatics : List SVar :=
  [.mu_id, .b_id, .omega_id, .sigma_id, .theta_id, .gamma_id, .beta_id, .alpha_id, .f_id,
    .delta1_id, .delta2_id, .delta3_id, .num_stages, .num_classes]

/-- The `static int` declarations of lines 66-75, in source order. -/
def stateStatics : List SVar :=
  [.M_id, .S_id, .E_id, .I_id, .R_id, .V_id, .SP1_id, .SP2_id, .SP3_id, .EP_id]

/-- A run of `static int` declarations, one after the other. -/
def initStatics (y parms : NumericVector) : List SVar → SM Unit
  | [] => pure ()
  | x :: xs => do
    let _ ← staticInt y parms x
    initStatics y parms xs

/-- The values of the `static int` locals once their declarations have been passed. -/
def getInts : SM (SVar → Int) := fun s => (.ok (fun x => (s.ints x).getD 0), s)

/-! ## `get_ode_rates`: the loop -/

/-- Line 38: `enum Class {MID, SID, EID, IID, RID, VID, SP1ID, SP2ID, SP3ID, EPID}`. -/
abbrev MID : Int := 0
/-- Position of `S` in `Class`. -/
abbrev SID : Int := 1
/-- Position of `E` in `Class`. -/
abbrev EID : Int := 2
/-- Position of `I` in `Class`. -/
abbrev IID : Int := 3
/-- Position of `R` in `Class`. -/
abbrev RID : Int := 4
/-- Position of `V` in `Class`. -/
abbrev VID : Int := 5
/-- Position of `SP1` in `Class`. -/
abbrev SP1ID : Int := 6
/-- Position of `SP2` in `Class`. -/
abbrev SP2ID : Int := 7
/-- Position of `SP3` in `Class`. -/
abbrev SP3ID : Int := 8
/-- Position of `EP` in `Class`. -/
abbrev EPID : Int := 9

/-- What the loop reads but does not change: the values of the locals and statics set on
lines 41-91. `G` holds the `static int` locals. -/
structure Ctx where
  G : SVar → Int
  n_id : Int
  sim_type : Int
  db : ℚ
  seasonal_force : ℚ
  N : ℚ
  all_I : List ℚ
  yr : Int
  pv_id : Int
  eps : ℚ

/-- The ten derivatives of one stratum, in the order of `Class`; `none` is a non-finite
value. -/
structure Rates10 where
  dM : Option ℚ
  dS : Option ℚ
  dE : Option ℚ
  dI : Option ℚ
  dR : Option ℚ
  dV : Option ℚ
  dSP1 : Option ℚ
  dSP2 : Option ℚ
  dSP3 : Option ℚ
  dEP : Option ℚ
  deriving DecidableEq, Repr

/-- Lines 95-145: the derivatives of stratum `i` before the aging inflow. -/
def raw_rates (lib : Libm) (t : ℚ) (y parms : NumericVector) (c : Ctx) (i : Int) :
    Except Err Rates10 := do
  let num_stages := c.G .num_stages
  let M ← readAt y (c.G .M_id + i)
  let S ← readAt y (c.G .S_id + i)
  let E ← readAt y (c.G .E_id + i)
  let I ← readAt y (c.G .I_id + i)
  let R ← readAt y (c.G .R_id + i)
  let V ← readAt y (c.G .V_id + i)
  let SP1 ← readAt y (c.G .SP1_id + i)
  let SP2 ← readAt y (c.G .SP2_id + i)
  let SP3 ← readAt y (c.G .SP3_id + i)
  let EP ← readAt y (c.G .EP_id + i)
  let aN := M + S + E + I + R + V + SP1 + SP2 + SP3 + EP
  let initN ← readAt parms (c.n_id + i)
  let mu ← readAt parms (c.G .mu_id + i)
  let b0 ← readAt parms (c.G .b_id + i)
  let b := b0 * lib.pow (1 + c.db) t
  let omega ← readAt parms (c.G .omega_id + i)
  let sigma ← readAt parms (c.G .sigma_id + i)
  let gamma ← readAt parms (c.G .gamma_id + i)
  let theta ← readAt parms (c.G .theta_id + i)
  let f0 ← readAt parms (c.G .f_id + i)
  let f := fdiv (f0 * lib.pow (1 + c.db) t * initN) aN
  let delta1 ← readAt parms (c.G .delta1_id + i)
  let delta2 ← readAt parms (c.G .delta2_id + i)
  let delta3 ← readAt parms (c.G .delta3_id + i)
  let r ← seq 0 (num_stages - 1)
  let beta ← subset parms ((upto (r.2 - r.1 + 1)).map
    (fun j => (r.1 + j) * num_stages + i + c.G .beta_id))
  let alpha ← subset parms ((upto (r.2 - r.1 + 1)).map
    (fun j => (r.1 + j) * num_stages + i + c.G .alpha_id))
  let dM := b * c.N - (omega + mu + theta) * M
  let FOI := fdiv (foiSum c.seasonal_force alpha beta c.all_I * initN) aN
  let dS := FOI.bind fun FOI => f.map fun f =>
    omega * M + delta3 * SP3 - (FOI + mu + theta + f) * S
  let dSP1 := f.bind fun f => FOI.map fun FOI => f * S - (mu + theta + delta1 + FOI) * SP1
  let dSP2 := FOI.map fun FOI => delta1 * SP1 - (mu + theta + delta2 + FOI) * SP2
  let dSP3 := FOI.map fun FOI => delta2 * SP2 - (mu + theta + delta3 + FOI) * SP3
  let dE := FOI.map fun FOI => FOI * (S + SP2 + SP3) - (sigma + mu + theta) * E
  let dEP := FOI.map fun FOI => FOI * SP1 - (sigma + mu + theta) * EP
  let dI := sigma * (E + EP) + c.eps * aN - (gamma + mu + theta) * I
  let dR := gamma * I - (mu + theta) * R
  let dV := -(mu + theta) * V
  pure ⟨some dM, dS, dE, some dI, some dR, some dV, dSP1, dSP2, dSP3, dEP⟩

/-- Lines 151-153 with lines 60 and 166: `pv` is 0 when an iteration starts (it is
initialised to 0 and reset to 0 after each use) and is read from the parameters only
under `sim_type != 0 && i == 9`. -/
def pv_of (parms : NumericVector) (sim_type pv_id yr i : Int) : Except Err ℚ :=
  if sim_type ≠ 0 ∧ i = 9 then readAt parms (pv_id + yr) else .ok 0

/-- Lines 147-167: the aging inflow from stratum `i - 1`, added to the derivatives `d`. -/
def inflow (y parms : NumericVector) (c : Ctx) (i : Int) (d : Rates10) : Except Err Rates10 :=
  if i ≠ 0 then do
    let theta ← readAt parms (c.G .theta_id + i - 1)
    let pv ← pv_of parms c.sim_type c.pv_id c.yr i
    let yM ← readAt y (c.G .M_id + (i - 1))
    let yS ← readAt y (c.G .S_id + (i - 1))
    let ySP1 ← readAt y (c.G .SP1_id + (i - 1))
    let ySP2 ← readAt y (c.G .SP2_id + (i - 1))
    let ySP3 ← readAt y (c.G .SP3_id + (i - 1))
    let yE ← readAt y (c.G .E_id + (i - 1))
    let yEP ← readAt y (c.G .EP_id + (i - 1))
    let yI ← readAt y (c.G .I_id + (i - 1))
    let yR ← readAt y (c.G .R_id + (i - 1))
    let yV ← readAt y (c.G .V_id + (i - 1))
    pure
      { dM := d.dM.map (· + (1 - pv) * theta * yM)
        dS := d.dS.map (· + (1 - pv) * theta * yS)
        dSP1 := d.dSP1.map (· + (1 - pv) * theta * ySP1)
        dSP2 := d.dSP2.map (· + (1 - pv) * theta * ySP2)
        dSP3 := d.dSP3.map (· + (1 - pv) * theta * ySP3)
        dE := d.dE.map (· + (1 - pv) * theta * yE)
        dEP := d.dEP.map (· + (1 - pv) * theta * yEP)
        dI := d.dI.map (· + theta * yI)
        dR := d.dR.map (· + (1 - pv) * theta * yR)
        dV := d.dV.map (· + (pv * theta * (yM + yS + ySP1 + ySP2 + ySP3 + yE + yEP + yR)
          + theta * yV)) }
  else pure d

/-- Lines 168-177: the ten assignments into `rates`. -/
def store (num_stages i : Int) (d : Rates10) (rates : List (Option ℚ)) :
    Except Err (List (Option ℚ)) := do
  let rates ← setRate rates (i + MID * num_stages) d.dM
  let rates ← setRate rates (i + SID * num_stages) d.dS
  let rates ← setRate rates (i + EID * num_stages) d.dE
  let rates ← setRate rates (i + IID * num_stages) d.dI
  let rates ← setRate rates (i + RID * num_stages) d.dR
  let rates ← setRate rates (i + VID * num_stages) d.dV
  let rates ← setRate rates (i + SP1ID * num_stages) d.dSP1
  let rates ← setRate rates (i + SP2ID * num_stages) d.dSP2
  let rates ← setRate rates (i + SP3ID * num_stages) d.dSP3
  setRate rates (i + EPID * num_stages) d.dEP

/-- One iteration of the loop of lines 93-178, without the write-back to the static. -/
def ode_body (lib : Libm) (t : ℚ) (y parms : NumericVector) (c : Ctx) (i : Int)
    (rates : List (Option ℚ)) : Except Err (List (Option ℚ)) := do
  let d ← raw_rates lib t y parms c i
  let d ← inflow y parms c i d
  store (c.G .num_stages) i d rates

/-- The loop `for (i = 0; i < num_stages; ++i)` with `n` iterations left, at counter `i`. -/
def ode_loop (lib : Libm) (t : ℚ) (y parms : NumericVector) (c : Ctx) : Nat → Int → SM Unit
  | 0, _ => pure ()
  | n + 1, i => do
    onRates (ode_body lib t y parms c i)
    ode_loop lib t y parms c n (i + 1)

/-- Line 83: `int yr = (int)(t/365)`. -/
def yearOf (t : ℚ) : Int := toInt (t / 365)

/-- Lines 41-91: everything `get_ode_rates` does before the loop; the result is what the
loop reads. -/
def ode_setup (lib : Libm) (t : ℚ) (y parms : NumericVector) : SM Ctx := do
  initStatics y parms paramStatics
  let n_id ← liftE (findName parms "N1")
  let sim_type ← liftE (toInt <$> readName parms "sim_type")
  let db ← liftE (readName parms "db")
  let seasonal_force := lib.cos (2 * PI * t / 365)
  initStatics y parms stateStatics
  let G ← getInts
  let r ← liftE (seq 0 (G .num_classes * G .num_stages - 1))
  let ys ← liftE (readRange y r)
  let N := ys.sum
  let r ← liftE (seq 0 (G .num_stages - 1))
  let all_I ← liftE (readRange y (r.1 + IID * G .num_stages, r.2 + IID * G .num_stages))
  staticRates (G .num_stages) (G .num_classes)
  let yr := yearOf t
  if sim_type ≠ 0 then do
    let k ← liftE (findName parms "pv1")
    setPvId k
  let eps_id ← liftE (findName parms "eps")
  setEpsId eps_id
  let eps ← liftE (readAt parms eps_id)
  let pv_id ← getPvId
  pure ⟨G, n_id, sim_type, db, seasonal_force, N, all_I, yr, pv_id, eps⟩

/-- The function `get_ode_rates(t, y, parms)`, as a computation on the statics; the result is the
contents of the output vector when the call returns. -/
def get_ode_rates (lib : Libm) (t : ℚ) (y parms : NumericVector) : SM (List (Option ℚ)) := do
  let c ← ode_setup lib t y parms
  ode_loop lib t y parms c (c.G .num_stages).toNat 0
  getRates

/-! ## Closed forms used to state the behaviour of `get_ode_rates` -/

/-- The entry of the output vector at index `k`, if `k` is inside it. -/
def rateAt (r : List (Option ℚ)) (k : Int) : Option (Option ℚ) :=
  if 0 ≤ k then r[k.toNat]? else none

/-- Total update of the output vector (no change when `k` is outside). -/
def setP (r : List (Option ℚ)) (k : Int) (x : Option ℚ) : List (Option ℚ) :=
  if 0 ≤ k ∧ k < (r.length : Int) then r.set k.toNat x else r

/-- The ten assignments of lines 168-177 as total updates. -/
def storeP (num_stages i : Int) (d : Rates10) (r : List (Option ℚ)) : List (Option ℚ) :=
  let r := setP r (i + MID * num_stages) d.dM
  let r := setP r (i + SID * num_stages) d.dS
  let r := setP r (i + EID * num_stages) d.dE
  let r := setP r (i + IID * num_stages) d.dI
  let r := setP r (i + RID * num_stages) d.dR
  let r := setP r (i + VID * num_stages) d.dV
  let r := setP r (i + SP1ID * num_stages) d.dSP1
  let r := setP r (i + SP2ID * num_stages) d.dSP2
  let r := setP r (i + SP3ID * num_stages) d.dSP3
  setP r (i + EPID * num_stages) d.dEP

/-- The population `aN` of stratum `i` as the loop computes it (line 105). -/
def aNof (y : NumericVector) (G : SVar → Int) (i : Int) : ℚ :=
  val y (G .M_id + i) + val y (G .S_id + i) + val y (G .E_id + i) + val y (G .I_id + i)
    + val y (G .R_id + i) + val y (G .V_id + i) + val y (G .SP1_id + i)
    + val y (G .SP2_id + i) + val y (G .SP3_id + i) + val y (G .EP_id + i)

/-- The pregnancy-entry rate `f` of stratum `i` (line 115). -/
def fOf (lib : Libm) (t : ℚ) (y parms : NumericVector) (c : Ctx) (i : Int) : Option ℚ :=
  fdiv (val parms (c.G .f_id + i) * lib.pow (1 + c.db) t * val parms (c.n_id + i))
    (aNof y c.G i)

/-- The force of infection of stratum `i` (line 126), on the vector `all_I` of the
context. -/
def foiOf (y parms : NumericVector) (c : Ctx) (i : Int) : Option ℚ :=
  fdiv (foiSum c.seasonal_force
      ((upto (c.G .num_stages)).map (fun j => val parms (j * c.G .num_stages + i + c.G .alpha_id)))
      ((upto (c.G .num_stages)).map (fun j => val parms (j * c.G .num_stages + i + c.G .beta_id)))
      c.all_I * val parms (c.n_id + i))
    (aNof y c.G i)

/-- The derivatives of lines 123-145 for stratum `i`, on the total view of the vectors. -/
def rawD (lib : Libm) (t : ℚ) (y parms : NumericVector) (c : Ctx) (i : Int) : Rates10 :=
  let M := val y (c.G .M_id + i)
  let S := val y (c.G .S_id + i)
  let E := val y (c.G .E_id + i)
  let I := val y (c.G .I_id + i)
  let R := val y (c.G .R_id + i)
  let V := val y (c.G .V_id + i)
  let SP1 := val y (c.G .SP1_id + i)
  let SP2 := val y (c.G .SP2_id + i)
  let SP3 := val y (c.G .SP3_id + i)
  let EP := val y (c.G .EP_id + i)
  let mu := val parms (c.G .mu_id + i)
  let b := val parms (c.G .b_id + i) * lib.pow (1 + c.db) t
  let omega := val parms (c.G .omega_id + i)
  let sigma := val parms (c.G .sigma_id + i)
  let gamma := val parms (c.G .gamma_id + i)
  let theta := val parms (c.G .theta_id + i)
  let delta1 := val parms (c.G .delta1_id + i)
  let delta2 := val parms (c.G .delta2_id + i)
  let delta3 := val parms (c.G .delta3_id + i)
  let f := fOf lib t y parms c i
  let FOI := foiOf y parms c i
  { dM := some (b * c.N - (omega + mu + theta) * M)
    dS := FOI.bind fun FOI => f.map fun f =>
      omega * M + delta3 * SP3 - (FOI + mu + theta + f) * S
    dSP1 := f.bind fun f => FOI.map fun FOI => f * S - (mu + theta + delta1 + FOI) * SP1
    dSP2 := FOI.map fun FOI => delta1 * SP1 - (mu + theta + delta2 + FOI) * SP2
    dSP3 := FOI.map fun FOI => delta2 * SP2 - (mu + theta + delta3 + FOI) * SP3
    dE := FOI.map fun FOI => FOI * (S + SP2 + SP3) - (sigma + mu + theta) * E
    dEP := FOI.map fun FOI => FOI * SP1 - (sigma + mu + theta) * EP
    dI := some (sigma * (E + EP) + c.eps * aNof y c.G i - (gamma + mu + theta) * I)
    dR := some (gamma * I - (mu + theta) * R)
    dV := some (-(mu + theta) * V) }

/-- The value of `pv` the inflow of stratum `i` uses, on the total view of `parms`. -/
def pvVal (parms : NumericVector) (sim_type pv_id yr i : Int) : ℚ :=
  if sim_type ≠ 0 ∧ i = 9 then val parms (pv_id + yr) else 0

/-- The aging inflow of lines 147-167 added to `d`, on the total view of the vectors. -/
def inflowD (y parms : NumericVector) (c : Ctx) (i : Int) (d : Rates10) : Rates10 :=
  if i ≠ 0 then
    let theta := val parms (c.G .theta_id + (i - 1))
    let pv := pvVal parms c.sim_type c.pv_id c.yr i
    let yM := val y (c.G .M_id + (i - 1))
    let yS := val y (c.G .S_id + (i - 1))
    let ySP1 := val y (c.G .SP1_id + (i - 1))
    let ySP2 := val y (c.G .SP2_id + (i - 1))
    let ySP3 := val y (c.G .SP3_id + (i - 1))
    let yE := val y (c.G .E_id + (i - 1))
    let yEP := val y (c.G .EP_id + (i - 1))
    let yI := val y (c.G .I_id + (i - 1))
    let yR := val y (c.G .R_id + (i - 1))
    let yV := val y (c.G .V_id + (i - 1))
    { dM := d.dM.map (· + (1 - pv) * theta * yM)
      dS := d.dS.map (· + (1 - pv) * theta * yS)
      dSP1 := d.dSP1.map (· + (1 - pv) * theta * ySP1)
      dSP2 := d.dSP2.map (· + (1 - pv) * theta * ySP2)
      dSP3 := d.dSP3.map (· + (1 - pv) * theta * ySP3)
      dE := d.dE.map (· + (1 - pv) * theta * yE)
      dEP := d.dEP.map (· + (1 - pv) * theta * yEP)
      dI := d.dI.map (· + theta * yI)
      dR := d.dR.map (· + (1 - pv) * theta * yR)
      dV := d.dV.map (· + (pv * theta * (yM + yS + ySP1 + ySP2 + ySP3 + yE + yEP + yR)
        + theta * yV)) }
  else d

/-- The ten derivatives the loop stores for stratum `i`. -/
def derivs (lib : Libm) (t : ℚ) (y parms : NumericVector) (c : Ctx) (i : Int) : Rates10 :=
  inflowD y parms c i (rawD lib t y parms c i)

/-- The per-stratum parameters read at `id + i`. -/
def perStratum : List SVar :=
  [.mu_id, .b_id, .omega_id, .sigma_id, .theta_id, .gamma_id, .f_id, .delta1_id, .delta2_id,
    .delta3_id]

/-- Every access of the loop stays inside the vector it addresses: the ten state blocks
and the per-stratum parameter blocks have `num_stages` entries, the `beta` and `alpha`
blocks `num_stages * num_stages`, and `pv` is read inside `parms` when it is read at all. -/
def LoopInB (y parms : NumericVector) (c : Ctx) : Prop :=
  (∀ x ∈ stateStatics, 0 ≤ c.G x ∧ c.G x + c.G .num_stages ≤ (y.length : Int)) ∧
  (∀ x ∈ perStratum, 0 ≤ c.G x ∧ c.G x + c.G .num_stages ≤ (parms.length : Int)) ∧
  (0 ≤ c.n_id ∧ c.n_id + c.G .num_stages ≤ (parms.length : Int)) ∧
  (∀ x ∈ [SVar.beta_id, SVar.alpha_id],
    0 ≤ c.G x ∧ c.G x + c.G .num_stages * c.G .num_stages ≤ (parms.length : Int)) ∧
  (c.sim_type ≠ 0 → 10 ≤ c.G .num_stages → InB parms (c.pv_id + c.yr))

instance (y parms : NumericVector) (c : Ctx) : Decidable (LoopInB y parms c) := by
  unfold LoopInB; infer_instance

/-- The output vector `r` holds `d` as the ten derivatives of stratum `i`, each at the
position of its compartment in `Class`: index `i + pos * num_stages`. -/
def Stored (num_stages : Int) (r : List (Option ℚ)) (i : Int) (d : Rates10) : Prop :=
  rateAt r (i + MID * num_stages) = some d.dM ∧ rateAt r (i + SID * num_stages) = some d.dS ∧
  rateAt r (i + EID * num_stages) = some d.dE ∧ rateAt r (i + IID * num_stages) = some d.dI ∧
  rateAt r (i + RID * num_stages) = some d.dR ∧ rateAt r (i + VID * num_stages) = some d.dV ∧
  rateAt r (i + SP1ID * num_stages) = some d.dSP1 ∧
  rateAt r (i + SP2ID * num_stages) = some d.dSP2 ∧
  rateAt r (i + SP3ID * num_stages) = some d.dSP3 ∧
  rateAt r (i + EPID * num_stages) = some d.dEP

/-- The positions of `Class`. -/
def classes : List Int := [MID, SID, EID, IID, RID, VID, SP1ID, SP2ID, SP3ID, EPID]

/-- Index `k` of the output vector is not an entry of one of the strata `i0 .. i0 + n - 1`. -/
def Outside (num_stages i0 n k : Int) : Prop :=
  ∀ c ∈ classes, ¬ (i0 ≤ k - c * num_stages ∧ k - c * num_stages < i0 + n)

/-- The context the loop runs in, given what the name lookups of the call resolve to:
`seasonal_force` (line 63), `N` (line 77: the sum of the first `num_classes * num_stages`
entries of `y`), `all_I` (line 78: the `num_stages` entries of `y` from index
`IID * num_stages`) and `yr` (line 83) are computed from `t` and `y`. -/
def ctxOf (lib : Libm) (t : ℚ) (y : NumericVector) (G : SVar → Int) (n_id sim_type : Int)
    (db : ℚ) (pv_id : Int) (eps : ℚ) : Ctx :=
  { G := G
    n_id := n_id
    sim_type := sim_type
    db := db
    seasonal_force := lib.cos (2 * PI * t / 365)
    N := ((upto (G .num_classes * G .num_stages)).map (fun j => val y j)).sum
    all_I := (upto (G .num_stages)).map (fun j => val y (IID * G .num_stages + j))
    yr := yearOf t
    pv_id := pv_id
    eps := eps }

/-- The lookups of a call in statics `s` resolve: every `static int` initialiser gives the
value `G` has for it on the vectors of this call, and a static that is already initialised
holds that same value; the output vector, if already allocated, has
`num_stages * num_classes` entries; `N1`, `sim_type`, `db`, `eps` and (when `sim_type` is
not 0) `pv1` are found. -/
def Resolves (y parms : NumericVector) (s : Statics) (G : SVar → Int) (n_id sim_type : Int)
    (db : ℚ) (pv_id : Int) (eps : ℚ) : Prop :=
  (∀ x ∈ paramStatics ++ stateStatics, initOf y parms x = .ok (G x)) ∧
  (∀ x ∈ paramStatics ++ stateStatics, s.ints x = none ∨ s.ints x = some (G x)) ∧
  (∀ r ∈ s.rates, r.length = (G .num_stages * G .num_classes).toNat) ∧
  findName parms "N1" = .ok n_id ∧
  (toInt <$> readName parms "sim_type") = .ok sim_type ∧
  readName parms "db" = .ok db ∧
  (if sim_type ≠ 0 then findName parms "pv1" = .ok pv_id else pv_id = s.pv_id) ∧
  readName parms "eps" = .ok eps

instance (y parms : NumericVector) (s : Statics) (G : SVar → Int) (n_id sim_type : Int)
    (db : ℚ) (pv_id : Int) (eps : ℚ) :
    Decidable (Resolves y parms s G n_id sim_type db pv_id eps) := by
  unfold Resolves; infer_instance

/-! ## The rate equations as the specification words them -/

/-- Ten finite derivatives, one per compartment. -/
structure D10 where
  dM : ℚ
  dS : ℚ
  dE : ℚ
  dI : ℚ
  dR : ℚ
  dV : ℚ
  dSP1 : ℚ
  dSP2 : ℚ
  dSP3 : ℚ
  dEP : ℚ
  deriving DecidableEq, Repr

/-- Ten finite derivatives as entries of the output vector. -/
def D10.toRates (d : D10) : Rates10 :=
  ⟨some d.dM, some d.dS, some d.dE, some d.dI, some d.dR, some d.dV, some d.dSP1, some d.dSP2,
    some d.dSP3, some d.dEP⟩

/-- Compartment by compartment sum. -/
def D10.add (a b : D10) : D10 :=
  ⟨a.dM + b.dM, a.dS + b.dS, a.dE + b.dE, a.dI + b.dI, a.dR + b.dR, a.dV + b.dV,
    a.dSP1 + b.dSP1, a.dSP2 + b.dSP2, a.dSP3 + b.dSP3, a.dEP + b.dEP⟩

/-- The quantity `N_total`: the sum of all `num_classes * num_stages` state entries. -/
def N_total (y : NumericVector) (G : SVar → Int) : ℚ :=
  ((upto (G .num_classes * G .num_stages)).map (fun j => val y j)).sum

/-- The secular multiplier `(1 + db)^t`. -/
def growth (lib : Libm) (t db : ℚ) : ℚ := lib.pow (1 + db) t

/-- The seasonal forcing `cos(2 PI t / 365)`. -/
def seasonal (lib : Libm) (t : ℚ) : ℚ := lib.cos (2 * PI * t / 365)

/-- The force of infection of stratum `i`:
`(Σ_j (1 + alpha[j,i] * seasonal) * beta[j,i] * I_j) * N_i / localN_i`, the entry `[j,i]`
of a matrix being the one at offset `j * num_stages + i` of its block. -/
def specFOI (lib : Libm) (t : ℚ) (y parms : NumericVector) (G : SVar → Int) (n_id : Int)
    (i : Int) : ℚ :=
  ((upto (G .num_stages)).map (fun j =>
      (1 + val parms (j * G .num_stages + i + G .alpha_id) * seasonal lib t)
        * val parms (j * G .num_stages + i + G .beta_id) * val y (G .I_id + j))).sum
    * val parms (n_id + i) / aNof y G i

/-- The pregnancy-entry rate of stratum `i`: `f_i * (1 + db)^t * N_i / localN_i`. -/
def specF (lib : Libm) (t : ℚ) (y parms : NumericVector) (G : SVar → Int) (n_id : Int)
    (db : ℚ) (i : Int) : ℚ :=
  val parms (G .f_id + i) * growth lib t db * val parms (n_id + i) / aNof y G i

/-- Step 5 of the specification: the raw derivatives of stratum `i`. -/
def step5 (lib : Libm) (t : ℚ) (y parms : NumericVector) (G : SVar → Int) (n_id : Int)
    (db eps : ℚ) (i : Int) : D10 :=
  let M := val y (G .M_id + i)
  let S := val y (G .S_id + i)
  let E := val y (G .E_id + i)
  let I := val y (G .I_id + i)
  let R := val y (G .R_id + i)
  let V := val y (G .V_id + i)
  let SP1 := val y (G .SP1_id + i)
  let SP2 := val y (G .SP2_id + i)
  let SP3 := val y (G .SP3_id + i)
  let EP := val y (G .EP_id + i)
  let mu := val parms (G .mu_id + i)
  let b := val parms (G .b_id + i) * growth lib t db
  let omega := val parms (G .omega_id + i)
  let sigma := val parms (G .sigma_id + i)
  let gamma := val parms (G .gamma_id + i)
  let theta := val parms (G .theta_id + i)
  let delta1 := val parms (G .delta1_id + i)
  let delta2 := val parms (G .delta2_id + i)
  let delta3 := val parms (G .delta3_id + i)
  let f := specF lib t y parms G n_id db i
  let FOI := specFOI lib t y parms G n_id i
  { dM := b * N_total y G - (omega + mu + theta) * M
    dS := omega * M + delta3 * SP3 - (FOI + mu + theta + f) * S
    dSP1 := f * S - (mu + theta + delta1 + FOI) * SP1
    dSP2 := delta1 * SP1 - (mu + theta + delta2 + FOI) * SP2
    dSP3 := delta2 * SP2 - (mu + theta + delta3 + FOI) * SP3
    dE := FOI * (S + SP2 + SP3) - (sigma + mu + theta) * E
    dEP := FOI * SP1 - (sigma + mu + theta) * EP
    dI := sigma * (E + EP) + eps * aNof y G i - (gamma + mu + theta) * I
    dR := gamma * I - (mu + theta) * R
    dV := -(mu + theta) * V }

/-- Step 6 of the specification: the aging inflow into stratum `i` from stratum `i - 1`, at
the rate `theta_{i-1}`, for a routine-vaccination fraction `pv`. -/
def agingInflow (y parms : NumericVector) (G : SVar → Int) (pv : ℚ) (i : Int) : D10 :=
  let theta := val parms (G .theta_id + (i - 1))
  let M := val y (G .M_id + (i - 1))
  let S := val y (G .S_id + (i - 1))
  let E := val y (G .E_id + (i - 1))
  let I := val y (G .I_id + (i - 1))
  let R := val y (G .R_id + (i - 1))
  let V := val y (G .V_id + (i - 1))
  let SP1 := val y (G .SP1_id + (i - 1))
  let SP2 := val y (G .SP2_id + (i - 1))
  let SP3 := val y (G .SP3_id + (i - 1))
  let EP := val y (G .EP_id + (i - 1))
  { dM := theta * (1 - pv) * M
    dS := theta * (1 - pv) * S
    dSP1 := theta * (1 - pv) * SP1
    dSP2 := theta * (1 - pv) * SP2
    dSP3 := theta * (1 - pv) * SP3
    dE := theta * (1 - pv) * E
    dEP := theta * (1 - pv) * EP
    dR := theta * (1 - pv) * R
    dI := theta * I
    dV := theta * V + pv * theta * (M + S + SP1 + SP2 + SP3 + E + EP + R) }

/-- The state blocks lie in the order of `Class`: `M, S, E, I, R, V, SP1, SP2, SP3, EP`. -/
def EnumLayout (G : SVar → Int) : Prop :=
  G .M_id = MID * G .num_stages ∧ G .S_id = SID * G .num_stages ∧
  G .E_id = EID * G .num_stages ∧ G .I_id = IID * G .num_stages ∧
  G .R_id = RID * G .num_stages ∧ G .V_id = VID * G .num_stages ∧
  G .SP1_id = SP1ID * G .num_stages ∧ G .SP2_id = SP2ID * G .num_stages ∧
  G .SP3_id = SP3ID * G .num_stages ∧ G .EP_id = EPID * G .num_stages

instance (G : SVar → Int) : Decidable (EnumLayout G) := by
  unfold EnumLayout; infer_instance

/-! ## Closed forms used to state the behaviour of `conduct_sia` -/

/-- The sum line 19 multiplies by `cov`, at stratum offset `j = i - 1`, in source order:
`M + S + SP1 + SP2 + SP3 + E + EP + E + R`. -/
def moved (d : SiaIds) (y : NumericVector) (j : Int) : ℚ :=
  val y (d.M_id + j) + val y (d.S_id + j) + val y (d.SP1_id + j) + val y (d.SP2_id + j)
    + val y (d.SP3_id + j) + val y (d.E_id + j) + val y (d.EP_id + j) + val y (d.E_id + j)
    + val y (d.R_id + j)

/-- The nine assignments of the loop body as total updates, at stratum offset `j`. -/
def sia_pure (d : SiaIds) (cov : ℚ) (y : NumericVector) (j : Int) : NumericVector :=
  let y := upd y (d.V_id + j) (val y (d.V_id + j) + cov * moved d y j)
  let y := upd y (d.M_id + j) ((1 - cov) * val y (d.M_id + j))
  let y := upd y (d.S_id + j) ((1 - cov) * val y (d.S_id + j))
  let y := upd y (d.SP1_id + j) ((1 - cov) * val y (d.SP1_id + j))
  let y := upd y (d.SP2_id + j) ((1 - cov) * val y (d.SP2_id + j))
  let y := upd y (d.SP3_id + j) ((1 - cov) * val y (d.SP3_id + j))
  let y := upd y (d.E_id + j) ((1 - cov) * val y (d.E_id + j))
  let y := upd y (d.EP_id + j) ((1 - cov) * val y (d.EP_id + j))
  upd y (d.R_id + j) ((1 - cov) * val y (d.R_id + j))

/-- The offsets of the eight compartments the loop scales by `1 - cov`. -/
def eligible (d : SiaIds) : List Int :=
  [d.M_id, d.S_id, d.SP1_id, d.SP2_id, d.SP3_id, d.E_id, d.EP_id, d.R_id]

/-- Stratum offset `j` is a valid place for the nine compartments of `d` in `y`. -/
def SiaInB (d : SiaIds) (y : NumericVector) (j : Int) : Prop :=
  InB y (d.V_id + j) ∧ ∀ c ∈ eligible d, InB y (c + j)

instance (d : SiaIds) (y : NumericVector) (j : Int) : Decidable (SiaInB d y j) := by
  unfold SiaInB; infer_instance

/-- Contents after one iteration at stratum offset `j`, in terms of the contents before. -/
def stepVal (d : SiaIds) (cov : ℚ) (y : NumericVector) (j k : Int) : ℚ :=
  if k = d.V_id + j then val y k + cov * moved d y j
  else if k - j ∈ eligible d then (1 - cov) * val y k
  else val y k

/-- The blocks of `ns` entries that start at `a` and at `b` do not meet. -/
def Apart (ns a b : Int) : Prop := a + ns ≤ b ∨ b + ns ≤ a

/-- The nine blocks of `ns` entries `conduct_sia` addresses through `d` lie inside `y`
and are pairwise disjoint. -/
def SiaBlocks (d : SiaIds) (y : NumericVector) (ns : Int) : Prop :=
  (∀ c ∈ d.V_id :: eligible d, 0 ≤ c ∧ c + ns ≤ (y.length : Int)) ∧
    (d.V_id :: eligible d).Pairwise (Apart ns)

/-- Contents after the loop has run over the age groups `st..en` (1-based, inclusive),
in terms of the contents before. -/
def siaVal (d : SiaIds) (cov : ℚ) (y : NumericVector) (st en k : Int) : ℚ :=
  if st ≤ k - d.V_id + 1 ∧ k - d.V_id + 1 ≤ en then val y k + cov * moved d y (k - d.V_id)
  else if ∃ c ∈ eligible d, st ≤ k - c + 1 ∧ k - c + 1 ≤ en then (1 - cov) * val y k
  else val y k

instance (ns a b : Int) : Decidable (Apart ns a b) := by
  unfold Apart; infer_instance

/-- The state vector of the data model for `ns` age strata: the ten compartment names
resolve to the offsets `L`, and the ten blocks of `ns` entries that start there lie inside
the vector and are pairwise disjoint (in any block order). -/
def StateLayout (y : NumericVector) (ns : Int) (L : StateIds) : Prop :=
  state_ids y = .ok L ∧
    (∀ c ∈ L.I_id :: L.V_id :: eligible L.sia, 0 ≤ c ∧ c + ns ≤ (y.length : Int)) ∧
    (L.I_id :: L.V_id :: eligible L.sia).Pairwise (Apart ns)

instance (y : NumericVector) (ns : Int) (L : StateIds) : Decidable (StateLayout y ns L) := by
  unfold StateLayout; infer_instance

/-- The population of the stratum at offset `j`: the ten compartments, summed in the
order of line 105. -/
def localN (L : StateIds) (y : NumericVector) (j : Int) : ℚ :=
  val y (L.M_id + j) + val y (L.S_id + j) + val y (L.E_id + j) + val y (L.I_id + j)
    + val y (L.R_id + j) + val y (L.V_id + j) + val y (L.SP1_id + j) + val y (L.SP2_id + j)
    + val y (L.SP3_id + j) + val y (L.EP_id + j)

/-- The new `V` entry as the specification words it: the old `V` plus `cov` times the
eight eligible compartments, each once. -/
def sia_V_spec (L : StateIds) (cov : ℚ) (y : NumericVector) (j : Int) : ℚ :=
  val y (L.V_id + j) + cov * (val y (L.M_id + j) + val y (L.S_id + j) + val y (L.SP1_id + j)
    + val y (L.SP2_id + j) + val y (L.SP3_id + j) + val y (L.E_id + j) + val y (L.EP_id + j)
    + val y (L.R_id + j))

/-! ## Concrete inputs -/

/-- One stratum, blocks in the order of the `Class` enumeration. -/
def oneStratumIds : StateIds := ⟨0, 1, 2, 3, 4, 5, 6, 7, 8, 9⟩

/-- The scenario of the specification: `S = 50`, `M = 30`, `I = 20`, everything else 0. -/
def siaScenario : NumericVector :=
  [("M1", 30), ("S1", 50), ("E1", 0), ("I1", 20), ("R1", 0), ("V1", 0), ("1SP1", 0),
    ("2SP1", 0), ("3SP1", 0), ("EP1", 0)]

/-- One stratum with ten exposed individuals and nobody else. -/
def siaExposed : NumericVector :=
  [("M1", 0), ("S1", 0), ("E1", 10), ("I1", 0), ("R1", 0), ("V1", 0), ("1SP1", 0),
    ("2SP1", 0), ("3SP1", 0), ("EP1", 0)]

/-- Two strata, blocks in the order of the `Class` enumeration. -/
def twoStrataIds : StateIds := ⟨0, 2, 4, 6, 8, 10, 12, 14, 16, 18⟩

/-- A two-stratum state with every compartment populated. -/
def twoStrata : NumericVector :=
  [("M1", 1), ("M2", 2), ("S1", 30), ("S2", 40), ("E1", 5), ("E2", 6), ("I1", 7), ("I2", 8),
    ("R1", 9), ("R2", 10), ("V1", 11), ("V2", 12), ("1SP1", 13), ("1SP2", 14), ("2SP1", 15),
    ("2SP2", 16), ("3SP1", 17), ("3SP2", 18), ("EP1", 19), ("EP2", 20)]

/-- The output vector `r` holds `d` as the derivatives of stratum `i` at the indices the
state of stratum `i` is read from: `resolve(C) + i` for each compartment `C`. -/
def StoredByName (G : SVar → Int) (r : List (Option ℚ)) (i : Int) (d : Rates10) : Prop :=
  rateAt r (G .M_id + i) = some d.dM ∧ rateAt r (G .S_id + i) = some d.dS ∧
  rateAt r (G .E_id + i) = some d.dE ∧ rateAt r (G .I_id + i) = some d.dI ∧
  rateAt r (G .R_id + i) = some d.dR ∧ rateAt r (G .V_id + i) = some d.dV ∧
  rateAt r (G .SP1_id + i) = some d.dSP1 ∧ rateAt r (G .SP2_id + i) = some d.dSP2 ∧
  rateAt r (G .SP3_id + i) = some d.dSP3 ∧ rateAt r (G .EP_id + i) = some d.dEP

/-- Low-order rational stand-ins for `cos` and `pow`, for concrete evaluation. -/
def libTaylor : Libm := ⟨fun x => 1 - x ^ 2 / 2, fun b e => 1 + e * (b - 1)⟩

/-- A parameter vector for two strata, without routine vaccination. -/
def parmsTwo : NumericVector :=
  [("mu1", 1 / 100), ("mu2", 2 / 100), ("b1", 3 / 100), ("b2", 0), ("omega1", 1 / 10),
    ("omega2", 1 / 10), ("sigma1", 1 / 5), ("sigma2", 1 / 5), ("theta1", 1 / 20),
    ("theta2", 0), ("gamma1", 1 / 4), ("gamma2", 1 / 4), ("beta1", 1 / 2), ("beta2", 1 / 3),
    ("beta3", 1 / 4), ("beta4", 1 / 5), ("alpha1", 1 / 10), ("alpha2", 1 / 10),
    ("alpha3", 1 / 10), ("alpha4", 1 / 10), ("f1", 0), ("f2", 1 / 50), ("1delta1", 1 / 90),
    ("1delta2", 1 / 90), ("2delta1", 1 / 90), ("2delta2", 1 / 90), ("3delta1", 1 / 90),
    ("3delta2", 1 / 90), ("num_stages", 2), ("num_classes", 10), ("N1", 100), ("N2", 200),
    ("sim_type", 0), ("db", 1 / 1000), ("eps", 1 / 10000)]

/-- What the `static int` locals resolve to on `twoStrata` and `parmsTwo`. -/
def GTwo : SVar → Int
  | .mu_id => 0 | .b_id => 2 | .omega_id => 4 | .sigma_id => 6 | .theta_id => 8
  | .gamma_id => 10 | .beta_id => 12 | .alpha_id => 16 | .f_id => 20 | .delta1_id => 22
  | .delta2_id => 24 | .delta3_id => 26 | .num_stages => 2 | .num_classes => 10
  | .M_id => 0 | .S_id => 2 | .E_id => 4 | .I_id => 6 | .R_id => 8 | .V_id => 10
  | .SP1_id => 12 | .SP2_id => 14 | .SP3_id => 16 | .EP_id => 18

/-- One stratum laid out in the order the specification lists the compartments:
`M, S, SP1, SP2, SP3, E, EP, I, R, V`; only `V` is populated. -/
def specOrder : NumericVector :=
  [("M1", 0), ("S1", 0), ("1SP1", 0), ("2SP1", 0), ("3SP1", 0), ("E1", 0), ("EP1", 0),
    ("I1", 0), ("R1", 0), ("V1", 10)]

/-- The offsets the names of `specOrder` resolve to. -/
def specOrderIds : StateIds := ⟨0, 1, 5, 7, 8, 9, 2, 3, 4, 6⟩

/-- A parameter vector for one stratum: mortality 1/10, every other rate 0. -/
def parmsOne : NumericVector :=
  [("mu1", 1 / 10), ("b1", 0), ("omega1", 0), ("sigma1", 0), ("theta1", 0), ("gamma1", 0),
    ("beta1", 0), ("alpha1", 0), ("f1", 0), ("1delta1", 0), ("2delta1", 0), ("3delta1", 0),
    ("num_stages", 1), ("num_classes", 10), ("N1", 10), ("sim_type", 0), ("db", 0),
    ("eps", 0)]

/-- What the `static int` locals resolve to on `specOrder` and `parmsOne`. -/
def GSpec : SVar → Int
  | .mu_id => 0 | .b_id => 1 | .omega_id => 2 | .sigma_id => 3 | .theta_id => 4
  | .gamma_id => 5 | .beta_id => 6 | .alpha_id => 7 | .f_id => 8 | .delta1_id => 9
  | .delta2_id => 10 | .delta3_id => 11 | .num_stages => 1 | .num_classes => 10
  | .M_id => 0 | .S_id => 1 | .E_id => 5 | .I_id => 7 | .R_id => 8 | .V_id => 9
  | .SP1_id => 2 | .SP2_id => 3 | .SP3_id => 4 | .EP_id => 6

/-- Two strata with the `I` block first: `I, M, S, E, R, V, SP1, SP2, SP3, EP`. -/
def iFirst : NumericVector :=
  [("I1", 7), ("I2", 8), ("M1", 1), ("M2", 2), ("S1", 30), ("S2", 40), ("E1", 5), ("E2", 6),
    ("R1", 9), ("R2", 10), ("V1", 11), ("V2", 12), ("1SP1", 13), ("1SP2", 14), ("2SP1", 15),
    ("2SP2", 16), ("3SP1", 17), ("3SP2", 18), ("EP1", 19), ("EP2", 20)]

/-- The offsets the names of `iFirst` resolve to. -/
def iFirstIds : StateIds := ⟨2, 4, 6, 0, 8, 10, 12, 14, 16, 18⟩

/-- A state vector without the names `V1`, `1SP1`, `2SP1`, `3SP1`, `EP1`. -/
def fewNames : NumericVector := [("M1", 1), ("S1", 2), ("E1", 3), ("I1", 4), ("R1", 5)]

/-! ## The vector `conduct_sia` leaves behind -/

/-- The names `conduct_sia` resolves, in source order. -/
def siaNames : List String := ["M1", "S1", "E1", "R1", "V1", "1SP1", "2SP1", "3SP1", "EP1"]

/-- The contents of the caller's vector when `conduct_sia` ends: `y` is passed by reference
and assigned in place. A call that throws in the lookups of lines 8-16 has written nothing;
a call that returns leaves what it returns; a call that accesses an index outside the
vector has no defined contents (`none`). -/
def conduct_sia_mem (y : NumericVector) (st_agegrp_idx end_agegrp_idx : Int) (cov : ℚ) :
    Option NumericVector :=
  match sia_ids y with
  | .error _ => some y
  | .ok d =>
    match sia_loop d cov (end_agegrp_idx + 1 - st_agegrp_idx).toNat st_agegrp_idx y with
    | .ok y' => some y'
    | .error _ => none

/-! ## Sums over one stratum of the output -/

/-- The sum of the ten derivatives of one stratum; not finite when one of them is not. -/
def Rates10.total (d : Rates10) : Option ℚ :=
  d.dM.bind fun a0 => d.dS.bind fun a1 => d.dE.bind fun a2 => d.dI.bind fun a3 =>
  d.dR.bind fun a4 => d.dV.bind fun a5 => d.dSP1.bind fun a6 => d.dSP2.bind fun a7 =>
  d.dSP3.bind fun a8 => d.dEP.map fun a9 => a0 + a1 + a2 + a3 + a4 + a5 + a6 + a7 + a8 + a9

/-- The ten entries of the output vector `r` that belong to stratum `i` (index
`i + pos * num_stages` for each position `pos` of `Class`), if they are all inside `r`. -/
def rowOf (num_stages : Int) (r : List (Option ℚ)) (i : Int) : Option Rates10 :=
  (rateAt r (i + MID * num_stages)).bind fun a0 =>
  (rateAt r (i + SID * num_stages)).bind fun a1 =>
  (rateAt r (i + EID * num_stages)).bind fun a2 =>
  (rateAt r (i + IID * num_stages)).bind fun a3 =>
  (rateAt r (i + RID * num_stages)).bind fun a4 =>
  (rateAt r (i + VID * num_stages)).bind fun a5 =>
  (rateAt r (i + SP1ID * num_stages)).bind fun a6 =>
  (rateAt r (i + SP2ID * num_stages)).bind fun a7 =>
  (rateAt r (i + SP3ID * num_stages)).bind fun a8 =>
  (rateAt r (i + EPID * num_stages)).map fun a9 => ⟨a0, a1, a2, a3, a4, a5, a6, a7, a8, a9⟩

/-- The sum of the ten derivatives the output vector `r` holds for stratum `i`. -/
def stratumTotal (num_stages : Int) (r : List (Option ℚ)) (i : Int) : Option ℚ :=
  (rowOf num_stages r i).bind Rates10.total

/-- One stratum in the order of `Class` with ten susceptibles and nobody else. -/
def onlyS : NumericVector :=
  [("M1", 0), ("S1", 10), ("E1", 0), ("I1", 0), ("R1", 0), ("V1", 0), ("1SP1", 0),
    ("2SP1", 0), ("3SP1", 0), ("EP1", 0)]

/-- One empty stratum in the order of `Class`. -/
def emptyOne : NumericVector :=
  [("M1", 0), ("S1", 0), ("E1", 0), ("I1", 0), ("R1", 0), ("V1", 0), ("1SP1", 0),
    ("2SP1", 0), ("3SP1", 0), ("EP1", 0)]

/-- A parameter vector for one stratum: external introduction 1/10, every rate 0. -/
def parmsEps : NumericVector :=
  [("mu1", 0), ("b1", 0), ("omega1", 0), ("sigma1", 0), ("theta1", 0), ("gamma1", 0),
    ("beta1", 0), ("alpha1", 0), ("f1", 0), ("1delta1", 0), ("2delta1", 0), ("3delta1", 0),
    ("num_stages", 1), ("num_classes", 10), ("N1", 10), ("sim_type", 0), ("db", 0),
    ("eps", 1 / 10)]

/-- What the `static int` locals resolve to on a one-stratum state in the order of `Class`
and `parmsOne` or `parmsEps`. -/
def GOne : SVar → Int
  | .mu_id => 0 | .b_id => 1 | .omega_id => 2 | .sigma_id => 3 | .theta_id => 4
  | .gamma_id => 5 | .beta_id => 6 | .alpha_id => 7 | .f_id => 8 | .delta1_id => 9
  | .delta2_id => 10 | .delta3_id => 11 | .num_stages => 1 | .num_classes => 10
  | .M_id => 0 | .S_id => 1 | .E_id => 2 | .I_id => 3 | .R_id => 4 | .V_id => 5
  | .SP1_id => 6 | .SP2_id => 7 | .SP3_id => 8 | .EP_id => 9

/-- The scenario of the specification: two strata, `S = 100` in stratum 0, nobody else
(stratum 1 is empty). -/
def scenS : NumericVector :=
  [("M1", 0), ("M2", 0), ("S1", 100), ("S2", 0), ("E1", 0), ("E2", 0), ("I1", 0), ("I2", 0),
    ("R1", 0), ("R2", 0), ("V1", 0), ("V2", 0), ("1SP1", 0), ("1SP2", 0), ("2SP1", 0),
    ("2SP2", 0), ("3SP1", 0), ("3SP2", 0), ("EP1", 0), ("EP2", 0)]

/-- The scenario with one recovered individual in stratum 1, so that it is not empty. -/
def scenSR : NumericVector :=
  [("M1", 0), ("M2", 0), ("S1", 100), ("S2", 0), ("E1", 0), ("E2", 0), ("I1", 0), ("I2", 0),
    ("R1", 0), ("R2", 1), ("V1", 0), ("V2", 0), ("1SP1", 0), ("1SP2", 0), ("2SP1", 0),
    ("2SP2", 0), ("3SP1", 0), ("3SP2", 0), ("EP1", 0), ("EP2", 0)]

/-- The parameters of the scenario: every rate 0 except `theta` of stratum 0, 1/10. -/
def parmsAging : NumericVector :=
  [("mu1", 0), ("mu2", 0), ("b1", 0), ("b2", 0), ("omega1", 0), ("omega2", 0), ("sigma1", 0),
    ("sigma2", 0), ("theta1", 1 / 10), ("theta2", 0), ("gamma1", 0), ("gamma2", 0),
    ("beta1", 0), ("beta2", 0), ("beta3", 0), ("beta4", 0), ("alpha1", 0), ("alpha2", 0),
    ("alpha3", 0), ("alpha4", 0), ("f1", 0), ("f2", 0), ("1delta1", 0), ("1delta2", 0),
    ("2delta1", 0), ("2delta2", 0), ("3delta1", 0), ("3delta2", 0), ("num_stages", 2),
    ("num_classes", 10), ("N1", 100), ("N2", 100), ("sim_type", 0), ("db", 0), ("eps", 0)]

/-- Step 5 with `FOI = 0` and `f = 0`: what the specification recommends for a stratum
with `localN = 0`. -/
def step5Zero (lib : Libm) (t : ℚ) (y parms : NumericVector) (G : SVar → Int)
    (db eps : ℚ) (i : Int) : D10 :=
  let M := val y (G .M_id + i)
  let S := val y (G .S_id + i)
  let E := val y (G .E_id + i)
  let I := val y (G .I_id + i)
  let R := val y (G .R_id + i)
  let V := val y (G .V_id + i)
  let SP1 := val y (G .SP1_id + i)
  let SP2 := val y (G .SP2_id + i)
  let SP3 := val y (G .SP3_id + i)
  let EP := val y (G .EP_id + i)
  let mu := val parms (G .mu_id + i)
  let b := val parms (G .b_id + i) * growth lib t db
  let omega := val parms (G .omega_id + i)
  let sigma := val parms (G .sigma_id + i)
  let gamma := val parms (G .gamma_id + i)
  let theta := val parms (G .theta_id + i)
  let delta1 := val parms (G .delta1_id + i)
  let delta2 := val parms (G .delta2_id + i)
  let delta3 := val parms (G .delta3_id + i)
  { dM := b * N_total y G - (omega + mu + theta) * M
    dS := omega * M + delta3 * SP3 - (0 + mu + theta + 0) * S
    dSP1 := 0 * S - (mu + theta + delta1 + 0) * SP1
    dSP2 := delta1 * SP1 - (mu + theta + delta2 + 0) * SP2
    dSP3 := delta2 * SP2 - (mu + theta + delta3 + 0) * SP3
    dE := 0 * (S + SP2 + SP3) - (sigma + mu + theta) * E
    dEP := 0 * SP1 - (sigma + mu + theta) * EP
    dI := sigma * (E + EP) + eps * aNof y G i - (gamma + mu + theta) * I
    dR := gamma * I - (mu + theta) * R
    dV := -(mu + theta) * V }

/-! ## Earlier calls and the names a call looks up -/

/-- The name the initialiser of each `static int` looks up (lines 41-56 and 66-75). -/
def nameOf : SVar → String
  | .mu_id => "mu1"
  | .b_id => "b1"
  | .omega_id => "omega1"
  | .sigma_id => "sigma1"
  | .theta_id => "theta1"
  | .gamma_id => "gamma1"
  | .beta_id => "beta1"
  | .alpha_id => "alpha1"
  | .f_id => "f1"
  | .delta1_id => "1delta1"
  | .delta2_id => "2delta1"
  | .delta3_id => "3delta1"
  | .num_stages => "num_stages"
  | .num_classes => "num_classes"
  | .M_id => "M1"
  | .S_id => "S1"
  | .E_id => "E1"
  | .I_id => "I1"
  | .R_id => "R1"
  | .V_id => "V1"
  | .SP1_id => "1SP1"
  | .SP2_id => "2SP1"
  | .SP3_id => "3SP1"
  | .EP_id => "EP1"

/-- The names lines 57-59 look up in `parms` in every call. -/
def plainNames : List String := ["N1", "sim_type", "db"]

/-- One of the names lines 41-75 look up is absent from the vector it is looked up in:
the parameter names of lines 41-59 from `parms`, the ten compartment names from `y`. -/
def MissingName (y parms : NumericVector) : Prop :=
  (∃ x ∈ paramStatics, findIdx (nameOf x) parms = none) ∨
  (∃ n ∈ plainNames, findIdx n parms = none) ∨
  (∃ x ∈ stateStatics, findIdx (nameOf x) y = none)

instance (y parms : NumericVector) : Decidable (MissingName y parms) := by
  unfold MissingName; infer_instance

/-- The statics after a history of earlier calls `(t, y, parms)`, the first one made in a
process that has not called `get_ode_rates` before. -/
def statics_after (lib : Libm) (calls : List (ℚ × NumericVector × NumericVector)) : Statics :=
  calls.foldl (fun s c => (get_ode_rates lib c.1 c.2.1 c.2.2 s).2) Statics.fresh

/-- A state of ten entries none of which carries a compartment name. -/
def unnamed : NumericVector :=
  [("a", 1), ("b", 2), ("c", 3), ("d", 4), ("e", 5), ("f", 6), ("g", 7), ("h", 8), ("i", 9),
    ("j", 10)]

/-! ## A ten-stratum run with routine vaccination -/

/-- The routine-vaccination fraction as the specification words it: 0 unless routine
vaccination is enabled and `i` is the entry stratum 9, and then the entry of the `pv`
sequence, which starts at index `pv1` of `parms`, at index `floor(t / 365)`. -/
def pv_spec (parms : NumericVector) (sim_type pv1 : Int) (t : ℚ) (i : Int) : ℚ :=
  if sim_type ≠ 0 ∧ i = 9 then val parms (pv1 + ⌊t / 365⌋) else 0

/-- A block of a named vector: the values `vals` under the names `base1`, `base2`, ... -/
def block (base : String) (vals : List ℚ) : NumericVector :=
  (List.range vals.length).zipWith (fun j v => (base ++ Nat.repr (j + 1), v)) vals

/-- Ten strata in the order of `Class`: one recovered individual in every stratum and 100
susceptibles in stratum 8, the one that ages into stratum 9. -/
def tenStrata : NumericVector :=
  block "M" (List.replicate 10 0) ++ block "S" [0, 0, 0, 0, 0, 0, 0, 0, 100, 0]
    ++ block "E" (List.replicate 10 0) ++ block "I" (List.replicate 10 0)
    ++ block "R" (List.replicate 10 1) ++ block "V" (List.replicate 10 0)
    ++ block "1SP" (List.replicate 10 0) ++ block "2SP" (List.replicate 10 0)
    ++ block "3SP" (List.replicate 10 0) ++ block "EP" (List.replicate 10 0)

/-- Parameters for ten strata with routine vaccination switched on (`sim_type = 1`): every
rate is 0 except the aging rate `theta = 1/10` of stratum 8; the `pv` sequence is
`pv1 = 1/2`, `pv2 = 3/4`, and the entry before it is `db = 1/4`. -/
def parmsTen : NumericVector :=
  block "mu" (List.replicate 10 0) ++ block "b" (List.replicate 10 0)
    ++ block "omega" (List.replicate 10 0) ++ block "sigma" (List.replicate 10 0)
    ++ block "theta" [0, 0, 0, 0, 0, 0, 0, 0, 1 / 10, 0] ++ block "gamma" (List.replicate 10 0)
    ++ block "beta" (List.replicate 100 0) ++ block "alpha" (List.replicate 100 0)
    ++ block "f" (List.replicate 10 0) ++ block "1delta" (List.replicate 10 0)
    ++ block "2delta" (List.replicate 10 0) ++ block "3delta" (List.replicate 10 0)
    ++ [("num_stages", 10), ("num_classes", 10)] ++ block "N" (List.replicate 10 1)
    ++ [("sim_type", 1), ("eps", 0), ("db", 1 / 4), ("pv1", 1 / 2), ("pv2", 3 / 4)]

/-- What the `static int` locals resolve to on `tenStrata` and `parmsTen`. -/
def GTen : SVar → Int
  | .mu_id => 0 | .b_id => 10 | .omega_id => 20 | .sigma_id => 30 | .theta_id => 40
  | .gamma_id => 50 | .beta_id => 60 | .alpha_id => 160 | .f_id => 260 | .delta1_id => 270
  | .delta2_id => 280 | .delta3_id => 290 | .num_stages => 10 | .num_classes => 10
  | .M_id => 0 | .S_id => 10 | .E_id => 20 | .I_id => 30 | .R_id => 40 | .V_id => 50
  | .SP1_id => 60 | .SP2_id => 70 | .SP3_id => 80 | .EP_id => 90

/-! ## Vector lemmas -/

theorem length_setAt (v : NumericVector) (n : Nat) (x : ℚ) :
    (setAt v n x).length = v.length := by
  induction v generalizing n with
  | nil => rfl
  | cons p v ih => cases n <;> simp [setAt, ih]

theorem valAt_setAt (v : NumericVector) (n m : Nat) (x : ℚ) (h : n < v.length) :
    valAt (setAt v n x) m = if m = n then x else valAt v m := by
  induction v generalizing n m with
  | nil => simp at h
  | cons p v ih =>
    cases n with
    | zero => cases m <;> simp [setAt, valAt]
    | succ n =>
      cases m with
      | zero => simp [setAt, valAt]
      | succ m =>
        have h' : n < v.length := by simpa using h
        simp [setAt, valAt, ih n m h']

theorem setAt_valAt (v : NumericVector) (n : Nat) : setAt v n (valAt v n) = v := by
  induction v generalizing n with
  | nil => rfl
  | cons p v ih => cases n <;> simp [setAt, valAt, ih]

theorem findIdx_setAt (name : String) (v : NumericVector) (n : Nat) (x : ℚ) :
    findIdx name (setAt v n x) = findIdx name v := by
  induction v generalizing n with
  | nil => rfl
  | cons p v ih => cases n <;> simp [setAt, findIdx, ih]

theorem findIdx_lt (name : String) (v : NumericVector) (k : Nat)
    (h : findIdx name v = some k) : k < v.length := by
  induction v generalizing k with
  | nil => simp [findIdx] at h
  | cons p v ih =>
    by_cases hp : p.1 = name
    · simp [findIdx, hp] at h
      subst h
      simp
    · simp only [findIdx, hp, if_false] at h
      cases hf : findIdx name v with
      | none => simp [hf] at h
      | some a =>
        simp [hf] at h
        have := ih a hf
        subst h
        simp
        omega

theorem length_upd (v : NumericVector) (a : Int) (x : ℚ) : (upd v a x).length = v.length := by
  unfold upd
  split
  · exact length_setAt v _ x
  · rfl

theorem InB_upd (v : NumericVector) (a k : Int) (x : ℚ) : InB (upd v a x) k ↔ InB v k := by
  simp [InB, length_upd]

theorem val_upd (v : NumericVector) (a k : Int) (x : ℚ) (h : InB v a) :
    val (upd v a x) k = if k = a then x else val v k := by
  have hk : InB (upd v a x) k ↔ InB v k := InB_upd v a k x
  unfold val
  by_cases hb : InB v k
  · rw [if_pos (hk.mpr hb), if_pos hb]
    unfold upd
    rw [if_pos h, valAt_setAt v a.toNat k.toNat x (by have := h.1; have := h.2; omega)]
    have h1 := h.1
    have h2 := hb.1
    by_cases e : k = a
    · subst e
      simp
    · have : k.toNat ≠ a.toNat := by omega
      simp [this, e]
  · rw [if_neg (fun c => hb (hk.mp c)), if_neg hb]
    have : k ≠ a := fun e => hb (e ▸ h)
    simp [this]

theorem upd_val_self (v : NumericVector) (a : Int) : upd v a (val v a) = v := by
  unfold upd val
  split
  · exact setAt_valAt v _
  · rfl

theorem findName_upd (v : NumericVector) (a : Int) (x : ℚ) (name : String) :
    findName (upd v a x) name = findName v name := by
  have : findIdx name (upd v a x) = findIdx name v := by
    unfold upd
    split
    · rw [findIdx_setAt]
    · rfl
  unfold findName
  rw [this]

theorem readAt_ok (v : NumericVector) (k : Int) (h : InB v k) : readAt v k = .ok (val v k) := by
  simp [readAt, h]

theorem writeAt_ok (v : NumericVector) (k : Int) (x : ℚ) (h : InB v k) :
    writeAt v k x = .ok (upd v k x) := by
  simp [writeAt, h]

/-! ## One iteration of the `conduct_sia` loop -/

theorem sia_body_eq_pure (d : SiaIds) (cov : ℚ) (y : NumericVector) (i : Int)
    (h : SiaInB d y (i - 1)) : sia_body d cov y i = .ok (sia_pure d cov y (i - 1)) := by
  obtain ⟨hV, hE⟩ := h
  simp only [eligible, List.mem_cons, List.mem_singleton, forall_eq_or_imp, forall_eq,
    List.not_mem_nil, false_implies, implies_true, and_true] at hE
  obtain ⟨hM, hS, h1, h2, h3, hEx, hEP, hR⟩ := hE
  simp only [sia_body, add_sub_assoc, sia_pure, moved]
  simp [readAt_ok, writeAt_ok, InB_upd, hV, hM, hS, h1, h2, h3, hEx, hEP, hR, bind, Except.bind]

theorem sia_pure_noop (d : SiaIds) (cov : ℚ) (y : NumericVector) (j : Int)
    (h : ∀ c ∈ eligible d, cov * val y (c + j) = 0) : sia_pure d cov y j = y := by
  simp only [eligible, List.mem_cons, List.mem_singleton, forall_eq_or_imp, forall_eq,
    List.not_mem_nil, false_implies, implies_true, and_true] at h
  obtain ⟨hM, hS, h1, h2, h3, hE, hEP, hR⟩ := h
  have e0 : val y (d.V_id + j) + cov * moved d y j = val y (d.V_id + j) := by
    simp only [moved, mul_add, hM, hS, h1, h2, h3, hE, hEP, hR, add_zero]
  have e1 : ∀ a : Int, cov * val y a = 0 → (1 - cov) * val y a = val y a := by
    intro a ha
    rw [sub_mul, ha, one_mul, sub_zero]
  simp only [sia_pure, e0, upd_val_self, e1 _ hM, e1 _ hS, e1 _ h1, e1 _ h2, e1 _ h3,
    e1 _ hE, e1 _ hEP, e1 _ hR]

theorem length_sia_pure (d : SiaIds) (cov : ℚ) (y : NumericVector) (j : Int) :
    (sia_pure d cov y j).length = y.length := by
  simp only [sia_pure, length_upd]

theorem findName_sia_pure (d : SiaIds) (cov : ℚ) (y : NumericVector) (j : Int) (name : String) :
    findName (sia_pure d cov y j) name = findName y name := by
  simp only [sia_pure, findName_upd]

theorem val_sia_pure (d : SiaIds) (cov : ℚ) (y : NumericVector) (j k : Int)
    (h : SiaInB d y j) (hd : (d.V_id :: eligible d).Nodup) :
    val (sia_pure d cov y j) k = stepVal d cov y j k := by
  obtain ⟨hV, hE⟩ := h
  simp only [eligible, List.mem_cons, List.mem_singleton, forall_eq_or_imp, forall_eq,
    List.not_mem_nil, false_implies, implies_true, and_true] at hE
  obtain ⟨hM, hS, h1, h2, h3, hEx, hEP, hR⟩ := hE
  simp only [eligible, List.nodup_cons, List.mem_cons, List.mem_singleton, not_or,
    List.not_mem_nil, not_false_eq_true, List.nodup_nil, and_true] at hd
  obtain ⟨⟨a1, a2, a3, a4, a5, a6, a7, a8⟩, ⟨b2, b3, b4, b5, b6, b7, b8⟩,
    ⟨c3, c4, c5, c6, c7, c8⟩, ⟨d4, d5, d6, d7, d8⟩, ⟨e5, e6, e7, e8⟩, ⟨f6, f7, f8⟩,
    ⟨g7, g8⟩, h8⟩ := hd
  simp only [sia_pure, stepVal, eligible, List.mem_cons, List.mem_singleton, List.not_mem_nil,
    or_false, sub_eq_iff_eq_add]
  simp only [val_upd, InB_upd, hV, hM, hS, h1, h2, h3, hEx, hEP, hR, add_left_inj,
    a1, a2, a3, a4, a5, a6, a7, a8, b2, b3, b4, b5, b6, b7, b8, c3, c4, c5, c6, c7, c8,
    d4, d5, d6, d7, d8, e5, e6, e7, e8, f6, f7, f8, g7, g8, h8,
    Ne.symm a1, Ne.symm a2, Ne.symm a3, Ne.symm a4, Ne.symm a5, Ne.symm a6, Ne.symm a7,
    Ne.symm a8, Ne.symm b2, Ne.symm b3, Ne.symm b4, Ne.symm b5, Ne.symm b6, Ne.symm b7,
    Ne.symm b8, Ne.symm c3, Ne.symm c4, Ne.symm c5, Ne.symm c6, Ne.symm c7, Ne.symm c8,
    Ne.symm d4, Ne.symm d5, Ne.symm d6, Ne.symm d7, Ne.symm d8, Ne.symm e5, Ne.symm e6,
    Ne.symm e7, Ne.symm e8, Ne.symm f6, Ne.symm f7, Ne.symm f8, Ne.symm g7, Ne.symm g8,
    Ne.symm h8, if_false, if_true]
  by_cases kV : k = d.V_id + j
  · subst kV
    simp [a1, a2, a3, a4, a5, a6, a7, a8]
  simp only [kV, if_false]
  by_cases kR : k = d.R_id + j
  · subst kR
    simp [Ne.symm a8, Ne.symm b8, Ne.symm c8, Ne.symm d8, Ne.symm e8, Ne.symm f8, Ne.symm g8,
      Ne.symm h8]
  by_cases kEP : k = d.EP_id + j
  · subst kEP
    simp [Ne.symm a7, Ne.symm b7, Ne.symm c7, Ne.symm d7, Ne.symm e7, Ne.symm f7, Ne.symm g7,
      h8]
  by_cases kE : k = d.E_id + j
  · subst kE
    simp [Ne.symm a6, Ne.symm b6, Ne.symm c6, Ne.symm d6, Ne.symm e6, Ne.symm f6, g7, g8]
  by_cases k3 : k = d.SP3_id + j
  · subst k3
    simp [Ne.symm a5, Ne.symm b5, Ne.symm c5, Ne.symm d5, Ne.symm e5, f6, f7, f8]
  by_cases k2 : k = d.SP2_id + j
  · subst k2
    simp [Ne.symm a4, Ne.symm b4, Ne.symm c4, Ne.symm d4, e5, e6, e7, e8]
  by_cases k1 : k = d.SP1_id + j
  · subst k1
    simp [Ne.symm a3, Ne.symm b3, Ne.symm c3, d4, d5, d6, d7, d8]
  by_cases kS : k = d.S_id + j
  · subst kS
    simp [Ne.symm a2, Ne.symm b2, c3, c4, c5, c6, c7, c8]
  by_cases kM : k = d.M_id + j
  · subst kM
    simp [Ne.symm a1, b2, b3, b4, b5, b6, b7, b8]
  simp [kR, kEP, kE, k3, k2, k1, kS, kM]

/-! ## The whole loop -/

theorem apart_of_mem (ns : Int) (l : List Int) (h : l.Pairwise (Apart ns)) (a b : Int)
    (ha : a ∈ l) (hb : b ∈ l) : a = b ∨ Apart ns a b := by
  induction l with
  | nil => simp at ha
  | cons x l ih =>
    rw [List.pairwise_cons] at h
    rcases List.mem_cons.mp ha with rfl | ha'
    · rcases List.mem_cons.mp hb with rfl | hb'
      · exact Or.inl rfl
      · exact Or.inr (h.1 b hb')
    · rcases List.mem_cons.mp hb with rfl | hb'
      · exact Or.inr ((h.1 a ha').symm)
      · exact ih h.2 ha' hb'

theorem cell_inj (d : SiaIds) (y : NumericVector) (ns : Int) (hb : SiaBlocks d y ns)
    (c c' j j' : Int) (hc : c ∈ d.V_id :: eligible d) (hc' : c' ∈ d.V_id :: eligible d)
    (hj : 0 ≤ j ∧ j < ns) (hj' : 0 ≤ j' ∧ j' < ns) (e : c + j = c' + j') :
    c = c' ∧ j = j' := by
  rcases apart_of_mem ns _ hb.2 c c' hc hc' with h | h | h
  · subst h
    exact ⟨rfl, by omega⟩
  · omega
  · omega

theorem V_not_eligible (d : SiaIds) (y : NumericVector) (ns : Int) (hb : SiaBlocks d y ns)
    (hns : 0 < ns) : d.V_id ∉ eligible d := by
  intro hm
  have h := hb.2
  rw [List.pairwise_cons] at h
  rcases h.1 _ hm with h | h <;> omega

theorem nodup_of_blocks (d : SiaIds) (y : NumericVector) (ns : Int) (hb : SiaBlocks d y ns)
    (hns : 0 < ns) : (d.V_id :: eligible d).Nodup := by
  have h := hb.2
  refine List.Pairwise.imp ?_ h
  intro a b hab e
  subst e
  rcases hab with h | h <;> omega

theorem siaInB_of_blocks (d : SiaIds) (y : NumericVector) (ns : Int) (hb : SiaBlocks d y ns)
    (j : Int) (hj : 0 ≤ j ∧ j < ns) : SiaInB d y j := by
  constructor
  · have := hb.1 d.V_id (List.mem_cons_self _ _)
    unfold InB
    omega
  · intro c hc
    have := hb.1 c (List.mem_cons_of_mem _ hc)
    unfold InB
    omega

theorem stepVal_away (d : SiaIds) (cov : ℚ) (y : NumericVector) (ns : Int)
    (hb : SiaBlocks d y ns) (j j' c : Int) (hc : c ∈ d.V_id :: eligible d)
    (hj : 0 ≤ j ∧ j < ns) (hj' : 0 ≤ j' ∧ j' < ns) (hne : j' ≠ j) :
    stepVal d cov y j (c + j') = val y (c + j') := by
  unfold stepVal
  have hV : c + j' ≠ d.V_id + j := fun e =>
    hne (cell_inj d y ns hb c d.V_id j' j hc (List.mem_cons_self _ _) hj' hj e).2
  have hE : c + j' - j ∉ eligible d := fun hm =>
    hne (cell_inj d y ns hb c (c + j' - j) j' j hc (List.mem_cons_of_mem _ hm) hj' hj
      (by ring)).2
  rw [if_neg hV, if_neg hE]

theorem moved_away (d : SiaIds) (cov : ℚ) (y y1 : NumericVector) (ns : Int)
    (hb : SiaBlocks d y ns) (j j' : Int) (hj : 0 ≤ j ∧ j < ns) (hj' : 0 ≤ j' ∧ j' < ns)
    (hne : j' ≠ j) (hy1 : ∀ k, val y1 k = stepVal d cov y j k) :
    moved d y1 j' = moved d y j' := by
  have key : ∀ c ∈ eligible d, val y1 (c + j') = val y (c + j') := fun c hc => by
    rw [hy1, stepVal_away d cov y ns hb j j' c (List.mem_cons_of_mem _ hc) hj hj' hne]
  unfold moved
  rw [key d.M_id (by simp [eligible]), key d.S_id (by simp [eligible]),
    key d.SP1_id (by simp [eligible]), key d.SP2_id (by simp [eligible]),
    key d.SP3_id (by simp [eligible]), key d.E_id (by simp [eligible]),
    key d.EP_id (by simp [eligible]), key d.R_id (by simp [eligible])]

theorem siaVal_step (d : SiaIds) (cov : ℚ) (y y1 : NumericVector) (ns i en k : Int)
    (hb : SiaBlocks d y ns) (h1 : 1 ≤ i) (hle : i ≤ en) (h2 : en ≤ ns)
    (hy1 : ∀ k, val y1 k = stepVal d cov y (i - 1) k) :
    siaVal d cov y1 (i + 1) en k = siaVal d cov y i en k := by
  have hj : 0 ≤ i - 1 ∧ i - 1 < ns := by omega
  have hns : 0 < ns := by omega
  have hVm : d.V_id ∈ d.V_id :: eligible d := List.mem_cons_self _ _
  unfold siaVal
  by_cases hA : i + 1 ≤ k - d.V_id + 1 ∧ k - d.V_id + 1 ≤ en
  · -- `k` is a `V` entry of a later age group
    have hj' : 0 ≤ k - d.V_id ∧ k - d.V_id < ns := by omega
    have hne : k - d.V_id ≠ i - 1 := by omega
    have hk : k = d.V_id + (k - d.V_id) := by ring
    have e1 : val y1 k = val y k := by
      rw [hy1, hk, stepVal_away d cov y ns hb (i - 1) (k - d.V_id) d.V_id hVm hj hj' hne]
    rw [if_pos hA, if_pos (by omega), e1,
      moved_away d cov y y1 ns hb (i - 1) (k - d.V_id) hj hj' hne hy1]
  · rw [if_neg hA]
    by_cases hB : ∃ c ∈ eligible d, i + 1 ≤ k - c + 1 ∧ k - c + 1 ≤ en
    · -- `k` is an eligible entry of a later age group
      obtain ⟨c, hc, hr⟩ := hB
      have hcm : c ∈ d.V_id :: eligible d := List.mem_cons_of_mem _ hc
      have hj' : 0 ≤ k - c ∧ k - c < ns := by omega
      have hne : k - c ≠ i - 1 := by omega
      have hk : k = c + (k - c) := by ring
      have e1 : val y1 k = val y k := by
        rw [hy1, hk, stepVal_away d cov y ns hb (i - 1) (k - c) c hcm hj hj' hne]
      have hnV : ¬ (i ≤ k - d.V_id + 1 ∧ k - d.V_id + 1 ≤ en) := by
        intro hv
        have := cell_inj d y ns hb d.V_id c (k - d.V_id) (k - c) hVm hcm (by omega) hj'
          (by ring)
        exact V_not_eligible d y ns hb hns (this.1 ▸ hc)
      rw [if_pos ⟨c, hc, hr⟩, if_neg hnV, if_pos ⟨c, hc, by omega⟩, e1]
    · rw [if_neg hB, hy1]
      unfold stepVal
      by_cases c1 : k = d.V_id + (i - 1)
      · rw [if_pos c1, if_pos (by omega)]
        have : k - d.V_id = i - 1 := by omega
        rw [this]
      · rw [if_neg c1]
        by_cases c2 : k - (i - 1) ∈ eligible d
        · have hcm : k - (i - 1) ∈ d.V_id :: eligible d := List.mem_cons_of_mem _ c2
          have hnV : ¬ (i ≤ k - d.V_id + 1 ∧ k - d.V_id + 1 ≤ en) := by
            intro hv
            have := cell_inj d y ns hb d.V_id (k - (i - 1)) (k - d.V_id) (i - 1) hVm hcm
              (by omega) hj (by ring)
            exact V_not_eligible d y ns hb hns (this.1 ▸ c2)
          rw [if_pos c2, if_neg hnV, if_pos ⟨k - (i - 1), c2, by omega⟩]
        · have hnV : ¬ (i ≤ k - d.V_id + 1 ∧ k - d.V_id + 1 ≤ en) := by omega
          have hnE : ¬ ∃ c ∈ eligible d, i ≤ k - c + 1 ∧ k - c + 1 ≤ en := by
            rintro ⟨c, hc, hr⟩
            by_cases e : k - c + 1 = i
            · have : k - (i - 1) = c := by omega
              exact c2 (this ▸ hc)
            · exact hB ⟨c, hc, by omega⟩
          rw [if_neg c2, if_neg hnV, if_neg hnE]

theorem siaBlocks_congr (d : SiaIds) (y y1 : NumericVector) (ns : Int)
    (hb : SiaBlocks d y ns) (hl : y1.length = y.length) : SiaBlocks d y1 ns := by
  unfold SiaBlocks at *
  rw [hl]
  exact hb

theorem siaVal_empty (d : SiaIds) (cov : ℚ) (y : NumericVector) (st en k : Int)
    (h : en < st) : siaVal d cov y st en k = val y k := by
  unfold siaVal
  have h1 : ¬ (st ≤ k - d.V_id + 1 ∧ k - d.V_id + 1 ≤ en) := by omega
  have h2 : ¬ ∃ c ∈ eligible d, st ≤ k - c + 1 ∧ k - c + 1 ≤ en := by
    rintro ⟨c, _, hr⟩
    omega
  rw [if_neg h1, if_neg h2]

theorem sia_loop_spec (d : SiaIds) (cov : ℚ) (ns : Int) (n : Nat) :
    ∀ (i : Int) (y : NumericVector), SiaBlocks d y ns → 1 ≤ i → i + n - 1 ≤ ns →
      ∃ y', sia_loop d cov n i y = .ok y' ∧ y'.length = y.length ∧
        (∀ name, findName y' name = findName y name) ∧
        ∀ k, val y' k = siaVal d cov y i (i + n - 1) k := by
  induction n with
  | zero =>
    intro i y _ _ _
    refine ⟨y, rfl, rfl, fun _ => rfl, fun k => ?_⟩
    rw [siaVal_empty]
    simp
  | succ n ih =>
    intro i y hb h1 h2
    have hj : 0 ≤ i - 1 ∧ i - 1 < ns := by push_cast at h2; omega
    have hin := siaInB_of_blocks d y ns hb (i - 1) hj
    have hy1 : ∀ k, val (sia_pure d cov y (i - 1)) k = stepVal d cov y (i - 1) k :=
      fun k => val_sia_pure d cov y (i - 1) k hin (nodup_of_blocks d y ns hb (by omega))
    have hb1 := siaBlocks_congr d y _ ns hb (length_sia_pure d cov y (i - 1))
    obtain ⟨y', e, hl, hn, hv⟩ := ih (i + 1) _ hb1 (by omega) (by push_cast at h2; omega)
    refine ⟨y', ?_, ?_, ?_, ?_⟩
    · simp only [sia_loop, sia_body_eq_pure d cov y i hin, bind, Except.bind]
      exact e
    · rw [hl, length_sia_pure]
    · intro name
      rw [hn, findName_sia_pure]
    · intro k
      rw [hv]
      have e2 : i + 1 + (n : Int) - 1 = i + ((n + 1 : Nat) : Int) - 1 := by push_cast; ring
      rw [e2]
      exact siaVal_step d cov y _ ns i _ k hb h1 (by push_cast; omega) h2 hy1

/-! ## `conduct_sia` as a whole -/

theorem state_ids_ok (y : NumericVector) (L : StateIds) (h : state_ids y = .ok L) :
    findName y "M1" = .ok L.M_id ∧ findName y "S1" = .ok L.S_id ∧
    findName y "E1" = .ok L.E_id ∧ findName y "I1" = .ok L.I_id ∧
    findName y "R1" = .ok L.R_id ∧ findName y "V1" = .ok L.V_id ∧
    findName y "1SP1" = .ok L.SP1_id ∧ findName y "2SP1" = .ok L.SP2_id ∧
    findName y "3SP1" = .ok L.SP3_id ∧ findName y "EP1" = .ok L.EP_id := by
  unfold state_ids at h
  cases h1 : findName y "M1" <;> simp only [h1, bind, Except.bind] at h <;> try contradiction
  cases h2 : findName y "S1" <;> simp only [h2] at h <;> try contradiction
  cases h3 : findName y "E1" <;> simp only [h3] at h <;> try contradiction
  cases h4 : findName y "I1" <;> simp only [h4] at h <;> try contradiction
  cases h5 : findName y "R1" <;> simp only [h5] at h <;> try contradiction
  cases h6 : findName y "V1" <;> simp only [h6] at h <;> try contradiction
  cases h7 : findName y "1SP1" <;> simp only [h7] at h <;> try contradiction
  cases h8 : findName y "2SP1" <;> simp only [h8] at h <;> try contradiction
  cases h9 : findName y "3SP1" <;> simp only [h9] at h <;> try contradiction
  cases h10 : findName y "EP1" <;> simp only [h10] at h <;> try contradiction
  simp only [pure, Except.pure, Except.ok.injEq] at h
  subst h
  simp

theorem sia_ids_of_layout (y : NumericVector) (ns : Int) (L : StateIds)
    (h : StateLayout y ns L) : sia_ids y = .ok L.sia := by
  obtain ⟨h1, h2, h3, _, h5, h6, h7, h8, h9, h10⟩ := state_ids_ok y L h.1
  simp [sia_ids, h1, h2, h3, h5, h6, h7, h8, h9, h10, bind, Except.bind, pure, Except.pure,
    StateIds.sia]

theorem siaBlocks_of_layout (y : NumericVector) (ns : Int) (L : StateIds)
    (h : StateLayout y ns L) : SiaBlocks L.sia y ns := by
  refine ⟨fun c hc => h.2.1 c (List.mem_cons_of_mem _ hc), ?_⟩
  have := h.2.2
  rw [List.pairwise_cons] at this
  exact this.2

theorem conduct_sia_spec (y : NumericVector) (ns : Int) (L : StateIds) (st en : Int) (cov : ℚ)
    (h : StateLayout y ns L) (h1 : 1 ≤ st) (h2 : en ≤ ns) :
    ∃ y', conduct_sia y st en cov = .ok y' ∧ y'.length = y.length ∧
      (∀ name, findName y' name = findName y name) ∧
      ∀ k, val y' k = siaVal L.sia cov y st en k := by
  have hb := siaBlocks_of_layout y ns L h
  have hd := sia_ids_of_layout y ns L h
  by_cases hle : st ≤ en
  · obtain ⟨y', e, hl, hn, hv⟩ :=
      sia_loop_spec L.sia cov ns (en + 1 - st).toNat st y hb h1 (by omega)
    refine ⟨y', ?_, hl, hn, ?_⟩
    · simp only [conduct_sia, hd, bind, Except.bind]
      exact e
    · intro k
      rw [hv]
      have : st + ((en + 1 - st).toNat : Int) - 1 = en := by omega
      rw [this]
  · have hn : (en + 1 - st).toNat = 0 := by omega
    refine ⟨y, ?_, rfl, fun _ => rfl, fun k => ?_⟩
    · simp only [conduct_sia, hd, bind, Except.bind, hn, sia_loop]
    · rw [siaVal_empty]
      omega

theorem cell_inj_list (ns : Int) (l : List Int) (h : l.Pairwise (Apart ns))
    (c c' j j' : Int) (hc : c ∈ l) (hc' : c' ∈ l)
    (hj : 0 ≤ j ∧ j < ns) (hj' : 0 ≤ j' ∧ j' < ns) (e : c + j = c' + j') :
    c = c' ∧ j = j' := by
  rcases apart_of_mem ns l h c c' hc hc' with h | h | h
  · subst h
    exact ⟨rfl, by omega⟩
  · omega
  · omega

theorem siaVal_untouched (d : SiaIds) (cov : ℚ) (y : NumericVector) (st en k : Int)
    (h : ∀ c ∈ d.V_id :: eligible d, ¬ (st ≤ k - c + 1 ∧ k - c + 1 ≤ en)) :
    siaVal d cov y st en k = val y k := by
  unfold siaVal
  have h1 := h d.V_id (List.mem_cons_self _ _)
  have h2 : ¬ ∃ c ∈ eligible d, st ≤ k - c + 1 ∧ k - c + 1 ≤ en := by
    rintro ⟨c, hc, hr⟩
    exact h c (List.mem_cons_of_mem _ hc) hr
  rw [if_neg h1, if_neg h2]

theorem siaVal_eligible (d : SiaIds) (cov : ℚ) (y : NumericVector) (ns st en c j : Int)
    (hb : SiaBlocks d y ns) (hc : c ∈ eligible d) (h1 : 1 ≤ st) (h2 : en ≤ ns)
    (hj : st ≤ j + 1 ∧ j + 1 ≤ en) :
    siaVal d cov y st en (c + j) = (1 - cov) * val y (c + j) := by
  unfold siaVal
  have hnV : ¬ (st ≤ c + j - d.V_id + 1 ∧ c + j - d.V_id + 1 ≤ en) := by
    intro hv
    have := cell_inj d y ns hb d.V_id c (c + j - d.V_id) j (List.mem_cons_self _ _)
      (List.mem_cons_of_mem _ hc) (by omega) (by omega) (by ring)
    exact V_not_eligible d y ns hb (by omega) (this.1 ▸ hc)
  rw [if_neg hnV, if_pos ⟨c, hc, by omega⟩]

theorem siaVal_V (d : SiaIds) (cov : ℚ) (y : NumericVector) (st en j : Int)
    (hj : st ≤ j + 1 ∧ j + 1 ≤ en) :
    siaVal d cov y st en (d.V_id + j) = val y (d.V_id + j) + cov * moved d y j := by
  unfold siaVal
  have e : d.V_id + j - d.V_id = j := by ring
  rw [if_pos (by omega), e]

theorem sia_ids_congr (y y' : NumericVector)
    (h : ∀ name, findName y' name = findName y name) : sia_ids y' = sia_ids y := by
  simp only [sia_ids, h]

/-! ## `get_ode_rates`: one iteration -/

theorem upto_mem (n j : Int) : j ∈ upto n ↔ 0 ≤ j ∧ j < n := by
  unfold upto
  simp only [List.mem_map, List.mem_range]
  constructor
  · rintro ⟨a, ha, rfl⟩
    omega
  · rintro ⟨h0, h1⟩
    exact ⟨j.toNat, by omega, by omega⟩

theorem block_inb (len ns a j i : Int) (ha : 0 ≤ a ∧ a + ns * ns ≤ len)
    (hj : 0 ≤ j ∧ j < ns) (hi : 0 ≤ i ∧ i < ns) :
    0 ≤ j * ns + i + a ∧ j * ns + i + a < len := by
  have h1 : 0 ≤ j * ns := mul_nonneg hj.1 (by omega)
  have h2 : j * ns ≤ (ns - 1) * ns := mul_le_mul_of_nonneg_right (by omega) (by omega)
  have h3 : (ns - 1) * ns = ns * ns - ns := by ring
  constructor
  · omega
  · omega

theorem raw_rates_eq (lib : Libm) (t : ℚ) (y parms : NumericVector) (c : Ctx) (i : Int)
    (h : LoopInB y parms c) (hi : 0 ≤ i ∧ i < c.G .num_stages) :
    raw_rates lib t y parms c i = .ok (rawD lib t y parms c i) := by
  obtain ⟨hy, hp, hn, hba, _⟩ := h
  have hY : ∀ x ∈ stateStatics, InB y (c.G x + i) := fun x hx => by
    have := hy x hx
    unfold InB
    omega
  have hP : ∀ x ∈ perStratum, InB parms (c.G x + i) := fun x hx => by
    have := hp x hx
    unfold InB
    omega
  have hN : InB parms (c.n_id + i) := by
    unfold InB
    omega
  have hB : ∀ x ∈ [SVar.beta_id, SVar.alpha_id], ∀ k ∈ upto (c.G .num_stages),
      InB parms (k * c.G .num_stages + i + c.G x) := fun x hx k hk => by
    rw [upto_mem] at hk
    exact block_inb _ _ _ _ _ (hba x hx) hk hi
  simp only [stateStatics, perStratum, List.mem_cons, List.mem_singleton, forall_eq_or_imp,
    forall_eq, List.not_mem_nil, false_implies, implies_true, and_true] at hY hP hB
  obtain ⟨y1, y2, y3, y4, y5, y6, y7, y8, y9, y10⟩ := hY
  obtain ⟨p1, p2, p3, p4, p5, p6, p7, p8, p9, p10⟩ := hP
  obtain ⟨hbeta, halpha⟩ := hB
  have hseq : seq 0 (c.G .num_stages - 1) = .ok (0, c.G .num_stages - 1) := by
    unfold seq
    rw [if_neg (by omega)]
  have hlen : c.G .num_stages - 1 - 0 + 1 = c.G .num_stages := by ring
  have sub1 : ∀ a : Int, (∀ k ∈ upto (c.G .num_stages),
      InB parms (k * c.G .num_stages + i + a)) →
      subset parms ((upto (c.G .num_stages)).map (fun j => (0 + j) * c.G .num_stages + i + a))
        = .ok ((upto (c.G .num_stages)).map (fun j => val parms (j * c.G .num_stages + i + a)))
      := by
    intro a ha
    unfold subset
    rw [if_pos]
    · simp only [List.map_map, zero_add]
      rfl
    · intro k hk
      simp only [List.mem_map, zero_add] at hk
      obtain ⟨j, hj, rfl⟩ := hk
      exact ha j hj
  simp only [raw_rates, readAt_ok, y1, y2, y3, y4, y5, y6, y7, y8, y9, y10, p1, p2, p3, p4,
    p5, p6, p7, p8, p9, p10, hN, hseq, hlen, sub1 _ hbeta, sub1 _ halpha, bind, Except.bind,
    pure, Except.pure, rawD, fOf, foiOf, aNof]

theorem pv_of_eq (parms : NumericVector) (sim_type pv_id yr i : Int)
    (h : sim_type ≠ 0 → i = 9 → InB parms (pv_id + yr)) :
    pv_of parms sim_type pv_id yr i = .ok (pvVal parms sim_type pv_id yr i) := by
  unfold pv_of pvVal
  by_cases hc : sim_type ≠ 0 ∧ i = 9
  · rw [if_pos hc, if_pos hc, readAt_ok _ _ (h hc.1 hc.2)]
  · rw [if_neg hc, if_neg hc]

theorem inflow_eq (y parms : NumericVector) (c : Ctx) (i : Int) (d : Rates10)
    (h : LoopInB y parms c) (hi : 0 ≤ i ∧ i < c.G .num_stages) :
    inflow y parms c i d = .ok (inflowD y parms c i d) := by
  unfold inflow inflowD
  by_cases h0 : i ≠ 0
  · obtain ⟨hy, hp, _, _, hpv⟩ := h
    have hY : ∀ x ∈ stateStatics, InB y (c.G x + (i - 1)) := fun x hx => by
      have := hy x hx
      unfold InB
      omega
    have hT : InB parms (c.G .theta_id + (i - 1)) := by
      have := hp .theta_id (by simp [perStratum])
      unfold InB
      omega
    have hPV := pv_of_eq parms c.sim_type c.pv_id c.yr i (fun hs h9 => hpv hs (by omega))
    simp only [stateStatics, List.mem_cons, List.mem_singleton, forall_eq_or_imp,
      forall_eq, List.not_mem_nil, false_implies, implies_true, and_true] at hY
    obtain ⟨y1, y2, y3, y4, y5, y6, y7, y8, y9, y10⟩ := hY
    rw [if_pos h0, if_pos h0]
    simp only [add_sub_assoc, readAt_ok, hT, hPV, y1, y2, y3, y4, y5, y6, y7, y8, y9, y10,
      bind, Except.bind, pure, Except.pure]
  · rw [if_neg h0, if_neg h0]
    rfl

theorem setRate_ok (r : List (Option ℚ)) (k : Int) (x : Option ℚ)
    (h : 0 ≤ k ∧ k < (r.length : Int)) : setRate r k x = .ok (setP r k x) := by
  simp [setRate, setP, h]

theorem length_setP (r : List (Option ℚ)) (k : Int) (x : Option ℚ) :
    (setP r k x).length = r.length := by
  unfold setP
  split
  · exact List.length_set _ _ _
  · rfl

theorem rateAt_setP (r : List (Option ℚ)) (a k : Int) (x : Option ℚ)
    (h : 0 ≤ a ∧ a < (r.length : Int)) :
    rateAt (setP r a x) k = if k = a then some x else rateAt r k := by
  unfold rateAt setP
  rw [if_pos h]
  by_cases hk : 0 ≤ k
  · rw [if_pos hk, if_pos hk, List.getElem?_set]
    by_cases e : k = a
    · subst e
      have : k.toNat < r.length := by omega
      simp [this]
    · have : a.toNat ≠ k.toNat := by omega
      simp [this, e]
  · rw [if_neg hk, if_neg hk]
    have : k ≠ a := by omega
    simp [this]

theorem length_storeP (ns i : Int) (d : Rates10) (r : List (Option ℚ)) :
    (storeP ns i d r).length = r.length := by
  simp only [storeP, length_setP]

theorem store_eq (ns i : Int) (d : Rates10) (r : List (Option ℚ))
    (hi : 0 ≤ i ∧ i < ns) (hl : 10 * ns ≤ (r.length : Int)) :
    store ns i d r = .ok (storeP ns i d r) := by
  simp only [store, storeP, MID, SID, EID, IID, RID, VID, SP1ID, SP2ID, SP3ID, EPID]
  rw [setRate_ok _ _ _ (by omega)]
  simp only [bind, Except.bind]
  rw [setRate_ok _ _ _ (by simp only [length_setP]; omega)]
  simp only []
  rw [setRate_ok _ _ _ (by simp only [length_setP]; omega)]
  simp only []
  rw [setRate_ok _ _ _ (by simp only [length_setP]; omega)]
  simp only []
  rw [setRate_ok _ _ _ (by simp only [length_setP]; omega)]
  simp only []
  rw [setRate_ok _ _ _ (by simp only [length_setP]; omega)]
  simp only []
  rw [setRate_ok _ _ _ (by simp only [length_setP]; omega)]
  simp only []
  rw [setRate_ok _ _ _ (by simp only [length_setP]; omega)]
  simp only []
  rw [setRate_ok _ _ _ (by simp only [length_setP]; omega)]
  simp only []
  rw [setRate_ok _ _ _ (by simp only [length_setP]; omega)]

theorem ode_body_eq (lib : Libm) (t : ℚ) (y parms : NumericVector) (c : Ctx) (i : Int)
    (r : List (Option ℚ)) (h : LoopInB y parms c) (hi : 0 ≤ i ∧ i < c.G .num_stages)
    (hl : 10 * c.G .num_stages ≤ (r.length : Int)) :
    ode_body lib t y parms c i r
      = .ok (storeP (c.G .num_stages) i (derivs lib t y parms c i) r) := by
  simp only [ode_body, raw_rates_eq lib t y parms c i h hi, inflow_eq y parms c i _ h hi,
    store_eq _ i _ r hi hl, bind, Except.bind, derivs]

theorem rateAt_storeP (ns i k : Int) (d : Rates10) (r : List (Option ℚ))
    (hi : 0 ≤ i ∧ i < ns) (hl : 10 * ns ≤ (r.length : Int)) :
    rateAt (storeP ns i d r) k =
      if k = i + 9 * ns then some d.dEP else if k = i + 8 * ns then some d.dSP3
      else if k = i + 7 * ns then some d.dSP2 else if k = i + 6 * ns then some d.dSP1
      else if k = i + 5 * ns then some d.dV else if k = i + 4 * ns then some d.dR
      else if k = i + 3 * ns then some d.dI else if k = i + 2 * ns then some d.dE
      else if k = i + 1 * ns then some d.dS else if k = i + 0 * ns then some d.dM
      else rateAt r k := by
  simp only [storeP, MID, SID, EID, IID, RID, VID, SP1ID, SP2ID, SP3ID, EPID]
  rw [rateAt_setP _ _ _ _ (by simp only [length_setP]; omega),
    rateAt_setP _ _ _ _ (by simp only [length_setP]; omega),
    rateAt_setP _ _ _ _ (by simp only [length_setP]; omega),
    rateAt_setP _ _ _ _ (by simp only [length_setP]; omega),
    rateAt_setP _ _ _ _ (by simp only [length_setP]; omega),
    rateAt_setP _ _ _ _ (by simp only [length_setP]; omega),
    rateAt_setP _ _ _ _ (by simp only [length_setP]; omega),
    rateAt_setP _ _ _ _ (by simp only [length_setP]; omega),
    rateAt_setP _ _ _ _ (by simp only [length_setP]; omega),
    rateAt_setP _ _ _ _ (by omega)]

theorem storeP_stored (ns i : Int) (d : Rates10) (r : List (Option ℚ))
    (hi : 0 ≤ i ∧ i < ns) (hl : 10 * ns ≤ (r.length : Int)) :
    Stored ns (storeP ns i d r) i d := by
  simp only [Stored, MID, SID, EID, IID, RID, VID, SP1ID, SP2ID, SP3ID, EPID]
  have hns : 0 < ns := by omega
  refine ⟨?_, ?_, ?_, ?_, ?_, ?_, ?_, ?_, ?_, ?_⟩ <;>
    (rw [rateAt_storeP ns i _ d r hi hl]
     repeat rw [if_neg (by omega)]
     rw [if_pos rfl])

theorem storeP_frame (ns i k : Int) (d : Rates10) (r : List (Option ℚ))
    (hi : 0 ≤ i ∧ i < ns) (hl : 10 * ns ≤ (r.length : Int)) (hk : Outside ns i 1 k) :
    rateAt (storeP ns i d r) k = rateAt r k := by
  simp only [Outside, classes, MID, SID, EID, IID, RID, VID, SP1ID, SP2ID, SP3ID, EPID,
    List.mem_cons, List.mem_singleton, forall_eq_or_imp, forall_eq, List.not_mem_nil,
    false_implies, implies_true, and_true] at hk
  rw [rateAt_storeP ns i k d r hi hl]
  repeat rw [if_neg (by omega)]

/-! ## `get_ode_rates`: the loop and the statics -/

theorem SM_bind_apply {α β : Type} (m : SM α) (f : α → SM β) (s : Statics) :
    (m >>= f) s = match m s with
      | (.ok a, s') => f a s'
      | (.error e, s') => (.error e, s') := rfl

theorem onRates_ok (f : List (Option ℚ) → Except Err (List (Option ℚ))) (s : Statics)
    (r r' : List (Option ℚ)) (hs : s.rates = some r) (hf : f r = .ok r') :
    onRates f s = (.ok (), { s with rates := some r' }) := by
  simp only [onRates, hs, hf]

theorem ode_loop_spec (lib : Libm) (t : ℚ) (y parms : NumericVector) (c : Ctx)
    (h : LoopInB y parms c) (n : Nat) :
    ∀ (i0 : Int) (s : Statics) (r : List (Option ℚ)), s.rates = some r → 0 ≤ i0 →
      i0 + n ≤ c.G .num_stages → 10 * c.G .num_stages ≤ (r.length : Int) →
      ∃ r', ode_loop lib t y parms c n i0 s = (.ok (), { s with rates := some r' }) ∧
        r'.length = r.length ∧
        (∀ i, i0 ≤ i → i < i0 + n →
          Stored (c.G .num_stages) r' i (derivs lib t y parms c i)) ∧
        ∀ k, Outside (c.G .num_stages) i0 n k → rateAt r' k = rateAt r k := by
  induction n with
  | zero =>
    intro i0 s r hs _ _ _
    refine ⟨r, ?_, rfl, ?_, fun _ _ => rfl⟩
    · cases s
      simp only at hs
      subst hs
      rfl
    · intro i h1 h2
      simp at h2
      omega
  | succ n ih =>
    intro i0 s r hs h0 hn hl
    have hi : 0 ≤ i0 ∧ i0 < c.G .num_stages := by push_cast at hn; omega
    have hb := ode_body_eq lib t y parms c i0 r h hi hl
    have hl1 : 10 * c.G .num_stages
        ≤ ((storeP (c.G .num_stages) i0 (derivs lib t y parms c i0) r).length : Int) := by
      rw [length_storeP]
      exact hl
    obtain ⟨r', e, hlen, hst, hfr⟩ := ih (i0 + 1)
      { s with rates := some (storeP (c.G .num_stages) i0 (derivs lib t y parms c i0) r) }
      _ rfl (by omega) (by push_cast at hn; omega) hl1
    refine ⟨r', ?_, ?_, ?_, ?_⟩
    · show (onRates (ode_body lib t y parms c i0) >>= fun _ =>
        ode_loop lib t y parms c n (i0 + 1)) s = _
      rw [SM_bind_apply, onRates_ok _ s r _ hs hb]
      exact e
    · rw [hlen, length_storeP]
    · intro i h1 h2
      by_cases e0 : i = i0
      · subst e0
        have hS := storeP_stored (c.G .num_stages) i (derivs lib t y parms c i) r hi hl
        have key : ∀ k, Outside (c.G .num_stages) (i + 1) n k →
            rateAt r' k = rateAt (storeP (c.G .num_stages) i (derivs lib t y parms c i) r) k :=
          hfr
        simp only [Stored, MID, SID, EID, IID, RID, VID, SP1ID, SP2ID, SP3ID, EPID] at hS ⊢
        have out : ∀ c' ∈ classes, Outside (c.G .num_stages) (i + 1) n
            (i + c' * c.G .num_stages) := by
          intro c' hc'
          simp only [Outside, classes, MID, SID, EID, IID, RID, VID, SP1ID, SP2ID, SP3ID, EPID,
            List.mem_cons, List.mem_singleton, forall_eq_or_imp, forall_eq, List.not_mem_nil,
            false_implies, implies_true, and_true, or_false] at hc' ⊢
          push_cast at hn
          rcases hc' with rfl | rfl | rfl | rfl | rfl | rfl | rfl | rfl | rfl | rfl <;>
            refine ⟨?_, ?_, ?_, ?_, ?_, ?_, ?_, ?_, ?_, ?_⟩ <;> omega
        obtain ⟨s0, s1, s2, s3, s4, s5, s6, s7, s8, s9⟩ := hS
        refine ⟨?_, ?_, ?_, ?_, ?_, ?_, ?_, ?_, ?_, ?_⟩
        · rw [key _ (out 0 (by simp [classes])), s0]
        · rw [key _ (out 1 (by simp [classes])), s1]
        · rw [key _ (out 2 (by simp [classes])), s2]
        · rw [key _ (out 3 (by simp [classes])), s3]
        · rw [key _ (out 4 (by simp [classes])), s4]
        · rw [key _ (out 5 (by simp [classes])), s5]
        · rw [key _ (out 6 (by simp [classes])), s6]
        · rw [key _ (out 7 (by simp [classes])), s7]
        · rw [key _ (out 8 (by simp [classes])), s8]
        · rw [key _ (out 9 (by simp [classes])), s9]
      · exact hst i (by omega) (by push_cast at h2; omega)
    · intro k hk
      have hk1 : Outside (c.G .num_stages) (i0 + 1) n k := by
        intro c' hc' hr
        exact hk c' hc' (by push_cast; omega)
      have hk2 : Outside (c.G .num_stages) i0 1 k := by
        intro c' hc' hr
        exact hk c' hc' (by push_cast; omega)
      rw [hfr k hk1, storeP_frame _ _ _ _ _ hi hl hk2]

theorem staticInt_run (y parms : NumericVector) (G : SVar → Int) (x : SVar) (s : Statics)
    (hG : initOf y parms x = .ok (G x)) (hA : s.ints x = none ∨ s.ints x = some (G x)) :
    staticInt y parms x s
      = (.ok (G x), { s with ints := Function.update s.ints x (some (G x)) }) := by
  unfold staticInt
  rcases hA with hA | hA
  · simp only [hA, hG]
  · simp only [hA]
    congr
    cases s
    simp only at hA ⊢
    rw [← hA, Function.update_eq_self]

theorem initStatics_run (y parms : NumericVector) (G : SVar → Int) (xs : List SVar) :
    ∀ s : Statics, (∀ x ∈ xs, initOf y parms x = .ok (G x)) →
      (∀ x ∈ xs, s.ints x = none ∨ s.ints x = some (G x)) →
      initStatics y parms xs s
        = (.ok (), { s with ints := fun x => if x ∈ xs then some (G x) else s.ints x }) := by
  induction xs with
  | nil =>
    intro s _ _
    simp [initStatics, pure]
  | cons x xs ih =>
    intro s hG hA
    show (staticInt y parms x >>= fun _ => initStatics y parms xs) s = _
    rw [SM_bind_apply, staticInt_run y parms G x s (hG x (List.mem_cons_self _ _))
      (hA x (List.mem_cons_self _ _))]
    simp only []
    rw [ih _ (fun z hz => hG z (List.mem_cons_of_mem _ hz))]
    · congr 2
      funext z
      by_cases hz : z ∈ xs
      · simp [hz]
      · by_cases e : z = x
        · subst e
          simp [hz]
        · simp [hz, e, Function.update_noteq e]
    · intro z hz
      by_cases e : z = x
      · subst e
        right
        simp
      · simp only [Function.update_noteq e]
        exact hA z (List.mem_cons_of_mem _ hz)

theorem liftE_apply {α : Type} (e : Except Err α) (s : Statics) : liftE e s = (e, s) := rfl

theorem readRange_ok (v : NumericVector) (a n : Int) (ha : 0 ≤ a) (hn : 1 ≤ n)
    (hl : a + n ≤ (v.length : Int)) :
    readRange v (a, a + n - 1) = .ok ((upto n).map (fun j => val v (a + j))) := by
  unfold readRange
  rw [if_pos]
  · have : a + n - 1 - a + 1 = n := by ring
    simp only [this]
  · constructor <;> unfold InB <;> simp only <;> omega

theorem readName_ok (v : NumericVector) (name : String) (x : ℚ)
    (h : readName v name = .ok x) :
    ∃ k, findName v name = .ok k ∧ readAt v k = .ok x := by
  unfold readName at h
  cases hf : findName v name with
  | error e => simp [hf, bind, Except.bind] at h
  | ok k =>
    simp only [hf, bind, Except.bind] at h
    exact ⟨k, rfl, h⟩

theorem staticRates_run (ns nc : Int) (s : Statics)
    (hR : ∀ r ∈ s.rates, r.length = (ns * nc).toNat) :
    ∃ r0, staticRates ns nc s = (.ok (), { s with rates := some r0 }) ∧
      r0.length = (ns * nc).toNat := by
  unfold staticRates
  cases hs : s.rates with
  | none => exact ⟨_, rfl, List.length_replicate _ _⟩
  | some r =>
    refine ⟨r, ?_, hR r (by simp [hs])⟩
    cases s
    simp only at hs
    subst hs
    rfl

theorem ode_setup_spec (lib : Libm) (t : ℚ) (y parms : NumericVector) (s : Statics)
    (G : SVar → Int) (n_id sim_type : Int) (db : ℚ) (pv_id : Int) (eps : ℚ)
    (hr : Resolves y parms s G n_id sim_type db pv_id eps)
    (h1 : 1 ≤ G .num_stages) (h10 : 10 ≤ G .num_classes)
    (hlen : G .num_classes * G .num_stages ≤ (y.length : Int)) :
    ∃ s' r0, ode_setup lib t y parms s
        = (.ok (ctxOf lib t y G n_id sim_type db pv_id eps), s') ∧
      s'.rates = some r0 ∧ r0.length = (G .num_stages * G .num_classes).toNat := by
  obtain ⟨hG, hA, hR, hN1, hsim, hdb, hpv, heps⟩ := hr
  have hG1 : ∀ x ∈ paramStatics, initOf y parms x = .ok (G x) :=
    fun x hx => hG x (List.mem_append_left _ hx)
  have hG2 : ∀ x ∈ stateStatics, initOf y parms x = .ok (G x) :=
    fun x hx => hG x (List.mem_append_right _ hx)
  have hA1 : ∀ x ∈ paramStatics, s.ints x = none ∨ s.ints x = some (G x) :=
    fun x hx => hA x (List.mem_append_left _ hx)
  have hmul : 10 * G .num_stages ≤ G .num_classes * G .num_stages :=
    mul_le_mul_of_nonneg_right h10 (by omega)
  obtain ⟨k, hk1, hk2⟩ := readName_ok parms "eps" eps heps
  unfold ode_setup
  rw [SM_bind_apply, initStatics_run y parms G paramStatics s hG1 hA1]
  simp only []
  rw [SM_bind_apply, liftE_apply, hN1]
  simp only []
  rw [SM_bind_apply, liftE_apply, hsim]
  simp only []
  rw [SM_bind_apply, liftE_apply, hdb]
  simp only []
  rw [SM_bind_apply, initStatics_run y parms G stateStatics _ hG2]
  swap
  · intro x hx
    have hnp : x ∉ paramStatics := by
      intro hp
      revert hx hp
      cases x <;> simp [paramStatics, stateStatics]
    simp only [hnp, if_false]
    exact hA x (List.mem_append_right _ hx)
  have hfull : (fun x => Option.getD (if x ∈ stateStatics then some (G x)
      else if x ∈ paramStatics then some (G x) else s.ints x) 0) = G := by
    funext x
    cases x <;> simp [stateStatics, paramStatics]
  have hseq1 : seq 0 (G .num_classes * G .num_stages - 1)
      = .ok (0, 0 + G .num_classes * G .num_stages - 1) := by
    unfold seq
    rw [if_neg (by omega), zero_add]
  have hseq2 : seq 0 (G .num_stages - 1) = .ok (0, G .num_stages - 1) := by
    unfold seq
    rw [if_neg (by omega)]
  have hrr1 := readRange_ok y 0 (G .num_classes * G .num_stages) (le_refl _) (by omega)
    (by omega)
  have hrr2 : readRange y (0 + IID * G .num_stages, G .num_stages - 1 + IID * G .num_stages)
      = .ok ((upto (G .num_stages)).map (fun j => val y (IID * G .num_stages + j))) := by
    have := readRange_ok y (IID * G .num_stages) (G .num_stages) (by simp only [IID]; omega)
      h1 (by simp only [IID]; omega)
    rw [← this]
    congr 2 <;> ring
  simp only []
  rw [SM_bind_apply]
  simp only [getInts, hfull]
  rw [SM_bind_apply, liftE_apply, hseq1]
  simp only []
  rw [SM_bind_apply, liftE_apply, hrr1]
  simp only []
  rw [SM_bind_apply, liftE_apply, hseq2]
  simp only []
  rw [SM_bind_apply, liftE_apply, hrr2]
  simp only []
  obtain ⟨r0, hr0, hl0⟩ := staticRates_run (G .num_stages) (G .num_classes)
    { ints := fun x => if x ∈ stateStatics then some (G x)
        else if x ∈ paramStatics then some (G x) else s.ints x,
      pv_id := s.pv_id, eps_id := s.eps_id, rates := s.rates } hR
  rw [SM_bind_apply, hr0]
  simp only []
  simp only [zero_add]
  by_cases hs0 : sim_type ≠ 0
  · rw [if_pos hs0] at hpv
    rw [if_pos hs0, SM_bind_apply, liftE_apply, hpv]
    simp only []
    rw [SM_bind_apply]
    simp only [setPvId]
    rw [SM_bind_apply, liftE_apply, hk1]
    simp only []
    rw [SM_bind_apply]
    simp only [setEpsId]
    rw [SM_bind_apply, liftE_apply, hk2]
    simp only []
    rw [SM_bind_apply]
    simp only [getPvId]
    exact ⟨_, r0, rfl, rfl, hl0⟩
  · rw [if_neg hs0] at hpv
    subst hpv
    rw [if_neg hs0, SM_bind_apply]
    simp only [pure]
    rw [SM_bind_apply, liftE_apply, hk1]
    simp only []
    rw [SM_bind_apply]
    simp only [setEpsId]
    rw [SM_bind_apply, liftE_apply, hk2]
    simp only []
    rw [SM_bind_apply]
    simp only [getPvId]
    exact ⟨_, r0, rfl, rfl, hl0⟩

theorem get_ode_rates_spec (lib : Libm) (t : ℚ) (y parms : NumericVector) (s : Statics)
    (G : SVar → Int) (n_id sim_type : Int) (db : ℚ) (pv_id : Int) (eps : ℚ)
    (hr : Resolves y parms s G n_id sim_type db pv_id eps)
    (h1 : 1 ≤ G .num_stages) (h10 : 10 ≤ G .num_classes)
    (hlen : G .num_classes * G .num_stages ≤ (y.length : Int))
    (hb : LoopInB y parms (ctxOf lib t y G n_id sim_type db pv_id eps)) :
    ∃ r s', get_ode_rates lib t y parms s = (.ok r, s') ∧
      (r.length : Int) = G .num_stages * G .num_classes ∧
      ∀ i, 0 ≤ i → i < G .num_stages → Stored (G .num_stages) r i
        (derivs lib t y parms (ctxOf lib t y G n_id sim_type db pv_id eps) i) := by
  obtain ⟨s1, r0, e1, hs1, hl0⟩ :=
    ode_setup_spec lib t y parms s G n_id sim_type db pv_id eps hr h1 h10 hlen
  have hmul : 10 * G .num_stages ≤ G .num_stages * G .num_classes := by
    rw [mul_comm (G .num_stages)]
    exact mul_le_mul_of_nonneg_right h10 (by omega)
  have hl0' : (r0.length : Int) = G .num_stages * G .num_classes := by
    rw [hl0]
    omega
  obtain ⟨r', e2, hl', hst, _⟩ :=
    ode_loop_spec lib t y parms (ctxOf lib t y G n_id sim_type db pv_id eps) hb
      (G .num_stages).toNat 0 s1 r0 hs1 (le_refl 0)
      (by show 0 + ((G .num_stages).toNat : Int) ≤ G .num_stages; omega)
      (by show 10 * G .num_stages ≤ (r0.length : Int); omega)
  refine ⟨r', { s1 with rates := some r' }, ?_, by rw [hl', hl0'], ?_⟩
  · unfold get_ode_rates
    rw [SM_bind_apply, e1]
    simp only []
    rw [SM_bind_apply]
    have e2' : ode_loop lib t y parms (ctxOf lib t y G n_id sim_type db pv_id eps)
        (G .num_stages).toNat 0 s1 = (.ok (), { s1 with rates := some r' }) := e2
    have hGc : (ctxOf lib t y G n_id sim_type db pv_id eps).G = G := rfl
    rw [hGc, e2']
    simp only [getRates]
  · intro i hi0 hi1
    exact hst i hi0 (by omega)

/-! ## The loop against the rate equations of the specification -/

theorem foiSum_map (sf : ℚ) (a b x : Int → ℚ) (l : List Int) :
    foiSum sf (l.map a) (l.map b) (l.map x)
      = (l.map (fun j => (1 + a j * sf) * b j * x j)).sum := by
  induction l with
  | nil => rfl
  | cons j l ih => simp [foiSum, ih]

theorem rawD_eq_step5 (lib : Libm) (t : ℚ) (y parms : NumericVector) (G : SVar → Int)
    (n_id sim_type : Int) (db : ℚ) (pv_id : Int) (eps : ℚ) (i : Int)
    (hI : G .I_id = IID * G .num_stages) (hN : aNof y G i ≠ 0) :
    rawD lib t y parms (ctxOf lib t y G n_id sim_type db pv_id eps) i
      = (step5 lib t y parms G n_id db eps i).toRates := by
  have hfoi : foiOf y parms (ctxOf lib t y G n_id sim_type db pv_id eps) i
      = some (specFOI lib t y parms G n_id i) := by
    simp only [foiOf, ctxOf, fdiv, hN, if_false, specFOI, seasonal, hI]
    rw [foiSum_map]
  have hf : fOf lib t y parms (ctxOf lib t y G n_id sim_type db pv_id eps) i
      = some (specF lib t y parms G n_id db i) := by
    simp only [fOf, ctxOf, fdiv, hN, if_false, specF, growth]
  simp only [rawD, hfoi, hf]
  simp only [step5, D10.toRates, Option.some_bind, Option.map_some', ctxOf, N_total, growth]

theorem derivs_eq_spec (lib : Libm) (t : ℚ) (y parms : NumericVector) (G : SVar → Int)
    (n_id sim_type : Int) (db : ℚ) (pv_id : Int) (eps : ℚ) (i : Int)
    (hI : G .I_id = IID * G .num_stages) (hN : aNof y G i ≠ 0) :
    derivs lib t y parms (ctxOf lib t y G n_id sim_type db pv_id eps) i
      = if i = 0 then (step5 lib t y parms G n_id db eps i).toRates
        else ((step5 lib t y parms G n_id db eps i).add
          (agingInflow y parms G (pvVal parms sim_type pv_id (yearOf t) i) i)).toRates := by
  unfold derivs
  rw [rawD_eq_step5 lib t y parms G n_id sim_type db pv_id eps i hI hN]
  unfold inflowD
  by_cases h0 : i = 0
  · rw [if_pos h0, if_neg (by simp [h0])]
  · rw [if_neg h0, if_pos h0]
    simp only [D10.toRates, D10.add, agingInflow, Option.map_some', ctxOf, Rates10.mk.injEq,
      Option.some.injEq]
    refine ⟨?_, ?_, ?_, ?_, ?_, ?_, ?_, ?_, ?_, ?_⟩ <;> ring_nf

/-! ## Claims about `conduct_sia` -/

/-- C1 (the code departs from the claim): on one stratum with `E = 10` and every other
compartment 0, coverage 1/2, `conduct_sia` returns `V = 10`, because line 19 adds the
exposed compartment twice; the claimed value, each eligible compartment once, is 5.
On the scenario of the claim (`E = 0`) the code does return `V = 40`, `S = 25`, `M = 15`,
`I = 20`. -/
theorem conduct_sia_counts_E_twice :
    StateLayout siaExposed 1 oneStratumIds ∧
    conduct_sia siaExposed 1 1 (1 / 2) = .ok
      [("M1", 0), ("S1", 0), ("E1", 5), ("I1", 0), ("R1", 0), ("V1", 10), ("1SP1", 0),
        ("2SP1", 0), ("3SP1", 0), ("EP1", 0)] ∧
    sia_V_spec oneStratumIds (1 / 2) siaExposed 0 = 5 ∧
    conduct_sia siaScenario 1 1 (1 / 2) = .ok
      [("M1", 15), ("S1", 25), ("E1", 0), ("I1", 20), ("R1", 0), ("V1", 40), ("1SP1", 0),
        ("2SP1", 0), ("3SP1", 0), ("EP1", 0)] := by
  refine ⟨by decide!, by decide!, by decide!, by decide!⟩

/-- C2 (the code departs from the claim): on one stratum with `E = 10` and every other
compartment 0, coverage 1/2, the ten compartments sum to 10 before `conduct_sia` and to
15 after it: `V` gains `cov * E` twice while `E` loses it once. -/
theorem conduct_sia_changes_total :
    ∃ y', conduct_sia siaExposed 1 1 (1 / 2) = .ok y' ∧
      localN oneStratumIds siaExposed 0 = 10 ∧ localN oneStratumIds y' 0 = 15 :=
  ⟨[("M1", 0), ("S1", 0), ("E1", 5), ("I1", 0), ("R1", 0), ("V1", 10), ("1SP1", 0),
    ("2SP1", 0), ("3SP1", 0), ("EP1", 0)], by decide!, by decide!, by decide!⟩

/-- C7: on a state whose ten compartment names resolve to disjoint blocks, for a range
`1 ≤ st ≤ en ≤ ns` and any coverage, `conduct_sia` returns a state in which each of
`M, S, SP1, SP2, SP3, E, EP, R` at every stratum of the range is `1 - cov` times its old
value, the `I` entry of every stratum is unchanged, and every entry (of `I`, `V` and the
eight others) of every stratum outside the range is unchanged. -/
theorem conduct_sia_frame (y : NumericVector) (ns : Int) (L : StateIds) (st en : Int) (cov : ℚ)
    (h : StateLayout y ns L) (h1 : 1 ≤ st) (hle : st ≤ en) (h2 : en ≤ ns) :
    ∃ y', conduct_sia y st en cov = .ok y' ∧
      (∀ c ∈ eligible L.sia, ∀ i, st ≤ i → i ≤ en →
        val y' (c + i - 1) = (1 - cov) * val y (c + i - 1)) ∧
      (∀ i, 1 ≤ i → i ≤ ns → val y' (L.I_id + i - 1) = val y (L.I_id + i - 1)) ∧
      (∀ c ∈ L.I_id :: L.V_id :: eligible L.sia, ∀ i, 1 ≤ i → i ≤ ns → (i < st ∨ en < i) →
        val y' (c + i - 1) = val y (c + i - 1)) := by
  obtain ⟨y', e, _, _, hv⟩ := conduct_sia_spec y ns L st en cov h h1 h2
  have hb := siaBlocks_of_layout y ns L h
  have hp := h.2.2
  have hsub : ∀ c ∈ L.V_id :: eligible L.sia, c ∈ L.I_id :: L.V_id :: eligible L.sia :=
    fun c hc => List.mem_cons_of_mem _ hc
  have hI : L.I_id ∉ L.V_id :: eligible L.sia := by
    intro hm
    have h' := hp
    rw [List.pairwise_cons] at h'
    rcases h'.1 _ hm with h'' | h'' <;> omega
  refine ⟨y', e, ?_, ?_, ?_⟩
  · intro c hc i hi1 hi2
    rw [add_sub_assoc, hv, siaVal_eligible L.sia cov y ns st en c (i - 1) hb hc h1 h2 (by omega)]
  · intro i hi1 hi2
    rw [add_sub_assoc, hv, siaVal_untouched]
    intro c hc hr
    have := cell_inj_list ns _ hp L.I_id c (i - 1) (L.I_id + (i - 1) - c)
      (List.mem_cons_self _ _) (hsub c hc) (by omega) (by omega) (by ring)
    exact hI (this.1 ▸ hc)
  · intro c hc i hi1 hi2 hout
    rw [add_sub_assoc, hv, siaVal_untouched]
    intro c' hc' hr
    have := cell_inj_list ns _ hp c c' (i - 1) (c + (i - 1) - c') hc (hsub c' hc')
      (by omega) (by omega) (by ring)
    omega

/-- C7 at a concrete input: two strata, range `2..2`, coverage 1/4. -/
theorem conduct_sia_frame_witness :
    ∃ y', conduct_sia twoStrata 2 2 (1 / 4) = .ok y' ∧
      (∀ c ∈ eligible twoStrataIds.sia, ∀ i, (2 : Int) ≤ i → i ≤ 2 →
        val y' (c + i - 1) = (1 - 1 / 4) * val twoStrata (c + i - 1)) ∧
      (∀ i, 1 ≤ i → i ≤ (2 : Int) →
        val y' (twoStrataIds.I_id + i - 1) = val twoStrata (twoStrataIds.I_id + i - 1)) ∧
      (∀ c ∈ twoStrataIds.I_id :: twoStrataIds.V_id :: eligible twoStrataIds.sia,
        ∀ i, 1 ≤ i → i ≤ (2 : Int) → (i < 2 ∨ 2 < i) →
        val y' (c + i - 1) = val twoStrata (c + i - 1)) :=
  conduct_sia_frame twoStrata 2 twoStrataIds 2 2 (1 / 4) (by decide!) (by decide) (by decide)
    (by decide)

/-- C8: for a state laid out in disjoint blocks and an in-range stratum `i`,
`conduct_sia(y, i, i, 0)` returns the input state itself. -/
theorem conduct_sia_cov_zero (y : NumericVector) (ns : Int) (L : StateIds) (i : Int)
    (h : StateLayout y ns L) (h1 : 1 ≤ i) (h2 : i ≤ ns) :
    conduct_sia y i i 0 = .ok y := by
  have hd := sia_ids_of_layout y ns L h
  have hin := siaInB_of_blocks L.sia y ns (siaBlocks_of_layout y ns L h) (i - 1) (by omega)
  have hn : (i + 1 - i).toNat = 1 := by omega
  simp only [conduct_sia, hd, bind, Except.bind, hn, sia_loop, sia_body_eq_pure _ _ _ _ hin]
  rw [sia_pure_noop]
  intro c _
  exact zero_mul _

/-- C8 at a concrete input: stratum 2 of the two-stratum state. -/
theorem conduct_sia_cov_zero_witness : conduct_sia twoStrata 2 2 0 = .ok twoStrata :=
  conduct_sia_cov_zero twoStrata 2 twoStrataIds 2 (by decide!) (by decide) (by decide)

/-- C9: for a state laid out in disjoint blocks and an in-range stratum `i`,
`conduct_sia(y, i, i, 1)` returns a state `y1` whose eight eligible compartments of
stratum `i` are 0, and `conduct_sia(y1, i, i, 1)` returns `y1` again. -/
theorem conduct_sia_full_idempotent (y : NumericVector) (ns : Int) (L : StateIds) (i : Int)
    (h : StateLayout y ns L) (h1 : 1 ≤ i) (h2 : i ≤ ns) :
    ∃ y1, conduct_sia y i i 1 = .ok y1 ∧
      (∀ c ∈ eligible L.sia, val y1 (c + i - 1) = 0) ∧
      conduct_sia y1 i i 1 = .ok y1 := by
  obtain ⟨y1, e, hl, hn, hv⟩ := conduct_sia_spec y ns L i i 1 h h1 h2
  have hb := siaBlocks_of_layout y ns L h
  have hz : ∀ c ∈ eligible L.sia, val y1 (c + (i - 1)) = 0 := by
    intro c hc
    rw [hv, siaVal_eligible L.sia 1 y ns i i c (i - 1) hb hc h1 h2 (by omega)]
    simp
  refine ⟨y1, e, ?_, ?_⟩
  · intro c hc
    rw [add_sub_assoc]
    exact hz c hc
  · have hd : sia_ids y1 = .ok L.sia := by
      rw [sia_ids_congr y y1 hn]
      exact sia_ids_of_layout y ns L h
    have hin := siaInB_of_blocks L.sia y1 ns (siaBlocks_congr L.sia y y1 ns hb hl) (i - 1)
      (by omega)
    have hn1 : (i + 1 - i).toNat = 1 := by omega
    simp only [conduct_sia, hd, bind, Except.bind, hn1, sia_loop,
      sia_body_eq_pure _ _ _ _ hin]
    rw [sia_pure_noop]
    intro c hc
    rw [hz c hc, mul_zero]

/-- C9 at a concrete input: stratum 1 of the two-stratum state. -/
theorem conduct_sia_full_idempotent_witness :
    ∃ y1, conduct_sia twoStrata 1 1 1 = .ok y1 ∧
      (∀ c ∈ eligible twoStrataIds.sia, val y1 (c + 1 - 1) = 0) ∧
      conduct_sia y1 1 1 1 = .ok y1 :=
  conduct_sia_full_idempotent twoStrata 2 twoStrataIds 1 (by decide!) (by decide) (by decide)

/-- C10: for a state with non-negative entries laid out in disjoint blocks, a range
`1 ≤ st ≤ en ≤ ns`, a stratum `i` of the range (`st ≤ i ≤ en`) and coverages `c1 ≤ c2`
(in particular `0 ≤ c1 ≤ c2 ≤ 1`), both calls return, and the `V` entry of stratum `i`
after `conduct_sia(y, st, en, c1)` is at most the one after `conduct_sia(y, st, en, c2)`. -/
theorem conduct_sia_V_monotone (y : NumericVector) (ns : Int) (L : StateIds) (st en i : Int)
    (c1 c2 : ℚ) (h : StateLayout y ns L) (hpos : ∀ k, 0 ≤ val y k)
    (h1 : 1 ≤ st) (h2 : en ≤ ns) (hi1 : st ≤ i) (hi2 : i ≤ en) (hc : c1 ≤ c2) :
    ∃ ya yb, conduct_sia y st en c1 = .ok ya ∧ conduct_sia y st en c2 = .ok yb ∧
      val ya (L.V_id + i - 1) ≤ val yb (L.V_id + i - 1) := by
  obtain ⟨ya, ea, _, _, hva⟩ := conduct_sia_spec y ns L st en c1 h h1 h2
  obtain ⟨yb, eb, _, _, hvb⟩ := conduct_sia_spec y ns L st en c2 h h1 h2
  refine ⟨ya, yb, ea, eb, ?_⟩
  have e : L.V_id + i - 1 = L.sia.V_id + (i - 1) := by
    show L.V_id + i - 1 = L.V_id + (i - 1)
    ring
  rw [e, hva, hvb, siaVal_V _ _ _ _ _ _ (by omega), siaVal_V _ _ _ _ _ _ (by omega)]
  have hm : 0 ≤ moved L.sia y (i - 1) := by
    unfold moved
    linarith [hpos (L.sia.M_id + (i - 1)), hpos (L.sia.S_id + (i - 1)),
      hpos (L.sia.SP1_id + (i - 1)), hpos (L.sia.SP2_id + (i - 1)),
      hpos (L.sia.SP3_id + (i - 1)), hpos (L.sia.E_id + (i - 1)),
      hpos (L.sia.EP_id + (i - 1)), hpos (L.sia.R_id + (i - 1))]
  have := mul_le_mul_of_nonneg_right hc hm
  linarith

/-- C10 at a concrete input: two strata, range `1..2`, stratum 2, coverages 1/4 and 3/4. -/
theorem conduct_sia_V_monotone_witness :
    ∃ ya yb, conduct_sia twoStrata 1 2 (1 / 4) = .ok ya ∧
      conduct_sia twoStrata 1 2 (3 / 4) = .ok yb ∧
      val ya (twoStrataIds.V_id + 2 - 1) ≤ val yb (twoStrataIds.V_id + 2 - 1) :=
  conduct_sia_V_monotone twoStrata 2 twoStrataIds 1 2 2 (1 / 4) (3 / 4) (by decide!)
    (by
      intro k
      unfold val
      split
      · rename_i hk
        obtain ⟨h0, h1⟩ := hk
        have h1' : k < 20 := h1
        interval_cases k <;> decide!
      · exact le_refl _)
    (by decide) (by decide) (by decide) (by decide) (by norm_num)

/-! ## `conduct_sia`: validation and errors -/

theorem siaInB_congr (d : SiaIds) (y y1 : NumericVector) (j : Int)
    (hl : y1.length = y.length) (h : SiaInB d y j) : SiaInB d y1 j := by
  unfold SiaInB InB at *
  rw [hl]
  exact h

theorem sia_loop_ok (d : SiaIds) (cov : ℚ) (n : Nat) :
    ∀ (i : Int) (y : NumericVector), (∀ j, i ≤ j → j < i + n → SiaInB d y (j - 1)) →
      ∃ y', sia_loop d cov n i y = .ok y' ∧ y'.length = y.length := by
  induction n with
  | zero =>
    intro i y _
    exact ⟨y, rfl, rfl⟩
  | succ n ih =>
    intro i y h
    have hin := h i (le_refl i) (by push_cast; omega)
    obtain ⟨y', e, hl⟩ := ih (i + 1) (sia_pure d cov y (i - 1)) (fun j h1 h2 =>
      siaInB_congr d y _ (j - 1) (length_sia_pure d cov y (i - 1))
        (h j (by omega) (by push_cast; omega)))
    refine ⟨y', ?_, by rw [hl, length_sia_pure]⟩
    simp only [sia_loop, sia_body_eq_pure d cov y i hin, bind, Except.bind]
    exact e

theorem sia_ids_error (y : NumericVector) (h : ∃ name ∈ siaNames, findIdx name y = none) :
    ∃ name ∈ siaNames, sia_ids y = .error (.unknownName name) := by
  simp only [sia_ids, findName, siaNames, List.mem_cons, List.mem_singleton, List.not_mem_nil,
    or_false, exists_eq_or_imp, exists_eq_left] at h ⊢
  cases h1 : findIdx "M1" y with
  | none => exact Or.inl rfl
  | some k1 =>
  cases h2 : findIdx "S1" y with
  | none => exact Or.inr (Or.inl rfl)
  | some k2 =>
  cases h3 : findIdx "E1" y with
  | none => exact Or.inr (Or.inr (Or.inl rfl))
  | some k3 =>
  cases h4 : findIdx "R1" y with
  | none => exact Or.inr (Or.inr (Or.inr (Or.inl rfl)))
  | some k4 =>
  cases h5 : findIdx "V1" y with
  | none => exact Or.inr (Or.inr (Or.inr (Or.inr (Or.inl rfl))))
  | some k5 =>
  cases h6 : findIdx "1SP1" y with
  | none => exact Or.inr (Or.inr (Or.inr (Or.inr (Or.inr (Or.inl rfl)))))
  | some k6 =>
  cases h7 : findIdx "2SP1" y with
  | none => exact Or.inr (Or.inr (Or.inr (Or.inr (Or.inr (Or.inr (Or.inl rfl))))))
  | some k7 =>
  cases h8 : findIdx "3SP1" y with
  | none => exact Or.inr (Or.inr (Or.inr (Or.inr (Or.inr (Or.inr (Or.inr (Or.inl rfl)))))))
  | some k8 =>
  cases h9 : findIdx "EP1" y with
  | none => exact Or.inr (Or.inr (Or.inr (Or.inr (Or.inr (Or.inr (Or.inr (Or.inr rfl)))))))
  | some k9 => simp [h1, h2, h3, h4, h5, h6, h7, h8, h9] at h

theorem siaVal_nonneg (d : SiaIds) (cov : ℚ) (y : NumericVector) (st en k : Int)
    (hpos : ∀ k, 0 ≤ val y k) (hc0 : 0 ≤ cov) (hc1 : cov ≤ 1) :
    0 ≤ siaVal d cov y st en k := by
  have hm : 0 ≤ moved d y (k - d.V_id) := by
    unfold moved
    linarith [hpos (d.M_id + (k - d.V_id)), hpos (d.S_id + (k - d.V_id)),
      hpos (d.SP1_id + (k - d.V_id)), hpos (d.SP2_id + (k - d.V_id)),
      hpos (d.SP3_id + (k - d.V_id)), hpos (d.E_id + (k - d.V_id)),
      hpos (d.EP_id + (k - d.V_id)), hpos (d.R_id + (k - d.V_id))]
  unfold siaVal
  split
  · exact add_nonneg (hpos k) (mul_nonneg hc0 hm)
  · split
    · exact mul_nonneg (by linarith) (hpos k)
    · exact hpos k

/-! ## Claims about validation and errors in `conduct_sia` -/

/-- C15, as stated, fails: `conduct_sia` has no coverage check. With coverage 2 on the
scenario state it returns normally, with `M = -30`, `S = -50`, `V = 160`, and that is what
the caller's vector holds afterwards. -/
theorem conduct_sia_accepts_coverage_two :
    StateLayout siaScenario 1 oneStratumIds ∧
    conduct_sia siaScenario 1 1 2 = .ok
      [("M1", -30), ("S1", -50), ("E1", 0), ("I1", 20), ("R1", 0), ("V1", 160), ("1SP1", 0),
        ("2SP1", 0), ("3SP1", 0), ("EP1", 0)] ∧
    conduct_sia_mem siaScenario 1 1 2 = some
      [("M1", -30), ("S1", -50), ("E1", 0), ("I1", 20), ("R1", 0), ("V1", 160), ("1SP1", 0),
        ("2SP1", 0), ("3SP1", 0), ("EP1", 0)] := by
  refine ⟨by decide!, by decide!, by decide!⟩

/-- C15 (amended): for a state laid out in disjoint blocks, a range `1 ≤ st`, `en ≤ ns`
and every coverage, also one outside `[0, 1]`, `conduct_sia` raises no error: it returns
(and leaves in the caller's vector) the state updated by the same formulas, `V` plus `cov`
times the sum of line 19 and the eight eligible compartments times `1 - cov`, on the strata
of the range. -/
theorem conduct_sia_no_coverage_check (y : NumericVector) (ns : Int) (L : StateIds)
    (st en : Int) (cov : ℚ) (h : StateLayout y ns L) (h1 : 1 ≤ st) (h2 : en ≤ ns) :
    ∃ y', conduct_sia y st en cov = .ok y' ∧ conduct_sia_mem y st en cov = some y' ∧
      ∀ k, val y' k = siaVal L.sia cov y st en k := by
  obtain ⟨y', e, _, _, hv⟩ := conduct_sia_spec y ns L st en cov h h1 h2
  refine ⟨y', e, ?_, hv⟩
  have hd := sia_ids_of_layout y ns L h
  have e' := e
  simp only [conduct_sia, hd, bind, Except.bind] at e'
  simp only [conduct_sia_mem, hd, e']

/-- C15 (amended) at a concrete input: coverage `-1/2` on stratum 2 of two strata. -/
theorem conduct_sia_no_coverage_check_witness :
    ∃ y', conduct_sia twoStrata 2 2 (-1 / 2) = .ok y' ∧
      conduct_sia_mem twoStrata 2 2 (-1 / 2) = some y' ∧
      ∀ k, val y' k = siaVal twoStrataIds.sia (-1 / 2) twoStrata 2 2 k :=
  conduct_sia_no_coverage_check twoStrata 2 twoStrataIds 2 2 (-1 / 2) (by decide!) (by decide)
    (by decide)

/-- C16, as stated, fails: `conduct_sia` has no range check. With `first = 2 > last = 1` it
returns the state unchanged and raises no error. With `first = last = 0` on a state whose
`I` block comes first it returns normally after reading and writing, for each compartment,
the last entry of the block before it: `I2` goes from 8 to 4 and `R2` from 10 to 88. -/
theorem conduct_sia_accepts_bad_range :
    conduct_sia twoStrata 2 1 (1 / 2) = .ok twoStrata ∧
    StateLayout iFirst 2 iFirstIds ∧
    conduct_sia iFirst 0 0 (1 / 2) = .ok
      [("I1", 7), ("I2", 4), ("M1", 1), ("M2", 1), ("S1", 30), ("S2", 20), ("E1", 5),
        ("E2", 3), ("R1", 9), ("R2", 88), ("V1", 11), ("V2", 6), ("1SP1", 13), ("1SP2", 7),
        ("2SP1", 15), ("2SP2", 8), ("3SP1", 17), ("3SP2", 9), ("EP1", 19), ("EP2", 20)] := by
  refine ⟨by decide!, by decide!, by decide!⟩

/-- C16 (amended): `conduct_sia` does not know `num_stages` and checks no range. For a
state whose nine names resolve, every coverage and every range `st`, `en` such that the
indices `id + i - 1` it addresses for `st ≤ i ≤ en` lie inside the vector, it returns
normally a vector of the same length, which is what the caller's vector then holds; when
`en < st` the loop does not run and that vector is the input itself. -/
theorem conduct_sia_no_range_check (y : NumericVector) (d : SiaIds) (st en : Int) (cov : ℚ)
    (hd : sia_ids y = .ok d) (hin : ∀ i, st ≤ i → i ≤ en → SiaInB d y (i - 1)) :
    ∃ y', conduct_sia y st en cov = .ok y' ∧ conduct_sia_mem y st en cov = some y' ∧
      y'.length = y.length ∧ (en < st → y' = y) := by
  obtain ⟨y', e, hl⟩ := sia_loop_ok d cov (en + 1 - st).toNat st y
    (fun j h1 h2 => hin j h1 (by omega))
  refine ⟨y', ?_, ?_, hl, ?_⟩
  · simp only [conduct_sia, hd, bind, Except.bind]
    exact e
  · simp only [conduct_sia_mem, hd, e]
  · intro hlt
    have hn : (en + 1 - st).toNat = 0 := by omega
    rw [hn] at e
    simp only [sia_loop, Except.ok.injEq] at e
    exact e.symm

/-- C16 (amended) at a concrete input: the range `0..0` on the state with the `I` block
first. -/
theorem conduct_sia_no_range_check_witness :
    ∃ y', conduct_sia iFirst 0 0 (1 / 2) = .ok y' ∧
      conduct_sia_mem iFirst 0 0 (1 / 2) = some y' ∧
      y'.length = iFirst.length ∧ ((0 : Int) < 0 → y' = iFirst) :=
  conduct_sia_no_range_check iFirst iFirstIds.sia 0 0 (1 / 2) (by decide!)
    (by
      intro i h0 h1
      have : i = 0 := by omega
      subst this
      decide!)

/-- C18: if one of the names `conduct_sia` resolves (`M1`, `S1`, `E1`, `R1`, `V1`, `1SP1`,
`2SP1`, `3SP1`, `EP1`) is absent from the state vector, then for every range and coverage
`conduct_sia` fails with the unknown-name error of such a name, raised by the lookups of
lines 8-16, and the caller's vector is the input, unmodified. -/
theorem conduct_sia_unknown_name (y : NumericVector) (st en : Int) (cov : ℚ)
    (h : ∃ name ∈ siaNames, findIdx name y = none) :
    ∃ name ∈ siaNames, sia_ids y = .error (.unknownName name) ∧
      conduct_sia y st en cov = .error (.unknownName name) ∧
      conduct_sia_mem y st en cov = some y := by
  obtain ⟨name, hm, e⟩ := sia_ids_error y h
  refine ⟨name, hm, e, ?_, ?_⟩
  · simp only [conduct_sia, e, bind, Except.bind]
  · simp only [conduct_sia_mem, e]

/-- C18 at a concrete input: a vector without `V1`. -/
theorem conduct_sia_unknown_name_witness :
    ∃ name ∈ siaNames, sia_ids fewNames = .error (.unknownName name) ∧
      conduct_sia fewNames 1 1 (1 / 2) = .error (.unknownName name) ∧
      conduct_sia_mem fewNames 1 1 (1 / 2) = some fewNames :=
  conduct_sia_unknown_name fewNames 1 1 (1 / 2) ⟨"V1", by decide, by decide⟩

/-- C20: for a state with non-negative entries laid out in disjoint blocks, a range
`1 ≤ st ≤ en ≤ ns` and a coverage `0 ≤ cov ≤ 1`, `conduct_sia` returns a state all of
whose entries are non-negative. -/
theorem conduct_sia_nonneg (y : NumericVector) (ns : Int) (L : StateIds) (st en : Int)
    (cov : ℚ) (h : StateLayout y ns L) (hpos : ∀ k, 0 ≤ val y k)
    (h1 : 1 ≤ st) (h2 : en ≤ ns) (hc0 : 0 ≤ cov) (hc1 : cov ≤ 1) :
    ∃ y', conduct_sia y st en cov = .ok y' ∧ ∀ k, 0 ≤ val y' k := by
  obtain ⟨y', e, _, _, hv⟩ := conduct_sia_spec y ns L st en cov h h1 h2
  refine ⟨y', e, fun k => ?_⟩
  rw [hv]
  exact siaVal_nonneg L.sia cov y st en k hpos hc0 hc1

theorem twoStrata_nonneg (k : Int) : 0 ≤ val twoStrata k := by
  unfold val
  split
  · rename_i hk
    obtain ⟨h0, h1⟩ := hk
    have h1' : k < 20 := h1
    interval_cases k <;> decide!
  · exact le_refl _

/-- C20 at a concrete input: two strata, range `1..2`, coverage 1/4. -/
theorem conduct_sia_nonneg_witness :
    ∃ y', conduct_sia twoStrata 1 2 (1 / 4) = .ok y' ∧ ∀ k, 0 ≤ val y' k :=
  conduct_sia_nonneg twoStrata 2 twoStrataIds 1 2 (1 / 4) (by decide!) twoStrata_nonneg
    (by decide) (by decide) (by norm_num) (by norm_num)

/-! ## Totals of one stratum -/

theorem fdiv_some (x y : ℚ) (h : y ≠ 0) : fdiv x y = some (x / y) := by
  simp [fdiv, h]

theorem fdiv_zero (x : ℚ) : fdiv x 0 = none := by
  simp [fdiv]

theorem fdiv_eq_some (x y z : ℚ) (h : fdiv x y = some z) : y ≠ 0 := by
  intro hy
  rw [hy, fdiv_zero] at h
  exact Option.noConfusion h

theorem stored_row (ns : Int) (r : List (Option ℚ)) (i : Int) (d : Rates10)
    (h : Stored ns r i d) : rowOf ns r i = some d := by
  obtain ⟨h0, h1, h2, h3, h4, h5, h6, h7, h8, h9⟩ := h
  simp only [rowOf, h0, h1, h2, h3, h4, h5, h6, h7, h8, h9, Option.some_bind, Option.map_some']

theorem derivs_total (lib : Libm) (t : ℚ) (y parms : NumericVector) (c : Ctx) (i : Int)
    (hN : aNof y c.G i ≠ 0) :
    (derivs lib t y parms c i).total = some
      (val parms (c.G .b_id + i) * lib.pow (1 + c.db) t * c.N
        - (val parms (c.G .mu_id + i) + val parms (c.G .theta_id + i)) * aNof y c.G i
        + c.eps * aNof y c.G i
        + (if i = 0 then 0 else val parms (c.G .theta_id + (i - 1)) * aNof y c.G (i - 1))) := by
  obtain ⟨f, hf⟩ : ∃ f, fOf lib t y parms c i = some f := ⟨_, fdiv_some _ _ hN⟩
  obtain ⟨F, hF⟩ : ∃ F, foiOf y parms c i = some F := ⟨_, fdiv_some _ _ hN⟩
  unfold derivs
  simp only [rawD, hf, hF, Option.some_bind, Option.map_some']
  unfold inflowD
  by_cases h0 : i = 0
  · rw [if_neg (by simp [h0]), if_pos h0]
    simp only [Rates10.total, Option.some_bind, Option.map_some', Option.some.injEq, aNof]
    ring
  · rw [if_pos h0, if_neg h0]
    simp only [Rates10.total, Option.some_bind, Option.map_some', Option.some.injEq, aNof]
    ring

/-! ## Claims about `get_ode_rates` -/

theorem stored_by_name (G : SVar → Int) (r : List (Option ℚ)) (i : Int) (d : Rates10)
    (h : EnumLayout G) (hs : Stored (G .num_stages) r i d) : StoredByName G r i d := by
  obtain ⟨e0, e1, e2, e3, e4, e5, e6, e7, e8, e9⟩ := h
  unfold StoredByName
  rw [e0, e1, e2, e3, e4, e5, e6, e7, e8, e9]
  unfold Stored at hs
  simp only [add_comm _ i]
  exact hs

theorem toInt_of_nonneg (x : ℚ) (h : 0 ≤ x) : toInt x = ⌊x⌋ := by
  unfold toInt
  rw [if_pos h]

/-- C3: for a state laid out in the block order `M, S, E, I, R, V, SP1, SP2, SP3, EP` whose
stratum 0 has `localN_0 ≠ 0`, in a call whose lookups resolve and whose accesses stay
inside the vectors, `get_ode_rates` returns a vector whose ten entries for stratum 0 are
the step-5 values of `step5` (with `b = b_0 (1 + db)^t`, `f` as in `specF`, `FOI` as in
`specFOI` and `N_total` the sum of all `num_classes * num_stages` state entries). -/
theorem get_ode_rates_stratum0 (lib : Libm) (t : ℚ) (y parms : NumericVector) (s : Statics)
    (G : SVar → Int) (n_id sim_type : Int) (db : ℚ) (pv_id : Int) (eps : ℚ)
    (hr : Resolves y parms s G n_id sim_type db pv_id eps) (hlay : EnumLayout G)
    (h1 : 1 ≤ G .num_stages) (h10 : 10 ≤ G .num_classes)
    (hlen : G .num_classes * G .num_stages ≤ (y.length : Int))
    (hb : LoopInB y parms (ctxOf lib t y G n_id sim_type db pv_id eps))
    (hN : aNof y G 0 ≠ 0) :
    ∃ r s', get_ode_rates lib t y parms s = (.ok r, s') ∧
      StoredByName G r 0 (step5 lib t y parms G n_id db eps 0).toRates := by
  obtain ⟨r, s', e, _, hst⟩ :=
    get_ode_rates_spec lib t y parms s G n_id sim_type db pv_id eps hr h1 h10 hlen hb
  refine ⟨r, s', e, stored_by_name G r 0 _ hlay ?_⟩
  have := hst 0 (le_refl 0) (by omega)
  rw [derivs_eq_spec lib t y parms G n_id sim_type db pv_id eps 0 hlay.2.2.2.1 hN,
    if_pos rfl] at this
  exact this

/-- C3 at a concrete input: the two-stratum state at `t = 10`, first call. -/
theorem get_ode_rates_stratum0_witness :
    ∃ r s', get_ode_rates libTaylor 10 twoStrata parmsTwo Statics.fresh = (.ok r, s') ∧
      StoredByName GTwo r 0
        (step5 libTaylor 10 twoStrata parmsTwo GTwo 30 (1 / 1000) (1 / 10000) 0).toRates :=
  get_ode_rates_stratum0 libTaylor 10 twoStrata parmsTwo Statics.fresh GTwo 30 0 (1 / 1000) 0
    (1 / 10000) (by decide!) (by decide!) (by decide!) (by decide!) (by decide!) (by decide!)
    (by decide!)

/-- C4: in the setting of C3, for a stratum `i > 0` with `localN_i ≠ 0` the ten entries
`get_ode_rates` returns for stratum `i` are the step-5 values of stratum `i` (with its own
`theta_i`) plus the aging inflow `agingInflow` from stratum `i - 1` at the rate
`theta_{i-1}`, with `pv` the value `pvVal` of the call; for stratum 0 they are the step-5
values alone. -/
theorem get_ode_rates_aging (lib : Libm) (t : ℚ) (y parms : NumericVector) (s : Statics)
    (G : SVar → Int) (n_id sim_type : Int) (db : ℚ) (pv_id : Int) (eps : ℚ) (i : Int)
    (hr : Resolves y parms s G n_id sim_type db pv_id eps) (hlay : EnumLayout G)
    (h10 : 10 ≤ G .num_classes)
    (hlen : G .num_classes * G .num_stages ≤ (y.length : Int))
    (hb : LoopInB y parms (ctxOf lib t y G n_id sim_type db pv_id eps))
    (hi0 : 0 ≤ i) (hi : i < G .num_stages) (hN : aNof y G i ≠ 0) :
    ∃ r s', get_ode_rates lib t y parms s = (.ok r, s') ∧
      StoredByName G r i
        (if i = 0 then (step5 lib t y parms G n_id db eps i).toRates
         else ((step5 lib t y parms G n_id db eps i).add
          (agingInflow y parms G (pvVal parms sim_type pv_id (yearOf t) i) i)).toRates) := by
  obtain ⟨r, s', e, _, hst⟩ :=
    get_ode_rates_spec lib t y parms s G n_id sim_type db pv_id eps hr (by omega) h10 hlen hb
  refine ⟨r, s', e, stored_by_name G r i _ hlay ?_⟩
  have := hst i hi0 hi
  rw [derivs_eq_spec lib t y parms G n_id sim_type db pv_id eps i hlay.2.2.2.1 hN] at this
  exact this

/-- C4 at a concrete input: stratum 1 of the two-stratum state at `t = 10`. -/
theorem get_ode_rates_aging_witness :
    ∃ r s', get_ode_rates libTaylor 10 twoStrata parmsTwo Statics.fresh = (.ok r, s') ∧
      StoredByName GTwo r 1
        (if (1 : Int) = 0 then
          (step5 libTaylor 10 twoStrata parmsTwo GTwo 30 (1 / 1000) (1 / 10000) 1).toRates
         else ((step5 libTaylor 10 twoStrata parmsTwo GTwo 30 (1 / 1000) (1 / 10000) 1).add
          (agingInflow twoStrata parmsTwo GTwo (pvVal parmsTwo 0 0 (yearOf 10) 1) 1)).toRates) :=
  get_ode_rates_aging libTaylor 10 twoStrata parmsTwo Statics.fresh GTwo 30 0 (1 / 1000) 0
    (1 / 10000) 1 (by decide!) (by decide!) (by decide!) (by decide!) (by decide!) (by decide)
    (by decide!) (by decide!)

/-- C5, as stated, fails for a negative time. In the first call on ten strata with
`sim_type = 1` at `t = -1`, line 83 gives `yr = (int)(t/365) = 0` while
`floor(t/365) = -1`: the inflow of stratum 9 uses `parms[pv1 + 0] = 1/2`, so the call
returns `dS_9 = 5` and `dV_9 = 101/20`, not the `15/2` and `101/40` that the entry at index
`floor(t/365)`, `parms[pv1 - 1] = 1/4`, gives. -/
theorem get_ode_rates_pv_truncates :
    Resolves tenStrata parmsTen Statics.fresh GTen 302 1 (1 / 4) 315 0 ∧ EnumLayout GTen ∧
    findName parmsTen "pv1" = .ok 315 ∧ yearOf (-1) = 0 ∧ ⌊(-1 : ℚ) / 365⌋ = -1 ∧
    pvVal parmsTen 1 315 (yearOf (-1)) 9 = 1 / 2 ∧ pv_spec parmsTen 1 315 (-1) 9 = 1 / 4 ∧
    (fun r => (rateAt r (GTen .S_id + 9), rateAt r (GTen .V_id + 9)))
        <$> (get_ode_rates libTaylor (-1) tenStrata parmsTen Statics.fresh).1
      = .ok (some (some 5), some (some (101 / 20))) ∧
    ((step5 libTaylor (-1) tenStrata parmsTen GTen 302 (1 / 4) 0 9).add
        (agingInflow tenStrata parmsTen GTen (pv_spec parmsTen 1 315 (-1) 9) 9)).toRates.dS
      = some (15 / 2) ∧
    ((step5 libTaylor (-1) tenStrata parmsTen GTen 302 (1 / 4) 0 9).add
        (agingInflow tenStrata parmsTen GTen (pv_spec parmsTen 1 315 (-1) 9) 9)).toRates.dV
      = some (101 / 40) := by
  refine ⟨by decide!, by decide!, by decide!, by decide!, by decide!, by decide!, by decide!,
    by decide!, by decide!, by decide!⟩

/-- C5 (amended): in a call of `get_ode_rates` whose lookups resolve and whose accesses
stay inside the vectors, on a state in the order of `Class`, `pv_id` is the index of `pv1`
in `parms` when `sim_type ≠ 0`, and for a stratum `i` with `localN_i ≠ 0` the derivatives
returned for stratum `i` are the step-5 values plus the aging inflow with a `pv` that is 0
unless `sim_type ≠ 0` and `i = 9`, in which case it is the entry of `parms` at index
`pv_id + (int)(t/365)`, an index inside `parms`; for `t ≥ 0` that is the entry of the `pv`
sequence at index `floor(t / 365)`. -/
theorem get_ode_rates_pv_floor (lib : Libm) (t : ℚ) (y parms : NumericVector) (s : Statics)
    (G : SVar → Int) (n_id sim_type : Int) (db : ℚ) (pv_id : Int) (eps : ℚ) (i : Int)
    (hr : Resolves y parms s G n_id sim_type db pv_id eps) (hlay : EnumLayout G)
    (h10 : 10 ≤ G .num_classes)
    (hlen : G .num_classes * G .num_stages ≤ (y.length : Int))
    (hb : LoopInB y parms (ctxOf lib t y G n_id sim_type db pv_id eps))
    (hi0 : 0 ≤ i) (hi : i < G .num_stages) (hN : aNof y G i ≠ 0) :
    (sim_type ≠ 0 → findName parms "pv1" = .ok pv_id) ∧
    (sim_type ≠ 0 → i = 9 → InB parms (pv_id + yearOf t)) ∧
    ∃ r s', get_ode_rates lib t y parms s = (.ok r, s') ∧
      StoredByName G r i
        (if i = 0 then (step5 lib t y parms G n_id db eps i).toRates
         else ((step5 lib t y parms G n_id db eps i).add
          (agingInflow y parms G
            (if sim_type ≠ 0 ∧ i = 9 then val parms (pv_id + yearOf t) else 0) i)).toRates) ∧
      (0 ≤ t → StoredByName G r i
        (if i = 0 then (step5 lib t y parms G n_id db eps i).toRates
         else ((step5 lib t y parms G n_id db eps i).add
          (agingInflow y parms G (pv_spec parms sim_type pv_id t i) i)).toRates)) := by
  obtain ⟨r, s', e, _, hst⟩ :=
    get_ode_rates_spec lib t y parms s G n_id sim_type db pv_id eps hr (by omega) h10 hlen hb
  have h := hst i hi0 hi
  rw [derivs_eq_spec lib t y parms G n_id sim_type db pv_id eps i hlay.2.2.2.1 hN] at h
  have hs := stored_by_name G r i _ hlay h
  refine ⟨fun h0 => ?_, fun h0 h9 => ?_, r, s', e, hs, fun ht => ?_⟩
  · have a := hr.2.2.2.2.2.2.1
    rw [if_pos h0] at a
    exact a
  · have h9s : 10 ≤ G .num_stages := by omega
    exact hb.2.2.2.2 h0 h9s
  · have hy : yearOf t = ⌊t / 365⌋ := toInt_of_nonneg _ (div_nonneg ht (by norm_num))
    have hp : pv_spec parms sim_type pv_id t i = pvVal parms sim_type pv_id (yearOf t) i := by
      unfold pv_spec pvVal
      rw [hy]
    rw [hp]
    exact hs

/-- C5 (amended) at a concrete input: stratum 9 of the ten-stratum run at `t = 400`, the
second year of the `pv` sequence (`pv2 = 3/4`). -/
theorem get_ode_rates_pv_floor_witness :
    ((1 : Int) ≠ 0 → findName parmsTen "pv1" = .ok 315) ∧
    ((1 : Int) ≠ 0 → (9 : Int) = 9 → InB parmsTen (315 + yearOf 400)) ∧
    ∃ r s', get_ode_rates libTaylor 400 tenStrata parmsTen Statics.fresh = (.ok r, s') ∧
      StoredByName GTen r 9
        (if (9 : Int) = 0 then
          (step5 libTaylor 400 tenStrata parmsTen GTen 302 (1 / 4) 0 9).toRates
         else ((step5 libTaylor 400 tenStrata parmsTen GTen 302 (1 / 4) 0 9).add
          (agingInflow tenStrata parmsTen GTen
            (if (1 : Int) ≠ 0 ∧ (9 : Int) = 9 then val parmsTen (315 + yearOf 400) else 0)
            9)).toRates) ∧
      ((0 : ℚ) ≤ 400 → StoredByName GTen r 9
        (if (9 : Int) = 0 then
          (step5 libTaylor 400 tenStrata parmsTen GTen 302 (1 / 4) 0 9).toRates
         else ((step5 libTaylor 400 tenStrata parmsTen GTen 302 (1 / 4) 0 9).add
          (agingInflow tenStrata parmsTen GTen (pv_spec parmsTen 1 315 400 9) 9)).toRates)) :=
  get_ode_rates_pv_floor libTaylor 400 tenStrata parmsTen Statics.fresh GTen 302 1 (1 / 4) 315
    0 9 (by decide!) (by decide!) (by decide) (by decide!) (by decide!) (by decide) (by decide)
    (by decide!)

/-- C6, as stated, fails when the blocks are not in the order of `Class`: on one stratum
laid out `M, S, SP1, SP2, SP3, E, EP, I, R, V` with `V = 10` and `mu = 1/10`, the name `V1`
resolves to index 9 and the derivative of `V` is `-(mu + theta) V = -1`, but the call
stores `-1` at index `0 + VID * 1 = 5` and `0` at index 9. -/
theorem get_ode_rates_not_by_name :
    StateLayout specOrder 1 specOrderIds ∧ findName specOrder "V1" = .ok 9 ∧
    (get_ode_rates libTaylor 0 specOrder parmsOne Statics.fresh).1 = .ok
      [some 0, some 0, some 0, some 0, some 0, some (-1), some 0, some 0, some 0, some 0] ∧
    (derivs libTaylor 0 specOrder parmsOne
      (ctxOf libTaylor 0 specOrder GSpec 14 0 0 0 0) 0).dV = some (-1) ∧
    ¬ StoredByName GSpec
      [some 0, some 0, some 0, some 0, some 0, some (-1), some 0, some 0, some 0, some 0] 0
      (derivs libTaylor 0 specOrder parmsOne (ctxOf libTaylor 0 specOrder GSpec 14 0 0 0 0) 0)
    := by
  refine ⟨by decide!, by decide!, by decide!, by decide!, ?_⟩
  intro h
  have h5 := h.2.2.2.2.2.1
  revert h5
  decide!

/-- C6 (amended): in a call whose lookups resolve and whose accesses stay inside the
vectors, `get_ode_rates` stores the derivative of compartment `C` at stratum `i` at output
index `i + pos(C) * num_stages`, `pos` the position of `C` in
`M, S, E, I, R, V, SP1, SP2, SP3, EP`; when the state is laid out in that order this is
`resolve(C) + i`, the index the value of `C` at stratum `i` is read from. -/
theorem get_ode_rates_output_index (lib : Libm) (t : ℚ) (y parms : NumericVector)
    (s : Statics) (G : SVar → Int) (n_id sim_type : Int) (db : ℚ) (pv_id : Int) (eps : ℚ)
    (hr : Resolves y parms s G n_id sim_type db pv_id eps)
    (h1 : 1 ≤ G .num_stages) (h10 : 10 ≤ G .num_classes)
    (hlen : G .num_classes * G .num_stages ≤ (y.length : Int))
    (hb : LoopInB y parms (ctxOf lib t y G n_id sim_type db pv_id eps)) :
    ∃ r s', get_ode_rates lib t y parms s = (.ok r, s') ∧
      ∀ i, 0 ≤ i → i < G .num_stages →
        Stored (G .num_stages) r i
          (derivs lib t y parms (ctxOf lib t y G n_id sim_type db pv_id eps) i) ∧
        (EnumLayout G → StoredByName G r i
          (derivs lib t y parms (ctxOf lib t y G n_id sim_type db pv_id eps) i)) := by
  obtain ⟨r, s', e, _, hst⟩ :=
    get_ode_rates_spec lib t y parms s G n_id sim_type db pv_id eps hr h1 h10 hlen hb
  exact ⟨r, s', e, fun i hi0 hi =>
    ⟨hst i hi0 hi, fun hlay => stored_by_name G r i _ hlay (hst i hi0 hi)⟩⟩

/-- C6 (amended) at a concrete input: the one-stratum state in the order of the
specification, where the output index is not the index read. -/
theorem get_ode_rates_output_index_witness :
    ∃ r s', get_ode_rates libTaylor 0 specOrder parmsOne Statics.fresh = (.ok r, s') ∧
      ∀ i, 0 ≤ i → i < GSpec .num_stages →
        Stored (GSpec .num_stages) r i
          (derivs libTaylor 0 specOrder parmsOne
            (ctxOf libTaylor 0 specOrder GSpec 14 0 0 0 0) i) ∧
        (EnumLayout GSpec → StoredByName GSpec r i
          (derivs libTaylor 0 specOrder parmsOne
            (ctxOf libTaylor 0 specOrder GSpec 14 0 0 0 0) i)) :=
  get_ode_rates_output_index libTaylor 0 specOrder parmsOne Statics.fresh GSpec 14 0 0 0 0
    (by decide!) (by decide!) (by decide!) (by decide!) (by decide!)

/-- C11, as stated, fails when `eps ≠ 0`: on one stratum with `S = 10`, every rate 0 (so
`mu = b = theta = 0` and the force of infection is 0) and `eps = 1/10`, the call returns
`dI = eps * localN = 1` and 0 for the nine other derivatives: they sum to 1. -/
theorem get_ode_rates_total_eps :
    Resolves onlyS parmsEps Statics.fresh GOne 14 0 0 0 (1 / 10) ∧
    foiOf onlyS parmsEps (ctxOf libTaylor 0 onlyS GOne 14 0 0 0 (1 / 10)) 0 = some 0 ∧
    (get_ode_rates libTaylor 0 onlyS parmsEps Statics.fresh).1 = .ok
      [some 0, some 0, some 0, some 1, some 0, some 0, some 0, some 0, some 0, some 0] ∧
    stratumTotal 1
      [some 0, some 0, some 0, some 1, some 0, some 0, some 0, some 0, some 0, some 0] 0
      = some 1 := by
  refine ⟨by decide!, by decide!, by decide!, by decide!⟩

/-- C11 (amended): in a call whose lookups resolve and whose accesses stay inside the
vectors, with `mu = 0`, `b = 0` and `theta = 0` in every stratum and the force of infection
of stratum `i` equal to 0, the ten derivatives `get_ode_rates` returns for stratum `i` sum
to `eps * localN_i`; that is 0 when `eps = 0`. -/
theorem get_ode_rates_total_closed (lib : Libm) (t : ℚ) (y parms : NumericVector)
    (s : Statics) (G : SVar → Int) (n_id sim_type : Int) (db : ℚ) (pv_id : Int) (eps : ℚ)
    (i : Int) (hr : Resolves y parms s G n_id sim_type db pv_id eps)
    (h10 : 10 ≤ G .num_classes)
    (hlen : G .num_classes * G .num_stages ≤ (y.length : Int))
    (hb : LoopInB y parms (ctxOf lib t y G n_id sim_type db pv_id eps))
    (hi0 : 0 ≤ i) (hi : i < G .num_stages)
    (hmu : ∀ j, 0 ≤ j → j < G .num_stages → val parms (G .mu_id + j) = 0)
    (hbz : ∀ j, 0 ≤ j → j < G .num_stages → val parms (G .b_id + j) = 0)
    (hth : ∀ j, 0 ≤ j → j < G .num_stages → val parms (G .theta_id + j) = 0)
    (hfoi : foiOf y parms (ctxOf lib t y G n_id sim_type db pv_id eps) i = some 0) :
    ∃ r s', get_ode_rates lib t y parms s = (.ok r, s') ∧
      stratumTotal (G .num_stages) r i = some (eps * aNof y G i) ∧
      (eps = 0 → stratumTotal (G .num_stages) r i = some 0) := by
  obtain ⟨r, s', e, _, hst⟩ :=
    get_ode_rates_spec lib t y parms s G n_id sim_type db pv_id eps hr (by omega) h10 hlen hb
  have hN : aNof y (ctxOf lib t y G n_id sim_type db pv_id eps).G i ≠ 0 :=
    fdiv_eq_some _ _ _ hfoi
  have key : stratumTotal (G .num_stages) r i = some (eps * aNof y G i) := by
    unfold stratumTotal
    rw [stored_row _ r i _ (hst i hi0 hi), Option.some_bind,
      derivs_total lib t y parms _ i hN]
    simp only [ctxOf, hmu i hi0 hi, hbz i hi0 hi, hth i hi0 hi, Option.some.injEq]
    by_cases h0 : i = 0
    · rw [if_pos h0]
      ring
    · rw [if_neg h0, hth (i - 1) (by omega) (by omega)]
      ring
  refine ⟨r, s', e, key, fun h0 => ?_⟩
  rw [key, h0, zero_mul]

/-- C11 (amended) at a concrete input: the one-stratum state with `S = 10` and
`eps = 1/10`. -/
theorem get_ode_rates_total_closed_witness :
    ∃ r s', get_ode_rates libTaylor 0 onlyS parmsEps Statics.fresh = (.ok r, s') ∧
      stratumTotal (GOne .num_stages) r 0 = some (1 / 10 * aNof onlyS GOne 0) ∧
      ((1 / 10 : ℚ) = 0 → stratumTotal (GOne .num_stages) r 0 = some 0) :=
  get_ode_rates_total_closed libTaylor 0 onlyS parmsEps Statics.fresh GOne 14 0 0 0 (1 / 10) 0
    (by decide!) (by decide!) (by decide!) (by decide!) (by decide) (by decide!)
    (fun j h0 h1 => by
      have h1' : j < 1 := h1
      have : j = 0 := by omega
      subst this
      decide!)
    (fun j h0 h1 => by
      have h1' : j < 1 := h1
      have : j = 0 := by omega
      subst this
      decide!)
    (fun j h0 h1 => by
      have h1' : j < 1 := h1
      have : j = 0 := by omega
      subst this
      decide!)
    (by decide!)

/-- C19: in a call whose lookups resolve and whose accesses stay inside the vectors, for a
stratum `i` with `localN_i ≠ 0` the ten derivatives `get_ode_rates` returns for stratum `i`
sum to `b_i (1 + db)^t N_total - (mu_i + theta_i) localN_i + eps localN_i
+ theta_{i-1} localN_{i-1}`, the last term absent for `i = 0`: the sum contains no `FOI`,
`f`, `omega`, `sigma`, `gamma`, `delta` and no `pv`. -/
theorem get_ode_rates_balance (lib : Libm) (t : ℚ) (y parms : NumericVector) (s : Statics)
    (G : SVar → Int) (n_id sim_type : Int) (db : ℚ) (pv_id : Int) (eps : ℚ) (i : Int)
    (hr : Resolves y parms s G n_id sim_type db pv_id eps) (h10 : 10 ≤ G .num_classes)
    (hlen : G .num_classes * G .num_stages ≤ (y.length : Int))
    (hb : LoopInB y parms (ctxOf lib t y G n_id sim_type db pv_id eps))
    (hi0 : 0 ≤ i) (hi : i < G .num_stages) (hN : aNof y G i ≠ 0) :
    ∃ r s', get_ode_rates lib t y parms s = (.ok r, s') ∧
      stratumTotal (G .num_stages) r i = some
        (val parms (G .b_id + i) * growth lib t db * N_total y G
          - (val parms (G .mu_id + i) + val parms (G .theta_id + i)) * aNof y G i
          + eps * aNof y G i
          + (if i = 0 then 0 else val parms (G .theta_id + (i - 1)) * aNof y G (i - 1))) := by
  obtain ⟨r, s', e, _, hst⟩ :=
    get_ode_rates_spec lib t y parms s G n_id sim_type db pv_id eps hr (by omega) h10 hlen hb
  refine ⟨r, s', e, ?_⟩
  unfold stratumTotal
  rw [stored_row _ r i _ (hst i hi0 hi), Option.some_bind,
    derivs_total lib t y parms (ctxOf lib t y G n_id sim_type db pv_id eps) i hN]
  simp only [ctxOf, growth, N_total]

/-- C19 at a concrete input: stratum 1 of the two-stratum state at `t = 10`. -/
theorem get_ode_rates_balance_witness :
    ∃ r s', get_ode_rates libTaylor 10 twoStrata parmsTwo Statics.fresh = (.ok r, s') ∧
      stratumTotal (GTwo .num_stages) r 1 = some
        (val parmsTwo (GTwo .b_id + 1) * growth libTaylor 10 (1 / 1000) * N_total twoStrata GTwo
          - (val parmsTwo (GTwo .mu_id + 1) + val parmsTwo (GTwo .theta_id + 1))
            * aNof twoStrata GTwo 1
          + 1 / 10000 * aNof twoStrata GTwo 1
          + (if (1 : Int) = 0 then 0
             else val parmsTwo (GTwo .theta_id + (1 - 1)) * aNof twoStrata GTwo (1 - 1))) :=
  get_ode_rates_balance libTaylor 10 twoStrata parmsTwo Statics.fresh GTwo 30 0 (1 / 1000) 0
    (1 / 10000) 1 (by decide!) (by decide!) (by decide!) (by decide!) (by decide) (by decide!)
    (by decide!)

theorem specFOI_zero (lib : Libm) (t : ℚ) (y parms : NumericVector) (G : SVar → Int)
    (n_id i : Int) (hI : ∀ j, 0 ≤ j → j < G .num_stages → val y (G .I_id + j) = 0) :
    specFOI lib t y parms G n_id i = 0 := by
  unfold specFOI
  have : (upto (G .num_stages)).map (fun j =>
      (1 + val parms (j * G .num_stages + i + G .alpha_id) * seasonal lib t)
        * val parms (j * G .num_stages + i + G .beta_id) * val y (G .I_id + j))
      = (upto (G .num_stages)).map (fun _ => (0 : ℚ)) := by
    apply List.map_congr_left
    intro j hj
    rw [upto_mem] at hj
    rw [hI j hj.1 hj.2, mul_zero]
  rw [this]
  simp

theorem derivs_empty (lib : Libm) (t : ℚ) (y parms : NumericVector) (G : SVar → Int)
    (n_id sim_type : Int) (db : ℚ) (pv_id : Int) (eps : ℚ) (i : Int)
    (hN : aNof y G i = 0) :
    derivs lib t y parms (ctxOf lib t y G n_id sim_type db pv_id eps) i
      = { (if i = 0 then (step5 lib t y parms G n_id db eps i).toRates
          else ((step5 lib t y parms G n_id db eps i).add
            (agingInflow y parms G (pvVal parms sim_type pv_id (yearOf t) i) i)).toRates) with
          dS := none, dSP1 := none, dSP2 := none, dSP3 := none, dE := none, dEP := none } := by
  have hf : fOf lib t y parms (ctxOf lib t y G n_id sim_type db pv_id eps) i = none := by
    show fdiv _ (aNof y G i) = none
    rw [hN, fdiv_zero]
  have hF : foiOf y parms (ctxOf lib t y G n_id sim_type db pv_id eps) i = none := by
    show fdiv _ (aNof y G i) = none
    rw [hN, fdiv_zero]
  unfold derivs
  simp only [rawD, hf, hF, Option.none_bind, Option.map_none']
  unfold inflowD
  by_cases h0 : i = 0
  · rw [if_neg (by simp [h0]), if_pos h0]
    simp only [step5, D10.toRates, ctxOf, N_total, growth]
  · rw [if_pos h0, if_neg h0]
    simp only [step5, agingInflow, D10.add, D10.toRates, ctxOf, N_total, growth,
      Option.map_some', Option.map_none', Rates10.mk.injEq, Option.some.injEq, true_and,
      and_true]
    refine ⟨?_, ?_, ?_⟩ <;> ring_nf

/-- C12, as stated, fails when somebody is exposed: on one stratum with `E = 10`,
`I = 0` and `mu = 1/10` the call returns `dE = -(sigma + mu + theta) E = -1`, not 0. -/
theorem get_ode_rates_dE_without_infectious :
    Resolves siaExposed parmsOne Statics.fresh GOne 14 0 0 0 0 ∧ EnumLayout GOne ∧
    val siaExposed (GOne .I_id + 0) = 0 ∧
    (get_ode_rates libTaylor 0 siaExposed parmsOne Statics.fresh).1 = .ok
      [some 0, some 0, some (-1), some 0, some 0, some 0, some 0, some 0, some 0, some 0] ∧
    rateAt [some 0, some 0, some (-1), some 0, some 0, some 0, some 0, some 0, some 0, some 0]
      (GOne .E_id + 0) = some (some (-1)) := by
  refine ⟨by decide!, by decide!, by decide!, by decide!, by decide!⟩

/-- C12 (amended): for a state laid out in the order of `Class` in which `I_j = 0` for
every stratum `j`, and a stratum `i` with `localN_i ≠ 0`, the derivatives `dE` and `dEP`
that `get_ode_rates` returns for stratum `i` contain no force-of-infection term:
`dE_i = -(sigma_i + mu_i + theta_i) E_i` and `dEP_i = -(sigma_i + mu_i + theta_i) EP_i`,
plus the aging inflow `theta_{i-1} (1 - pv) E_{i-1}`, respectively `EP_{i-1}`, when `i > 0`;
both are 0 when `E` and `EP` are 0 in stratum `i` and, for `i > 0`, in stratum `i - 1`. -/
theorem get_ode_rates_no_infectious (lib : Libm) (t : ℚ) (y parms : NumericVector)
    (s : Statics) (G : SVar → Int) (n_id sim_type : Int) (db : ℚ) (pv_id : Int) (eps : ℚ)
    (i : Int) (hr : Resolves y parms s G n_id sim_type db pv_id eps) (hlay : EnumLayout G)
    (h10 : 10 ≤ G .num_classes)
    (hlen : G .num_classes * G .num_stages ≤ (y.length : Int))
    (hb : LoopInB y parms (ctxOf lib t y G n_id sim_type db pv_id eps))
    (hi0 : 0 ≤ i) (hi : i < G .num_stages) (hN : aNof y G i ≠ 0)
    (hI : ∀ j, 0 ≤ j → j < G .num_stages → val y (G .I_id + j) = 0) :
    ∃ r s', get_ode_rates lib t y parms s = (.ok r, s') ∧
      rateAt r (G .E_id + i) = some (some
        (-(val parms (G .sigma_id + i) + val parms (G .mu_id + i) + val parms (G .theta_id + i))
            * val y (G .E_id + i)
          + (if i = 0 then 0 else val parms (G .theta_id + (i - 1))
              * (1 - pvVal parms sim_type pv_id (yearOf t) i) * val y (G .E_id + (i - 1))))) ∧
      rateAt r (G .EP_id + i) = some (some
        (-(val parms (G .sigma_id + i) + val parms (G .mu_id + i) + val parms (G .theta_id + i))
            * val y (G .EP_id + i)
          + (if i = 0 then 0 else val parms (G .theta_id + (i - 1))
              * (1 - pvVal parms sim_type pv_id (yearOf t) i) * val y (G .EP_id + (i - 1))))) ∧
      (val y (G .E_id + i) = 0 → val y (G .EP_id + i) = 0 →
        (i ≠ 0 → val y (G .E_id + (i - 1)) = 0 ∧ val y (G .EP_id + (i - 1)) = 0) →
        rateAt r (G .E_id + i) = some (some 0) ∧ rateAt r (G .EP_id + i) = some (some 0)) := by
  obtain ⟨r, s', e, _, hst⟩ :=
    get_ode_rates_spec lib t y parms s G n_id sim_type db pv_id eps hr (by omega) h10 hlen hb
  have hs := stored_by_name G r i _ hlay (hst i hi0 hi)
  rw [derivs_eq_spec lib t y parms G n_id sim_type db pv_id eps i hlay.2.2.2.1 hN] at hs
  have hF := specFOI_zero lib t y parms G n_id i hI
  have hE := hs.2.2.1
  have hEP := hs.2.2.2.2.2.2.2.2.2
  have kE : rateAt r (G .E_id + i) = some (some
      (-(val parms (G .sigma_id + i) + val parms (G .mu_id + i) + val parms (G .theta_id + i))
          * val y (G .E_id + i)
        + (if i = 0 then 0 else val parms (G .theta_id + (i - 1))
            * (1 - pvVal parms sim_type pv_id (yearOf t) i) * val y (G .E_id + (i - 1))))) := by
    rw [hE]
    by_cases h0 : i = 0
    · rw [if_pos h0, if_pos h0]
      simp only [D10.toRates, step5, hF]
      congr 2
      ring
    · rw [if_neg h0, if_neg h0]
      simp only [D10.toRates, D10.add, step5, agingInflow, hF]
      congr 2
      ring
  have kEP : rateAt r (G .EP_id + i) = some (some
      (-(val parms (G .sigma_id + i) + val parms (G .mu_id + i) + val parms (G .theta_id + i))
          * val y (G .EP_id + i)
        + (if i = 0 then 0 else val parms (G .theta_id + (i - 1))
            * (1 - pvVal parms sim_type pv_id (yearOf t) i) * val y (G .EP_id + (i - 1))))) := by
    rw [hEP]
    by_cases h0 : i = 0
    · rw [if_pos h0, if_pos h0]
      simp only [D10.toRates, step5, hF]
      congr 2
      ring
    · rw [if_neg h0, if_neg h0]
      simp only [D10.toRates, D10.add, step5, agingInflow, hF]
      congr 2
      ring
  refine ⟨r, s', e, kE, kEP, fun z1 z2 z3 => ?_⟩
  rw [kE, kEP, z1, z2]
  by_cases h0 : i = 0
  · simp [h0]
  · simp [h0, (z3 h0).1, (z3 h0).2]

/-- C12 (amended) at a concrete input: the one-stratum state with `E = 10`. -/
theorem get_ode_rates_no_infectious_witness :
    ∃ r s', get_ode_rates libTaylor 0 siaExposed parmsOne Statics.fresh = (.ok r, s') ∧
      rateAt r (GOne .E_id + 0) = some (some
        (-(val parmsOne (GOne .sigma_id + 0) + val parmsOne (GOne .mu_id + 0)
              + val parmsOne (GOne .theta_id + 0)) * val siaExposed (GOne .E_id + 0)
          + (if (0 : Int) = 0 then 0 else val parmsOne (GOne .theta_id + (0 - 1))
              * (1 - pvVal parmsOne 0 0 (yearOf 0) 0) * val siaExposed (GOne .E_id + (0 - 1))))) ∧
      rateAt r (GOne .EP_id + 0) = some (some
        (-(val parmsOne (GOne .sigma_id + 0) + val parmsOne (GOne .mu_id + 0)
              + val parmsOne (GOne .theta_id + 0)) * val siaExposed (GOne .EP_id + 0)
          + (if (0 : Int) = 0 then 0 else val parmsOne (GOne .theta_id + (0 - 1))
              * (1 - pvVal parmsOne 0 0 (yearOf 0) 0)
              * val siaExposed (GOne .EP_id + (0 - 1))))) ∧
      (val siaExposed (GOne .E_id + 0) = 0 → val siaExposed (GOne .EP_id + 0) = 0 →
        ((0 : Int) ≠ 0 → val siaExposed (GOne .E_id + (0 - 1)) = 0
          ∧ val siaExposed (GOne .EP_id + (0 - 1)) = 0) →
        rateAt r (GOne .E_id + 0) = some (some 0)
          ∧ rateAt r (GOne .EP_id + 0) = some (some 0)) :=
  get_ode_rates_no_infectious libTaylor 0 siaExposed parmsOne Statics.fresh GOne 14 0 0 0 0 0
    (by decide!) (by decide!) (by decide!) (by decide!) (by decide!) (by decide) (by decide!)
    (by decide!)
    (fun j h0 h1 => by
      have h1' : j < 1 := h1
      have : j = 0 := by omega
      subst this
      decide!)

/-- C13, as stated, fails on its second half: in the scenario (two strata,
`theta_0 = 1/10`, `S_0 = 100`, everything else 0) stratum 1 is empty, so `f` and `FOI` of
stratum 1 are `0/0` and the `dS_1` the call returns is not finite; `dS_0 = -10` is returned
as stated. -/
theorem get_ode_rates_scenario_empty_stratum :
    Resolves scenS parmsAging Statics.fresh GTwo 30 0 0 0 0 ∧ aNof scenS GTwo 1 = 0 ∧
    (get_ode_rates libTaylor 0 scenS parmsAging Statics.fresh).1 = .ok
      [some 0, some 0, some (-10), none, some 0, none, some 0, some 0, some 0, some 0, some 0,
        some 0, some 0, none, some 0, none, some 0, none, some 0, none] ∧
    rateAt [some 0, some 0, some (-10), none, some 0, none, some 0, some 0, some 0, some 0,
        some 0, some 0, some 0, none, some 0, none, some 0, none, some 0, none]
      (GTwo .S_id + 1) = some none := by
  refine ⟨by decide!, by decide!, by decide!, by decide!⟩

/-- C13 (amended): for a two-stratum system laid out in the order of `Class` in which
every per-stratum rate parameter is 0 except `theta_0`, every state entry of stratum 0 is 0
except `S_0 > 0`, and stratum 1 is not empty (`localN_1 ≠ 0`) with `S_1 = 0` and `I_1 = 0`,
`get_ode_rates` returns `dS_0 = -theta_0 S_0` and `dS_1 = +theta_0 S_0`. -/
theorem get_ode_rates_scenario (lib : Libm) (t : ℚ) (y parms : NumericVector) (s : Statics)
    (G : SVar → Int) (n_id sim_type : Int) (db : ℚ) (pv_id : Int) (eps : ℚ)
    (hr : Resolves y parms s G n_id sim_type db pv_id eps) (hlay : EnumLayout G)
    (hns : G .num_stages = 2) (h10 : 10 ≤ G .num_classes)
    (hlen : G .num_classes * G .num_stages ≤ (y.length : Int))
    (hb : LoopInB y parms (ctxOf lib t y G n_id sim_type db pv_id eps))
    (hz : ∀ x ∈ perStratum, ∀ j, 0 ≤ j → j < 2 →
      (x = SVar.theta_id ∧ j = 0) ∨ val parms (G x + j) = 0)
    (hy0 : ∀ x ∈ stateStatics, x ≠ SVar.S_id → val y (G x + 0) = 0)
    (hS0 : 0 < val y (G .S_id + 0)) (hS1 : val y (G .S_id + 1) = 0)
    (hI1 : val y (G .I_id + 1) = 0) (hN1 : aNof y G 1 ≠ 0) :
    ∃ r s', get_ode_rates lib t y parms s = (.ok r, s') ∧
      rateAt r (G .S_id + 0)
        = some (some (-(val parms (G .theta_id + 0)) * val y (G .S_id + 0))) ∧
      rateAt r (G .S_id + 1)
        = some (some (val parms (G .theta_id + 0) * val y (G .S_id + 0))) := by
  obtain ⟨r, s', e, _, hst⟩ :=
    get_ode_rates_spec lib t y parms s G n_id sim_type db pv_id eps hr (by omega) h10 hlen hb
  have zero : ∀ x ∈ perStratum, ∀ j, 0 ≤ j → j < 2 → ¬ (x = SVar.theta_id ∧ j = 0) →
      val parms (G x + j) = 0 := fun x hx j h0 h1 hne =>
    (hz x hx j h0 h1).resolve_left hne
  have hI : ∀ j, 0 ≤ j → j < G .num_stages → val y (G .I_id + j) = 0 := by
    intro j h0 h1
    have : j = 0 ∨ j = 1 := by omega
    rcases this with rfl | rfl
    · exact hy0 .I_id (by simp [stateStatics]) (by decide)
    · exact hI1
  have hN0 : aNof y G 0 ≠ 0 := by
    unfold aNof
    rw [hy0 .M_id (by simp [stateStatics]) (by decide),
      hy0 .E_id (by simp [stateStatics]) (by decide),
      hy0 .I_id (by simp [stateStatics]) (by decide),
      hy0 .R_id (by simp [stateStatics]) (by decide),
      hy0 .V_id (by simp [stateStatics]) (by decide),
      hy0 .SP1_id (by simp [stateStatics]) (by decide),
      hy0 .SP2_id (by simp [stateStatics]) (by decide),
      hy0 .SP3_id (by simp [stateStatics]) (by decide),
      hy0 .EP_id (by simp [stateStatics]) (by decide)]
    linarith
  have hs0 := stored_by_name G r 0 _ hlay (hst 0 (le_refl 0) (by omega))
  rw [derivs_eq_spec lib t y parms G n_id sim_type db pv_id eps 0 hlay.2.2.2.1 hN0,
    if_pos rfl] at hs0
  have hs1 := stored_by_name G r 1 _ hlay (hst 1 (by decide) (by omega))
  rw [derivs_eq_spec lib t y parms G n_id sim_type db pv_id eps 1 hlay.2.2.2.1 hN1,
    if_neg (by decide)] at hs1
  have hpv : pvVal parms sim_type pv_id (yearOf t) 1 = 0 := by
    unfold pvVal
    rw [if_neg]
    rintro ⟨_, h9⟩
    exact absurd h9 (by decide)
  refine ⟨r, s', e, ?_, ?_⟩
  · rw [hs0.2.1]
    simp only [D10.toRates, step5, specFOI_zero lib t y parms G n_id 0 hI, specF,
      zero .omega_id (by simp [perStratum]) 0 (le_refl 0) (by decide) (by decide),
      zero .mu_id (by simp [perStratum]) 0 (le_refl 0) (by decide) (by decide),
      zero .f_id (by simp [perStratum]) 0 (le_refl 0) (by decide) (by decide),
      zero .delta3_id (by simp [perStratum]) 0 (le_refl 0) (by decide) (by decide)]
    congr 2
    ring
  · rw [hs1.2.1]
    simp only [D10.toRates, D10.add, step5, agingInflow, hpv, hS1,
      zero .omega_id (by simp [perStratum]) 1 (by decide) (by decide) (by decide),
      zero .delta3_id (by simp [perStratum]) 1 (by decide) (by decide) (by decide)]
    congr 2
    ring_nf

theorem parmsAging_rates (x : SVar) (hx : x ∈ perStratum) (j : Int) (h0 : 0 ≤ j)
    (h1 : j < 2) : (x = SVar.theta_id ∧ j = 0) ∨ val parmsAging (GTwo x + j) = 0 := by
  have hj : j = 0 ∨ j = 1 := by omega
  simp only [perStratum, List.mem_cons, List.mem_singleton, List.not_mem_nil, or_false] at hx
  rcases hj with rfl | rfl <;>
    rcases hx with rfl | rfl | rfl | rfl | rfl | rfl | rfl | rfl | rfl | rfl <;> decide!

/-- C13 (amended) at a concrete input: `theta_0 = 1/10`, `S_0 = 100` and one recovered
individual in stratum 1 give `dS_0 = -10` and `dS_1 = +10`. -/
theorem get_ode_rates_scenario_witness :
    ∃ r s', get_ode_rates libTaylor 0 scenSR parmsAging Statics.fresh = (.ok r, s') ∧
      rateAt r (GTwo .S_id + 0)
        = some (some (-(val parmsAging (GTwo .theta_id + 0)) * val scenSR (GTwo .S_id + 0))) ∧
      rateAt r (GTwo .S_id + 1)
        = some (some (val parmsAging (GTwo .theta_id + 0) * val scenSR (GTwo .S_id + 0))) :=
  get_ode_rates_scenario libTaylor 0 scenSR parmsAging Statics.fresh GTwo 30 0 0 0 0
    (by decide!) (by decide!) (by decide!) (by decide!) (by decide!) (by decide!)
    parmsAging_rates (by decide!) (by decide!) (by decide!) (by decide!) (by decide!)

/-- C14, as stated, fails: the division by `localN` is not guarded. On one empty stratum
the call raises no error but returns non-finite values for `dS`, `dE`, `dSP1`, `dSP2`,
`dSP3`, `dEP` (`f` and `FOI` are `0/0`), not the step-5 values with `FOI = 0` and `f = 0`,
which are all 0 here. -/
theorem get_ode_rates_unguarded_division :
    Resolves emptyOne parmsOne Statics.fresh GOne 14 0 0 0 0 ∧ aNof emptyOne GOne 0 = 0 ∧
    (get_ode_rates libTaylor 0 emptyOne parmsOne Statics.fresh).1 = .ok
      [some 0, none, none, some 0, some 0, some 0, none, none, none, none] ∧
    (step5Zero libTaylor 0 emptyOne parmsOne GOne 0 0 0).toRates
      = ⟨some 0, some 0, some 0, some 0, some 0, some 0, some 0, some 0, some 0, some 0⟩ ∧
    ¬ Stored 1 [some 0, none, none, some 0, some 0, some 0, none, none, none, none] 0
      (step5Zero libTaylor 0 emptyOne parmsOne GOne 0 0 0).toRates := by
  refine ⟨by decide!, by decide!, by decide!, by decide!, ?_⟩
  intro h
  have h1 := h.2.1
  revert h1
  decide!

/-- C14 (amended): in a call whose lookups resolve and whose accesses stay inside the
vectors, for a stratum `i` with `localN_i = 0` `get_ode_rates` raises no error, but the
division by `localN_i` is not guarded: the `dS`, `dSP1`, `dSP2`, `dSP3`, `dE` and `dEP` it
returns for stratum `i` are not finite, while `dM`, `dI`, `dR` and `dV`, which contain
neither `FOI` nor `f`, are the step-5 values plus, for `i > 0`, the aging inflow. -/
theorem get_ode_rates_empty_stratum (lib : Libm) (t : ℚ) (y parms : NumericVector)
    (s : Statics) (G : SVar → Int) (n_id sim_type : Int) (db : ℚ) (pv_id : Int) (eps : ℚ)
    (i : Int) (hr : Resolves y parms s G n_id sim_type db pv_id eps)
    (h10 : 10 ≤ G .num_classes)
    (hlen : G .num_classes * G .num_stages ≤ (y.length : Int))
    (hb : LoopInB y parms (ctxOf lib t y G n_id sim_type db pv_id eps))
    (hi0 : 0 ≤ i) (hi : i < G .num_stages) (hN : aNof y G i = 0) :
    ∃ r s', get_ode_rates lib t y parms s = (.ok r, s') ∧
      Stored (G .num_stages) r i
        { (if i = 0 then (step5 lib t y parms G n_id db eps i).toRates
          else ((step5 lib t y parms G n_id db eps i).add
            (agingInflow y parms G (pvVal parms sim_type pv_id (yearOf t) i) i)).toRates) with
          dS := none, dSP1 := none, dSP2 := none, dSP3 := none, dE := none, dEP := none } := by
  obtain ⟨r, s', e, _, hst⟩ :=
    get_ode_rates_spec lib t y parms s G n_id sim_type db pv_id eps hr (by omega) h10 hlen hb
  refine ⟨r, s', e, ?_⟩
  have := hst i hi0 hi
  rw [derivs_empty lib t y parms G n_id sim_type db pv_id eps i hN] at this
  exact this

/-- C14 (amended) at a concrete input: stratum 1 of the scenario, which is empty. -/
theorem get_ode_rates_empty_stratum_witness :
    ∃ r s', get_ode_rates libTaylor 0 scenS parmsAging Statics.fresh = (.ok r, s') ∧
      Stored (GTwo .num_stages) r 1
        { (if (1 : Int) = 0 then (step5 libTaylor 0 scenS parmsAging GTwo 30 0 0 1).toRates
          else ((step5 libTaylor 0 scenS parmsAging GTwo 30 0 0 1).add
            (agingInflow scenS parmsAging GTwo (pvVal parmsAging 0 0 (yearOf 0) 1) 1)).toRates)
          with
          dS := none, dSP1 := none, dSP2 := none, dSP3 := none, dE := none, dEP := none } :=
  get_ode_rates_empty_stratum libTaylor 0 scenS parmsAging Statics.fresh GTwo 30 0 0 0 0 1
    (by decide!) (by decide!) (by decide!) (by decide!) (by decide) (by decide!) (by decide!)

/-! ## Calls after earlier calls -/

theorem findName_present (v : NumericVector) (n : String) (k : Nat)
    (h : findIdx n v = some k) : findName v n = .ok (k : Int) ∧ InB v (k : Int) := by
  have hk := findIdx_lt n v k h
  refine ⟨by simp only [findName, h], ?_⟩
  unfold InB
  omega

theorem findName_absent (v : NumericVector) (n : String) (h : findIdx n v = none) :
    findName v n = .error (.unknownName n) := by
  simp only [findName, h]

theorem readName_present (v : NumericVector) (n : String) (k : Nat)
    (h : findIdx n v = some k) : readName v n = .ok (val v k) := by
  obtain ⟨e, hk⟩ := findName_present v n k h
  simp only [readName, e, bind, Except.bind, readAt, hk, if_true]

theorem readName_absent (v : NumericVector) (n : String) (h : findIdx n v = none) :
    readName v n = .error (.unknownName n) := by
  simp only [readName, findName_absent v n h, bind, Except.bind]

theorem initOf_absent (y parms : NumericVector) (x : SVar)
    (h : findIdx (nameOf x) (if x ∈ stateStatics then y else parms) = none) :
    initOf y parms x = .error (.unknownName (nameOf x)) := by
  cases x <;> simp [stateStatics, nameOf] at h <;>
    simp [initOf, nameOf, findName_absent _ _ h, readName_absent _ _ h, bind, Except.bind]

theorem initOf_present (y parms : NumericVector) (x : SVar) (k : Nat)
    (h : findIdx (nameOf x) (if x ∈ stateStatics then y else parms) = some k) :
    ∃ v, initOf y parms x = .ok v := by
  cases x <;> simp [stateStatics, nameOf] at h <;>
    simp [initOf, (findName_present _ _ k h).1, readName_present _ _ k h, bind, Except.bind,
      pure, Except.pure]

theorem initOf_total (y parms : NumericVector) (x : SVar) :
    (∃ v, initOf y parms x = .ok v) ∨ initOf y parms x = .error (.unknownName (nameOf x)) := by
  cases h : findIdx (nameOf x) (if x ∈ stateStatics then y else parms) with
  | none => exact Or.inr (initOf_absent y parms x h)
  | some k => exact Or.inl (initOf_present y parms x k h)

theorem staticInt_total (y parms : NumericVector) (x : SVar) (s : Statics) :
    (∃ v s', staticInt y parms x s = (.ok v, s') ∧ (∀ z, z ≠ x → s'.ints z = s.ints z) ∧
      (s.ints x = none → ∃ w, initOf y parms x = .ok w)) ∨
    (∃ s', staticInt y parms x s = (.error (.unknownName (nameOf x)), s')) := by
  unfold staticInt
  cases hs : s.ints x with
  | some v =>
    left
    exact ⟨v, s, rfl, fun _ _ => rfl, fun h => by simp at h⟩
  | none =>
    rcases initOf_total y parms x with ⟨v, e⟩ | e
    · left
      refine ⟨v, { s with ints := Function.update s.ints x (some v) }, by simp only [e], ?_,
        fun _ => ⟨v, e⟩⟩
      intro z hz
      simp only [Function.update_noteq hz]
    · right
      exact ⟨s, by simp only [e]⟩

theorem initStatics_total (y parms : NumericVector) (xs : List SVar) :
    ∀ s : Statics,
      (∃ s', initStatics y parms xs s = (.ok (), s') ∧ (∀ z, z ∉ xs → s'.ints z = s.ints z) ∧
        (∀ x ∈ xs, s.ints x = none → ∃ w, initOf y parms x = .ok w)) ∨
      (∃ n s', initStatics y parms xs s = (.error (.unknownName n), s')) := by
  induction xs with
  | nil =>
    intro s
    left
    exact ⟨s, rfl, fun _ _ => rfl, fun x hx => by simp at hx⟩
  | cons a xs ih =>
    intro s
    show (∃ s', (staticInt y parms a >>= fun _ => initStatics y parms xs) s = _ ∧ _) ∨
      (∃ n s', (staticInt y parms a >>= fun _ => initStatics y parms xs) s = _)
    rw [SM_bind_apply]
    rcases staticInt_total y parms a s with ⟨v, s1, e, hfr, hok⟩ | ⟨s1, e⟩
    · rw [e]
      simp only []
      rcases ih s1 with ⟨s2, e2, hfr2, hok2⟩ | ⟨n, s2, e2⟩
      · left
        refine ⟨s2, e2, ?_, ?_⟩
        · intro z hz
          rw [List.mem_cons, not_or] at hz
          rw [hfr2 z hz.2, hfr z hz.1]
        · intro x hx hn
          by_cases hxa : x = a
          · subst hxa
            exact hok hn
          · rcases List.mem_cons.1 hx with h | h
            · exact absurd h hxa
            · exact hok2 x h (by rw [hfr x hxa]; exact hn)
      · right
        exact ⟨n, s2, e2⟩
    · right
      rw [e]
      exact ⟨_, s1, rfl⟩

theorem not_param_of_state (x : SVar) (hx : x ∈ stateStatics) : x ∉ paramStatics := by
  intro hp
  revert hx hp
  cases x <;> simp [paramStatics, stateStatics]

theorem not_state_of_param (x : SVar) (hx : x ∈ paramStatics) : x ∉ stateStatics :=
  fun h => not_param_of_state x h hx

theorem ode_setup_missing (lib : Libm) (t : ℚ) (y parms : NumericVector)
    (h : MissingName y parms) :
    ∃ n s', ode_setup lib t y parms Statics.fresh = (.error (.unknownName n), s') := by
  unfold ode_setup
  rw [SM_bind_apply]
  rcases initStatics_total y parms paramStatics Statics.fresh with ⟨s1, e1, hf1, hok1⟩ | ⟨n, s1, e1⟩
  swap
  · rw [e1]
    exact ⟨n, s1, rfl⟩
  rw [e1]
  simp only []
  rw [SM_bind_apply, liftE_apply]
  cases hN : findIdx "N1" parms with
  | none =>
    rw [findName_absent parms "N1" hN]
    exact ⟨_, _, rfl⟩
  | some kN =>
  rw [(findName_present parms "N1" kN hN).1]
  simp only []
  rw [SM_bind_apply, liftE_apply]
  cases hS : findIdx "sim_type" parms with
  | none =>
    rw [readName_absent parms "sim_type" hS]
    exact ⟨_, _, rfl⟩
  | some kS =>
  rw [readName_present parms "sim_type" kS hS]
  simp only [Functor.map, Except.map]
  rw [SM_bind_apply, liftE_apply]
  cases hD : findIdx "db" parms with
  | none =>
    rw [readName_absent parms "db" hD]
    exact ⟨_, _, rfl⟩
  | some kD =>
  rw [readName_present parms "db" kD hD]
  simp only []
  rw [SM_bind_apply]
  rcases initStatics_total y parms stateStatics s1 with ⟨s2, e2, _, hok2⟩ | ⟨n, s2, e2⟩
  swap
  · rw [e2]
    exact ⟨n, s2, rfl⟩
  exfalso
  rcases h with ⟨x, hx, hm⟩ | ⟨n, hn, hm⟩ | ⟨x, hx, hm⟩
  · obtain ⟨w, hw⟩ := hok1 x hx rfl
    rw [initOf_absent y parms x (by rw [if_neg (not_state_of_param x hx)]; exact hm)] at hw
    exact Except.noConfusion hw
  · simp only [plainNames, List.mem_cons, List.mem_singleton, List.not_mem_nil, or_false] at hn
    rcases hn with rfl | rfl | rfl
    · rw [hN] at hm
      exact Option.noConfusion hm
    · rw [hS] at hm
      exact Option.noConfusion hm
    · rw [hD] at hm
      exact Option.noConfusion hm
  · have hfresh : s1.ints x = none := by
      rw [hf1 x (not_param_of_state x hx)]
      rfl
    obtain ⟨w, hw⟩ := hok2 x hx hfresh
    rw [initOf_absent y parms x (by rw [if_pos hx]; exact hm)] at hw
    exact Except.noConfusion hw

theorem derivs_pv_id (lib : Libm) (t : ℚ) (y parms : NumericVector) (G : SVar → Int)
    (n_id sim_type : Int) (db : ℚ) (pv1 pv2 : Int) (eps : ℚ) (i : Int)
    (h : sim_type ≠ 0 → pv1 = pv2) :
    derivs lib t y parms (ctxOf lib t y G n_id sim_type db pv1 eps) i
      = derivs lib t y parms (ctxOf lib t y G n_id sim_type db pv2 eps) i := by
  by_cases hs : sim_type ≠ 0
  · rw [h hs]
  · have hp : ∀ p, pvVal parms sim_type p (yearOf t) i = 0 := by
      intro p
      unfold pvVal
      rw [if_neg (fun hc => hs hc.1)]
    simp only [derivs, inflowD, rawD, fOf, foiOf, ctxOf, hp]

theorem stored_ext (ns : Int) (r1 r2 : List (Option ℚ)) (d : Int → Rates10) (h1 : 1 ≤ ns)
    (hl1 : (r1.length : Int) = ns * 10) (hl2 : (r2.length : Int) = ns * 10)
    (hs1 : ∀ i, 0 ≤ i → i < ns → Stored ns r1 i (d i))
    (hs2 : ∀ i, 0 ≤ i → i < ns → Stored ns r2 i (d i)) : r1 = r2 := by
  apply List.ext_getElem?
  intro k
  by_cases hk : (k : Int) < ns * 10
  · have hi0 := Int.emod_nonneg (k : Int) (by omega : ns ≠ 0)
    have hi1 := Int.emod_lt_of_pos (k : Int) (by omega : 0 < ns)
    have hdiv := Int.emod_add_ediv (k : Int) ns
    have hc0 : 0 ≤ (k : Int) / ns := Int.ediv_nonneg (by omega) (by omega)
    have hc1 : (k : Int) / ns < 10 := Int.ediv_lt_of_lt_mul (by omega) (by linarith)
    have hr : ∀ r : List (Option ℚ), r[k]? = rateAt r (k : Int) := by
      intro r
      simp [rateAt]
    rw [hr, hr, ← hdiv]
    generalize (k : Int) % ns = i at *
    generalize (k : Int) / ns = c at *
    have a := hs1 i hi0 hi1
    have b := hs2 i hi0 hi1
    simp only [Stored, MID, SID, EID, IID, RID, VID, SP1ID, SP2ID, SP3ID, EPID,
      mul_comm _ ns] at a b
    interval_cases c <;> simp only [a, b]
  · have e1 : r1.length ≤ k := by omega
    have e2 : r2.length ≤ k := by omega
    rw [List.getElem?_eq_none e1, List.getElem?_eq_none e2]

/-- C17, as stated, fails: the name offsets are `static` and resolved by the first call
only. The same call `(0, specOrder, parmsOne)` returns `dV = -1` at index 5 in a fresh
process, and `-1` at index 9 after one earlier call on a state laid out in another order;
and a call on a state that carries none of the compartment names, which fails with
"unknown name M1" in a fresh process, returns derivatives after that earlier call. -/
theorem get_ode_rates_depends_on_history :
    (get_ode_rates libTaylor 0 specOrder parmsOne (statics_after libTaylor [])).1
      = .ok [some 0, some 0, some 0, some 0, some 0, some (-1), some 0, some 0, some 0,
          some 0] ∧
    (get_ode_rates libTaylor 0 specOrder parmsOne
        (statics_after libTaylor [(0, siaExposed, parmsOne)])).1
      = .ok [some 0, some 0, some 0, some 0, some 0, some 0, some 0, some 0, some 0,
          some (-1)] ∧
    MissingName unnamed parmsOne ∧
    (get_ode_rates libTaylor 0 unnamed parmsOne (statics_after libTaylor [])).1
      = .error (.unknownName "M1") ∧
    (get_ode_rates libTaylor 0 unnamed parmsOne
        (statics_after libTaylor [(0, siaExposed, parmsOne)])).1
      = .ok [some (-1 / 10), some (-1 / 5), some (-3 / 10), some (-2 / 5), some (-1 / 2),
          some (-3 / 5), some (-7 / 10), some (-4 / 5), some (-9 / 10), some (-1)] := by
  refine ⟨by decide!, by decide!, by decide!, by decide!, by decide!⟩

/-- C17 (amended): `get_ode_rates` caches the offsets, `num_stages`, `num_classes` and the
output vector of the first call in function statics. For two states of the statics
(histories of earlier calls) in which every offset already cached is the one the names of
the current call resolve to and the output vector, if allocated, has
`num_stages * num_classes` entries, with `num_classes = 10` and all accesses inside the
vectors, the call `(t, y, parms)` returns the same derivative vector; and in a process
that has made no earlier call, the call fails with an unknown-name error whenever one of
the names looked up on lines 41-75 is absent from its vector. -/
theorem get_ode_rates_history (lib : Libm) (t : ℚ) (y parms : NumericVector) :
    (∀ (s1 s2 : Statics) (G : SVar → Int) (n_id sim_type : Int) (db : ℚ) (pv1 pv2 : Int)
        (eps : ℚ),
      Resolves y parms s1 G n_id sim_type db pv1 eps →
      Resolves y parms s2 G n_id sim_type db pv2 eps →
      1 ≤ G .num_stages → G .num_classes = 10 →
      G .num_classes * G .num_stages ≤ (y.length : Int) →
      LoopInB y parms (ctxOf lib t y G n_id sim_type db pv1 eps) →
      ∃ r, (get_ode_rates lib t y parms s1).1 = .ok r ∧
        (get_ode_rates lib t y parms s2).1 = .ok r) ∧
    (MissingName y parms →
      ∃ n, (get_ode_rates lib t y parms Statics.fresh).1 = .error (.unknownName n)) := by
  constructor
  · intro s1 s2 G n_id sim_type db pv1 pv2 eps hr1 hr2 h1 h10 hlen hb
    have hpv : sim_type ≠ 0 → pv1 = pv2 := by
      intro hs
      have a := hr1.2.2.2.2.2.2.1
      have b := hr2.2.2.2.2.2.2.1
      rw [if_pos hs] at a b
      rw [a] at b
      exact Except.ok.inj b
    have hb2 : LoopInB y parms (ctxOf lib t y G n_id sim_type db pv2 eps) := by
      obtain ⟨a, b, c, d, e⟩ := hb
      refine ⟨a, b, c, d, ?_⟩
      intro hs h
      have e' := e hs h
      rw [hpv hs] at e'
      exact e'
    obtain ⟨r1, _, e1, hl1, hst1⟩ := get_ode_rates_spec lib t y parms s1 G n_id sim_type db
      pv1 eps hr1 h1 (by omega) hlen hb
    obtain ⟨r2, _, e2, hl2, hst2⟩ := get_ode_rates_spec lib t y parms s2 G n_id sim_type db
      pv2 eps hr2 h1 (by omega) hlen hb2
    have hrr : r1 = r2 :=
      stored_ext (G .num_stages) r1 r2
        (fun i => derivs lib t y parms (ctxOf lib t y G n_id sim_type db pv1 eps) i) h1
        (by rw [hl1, h10]) (by rw [hl2, h10]) hst1
        (fun i a b => by
          show Stored (G .num_stages) r2 i
            (derivs lib t y parms (ctxOf lib t y G n_id sim_type db pv1 eps) i)
          rw [derivs_pv_id lib t y parms G n_id sim_type db pv1 pv2 eps i hpv]
          exact hst2 i a b)
    exact ⟨r1, by rw [e1], by rw [e2, hrr]⟩
  · intro h
    obtain ⟨n, s', e⟩ := ode_setup_missing lib t y parms h
    refine ⟨n, ?_⟩
    unfold get_ode_rates
    rw [SM_bind_apply, e]

/-- C17 (amended) at concrete inputs: the call `(0, twoStrata, parmsTwo)` in a fresh
process and after an earlier call with other values in the same layout; and a first call
on a state without the compartment names. -/
theorem get_ode_rates_history_witness :
    (∃ r, (get_ode_rates libTaylor 0 twoStrata parmsTwo (statics_after libTaylor [])).1
        = .ok r ∧
      (get_ode_rates libTaylor 0 twoStrata parmsTwo
        (statics_after libTaylor [(5, scenSR, parmsAging)])).1 = .ok r) ∧
    (∃ n, (get_ode_rates libTaylor 0 unnamed parmsOne Statics.fresh).1
      = .error (.unknownName n)) :=
  ⟨(get_ode_rates_history libTaylor 0 twoStrata parmsTwo).1 (statics_after libTaylor [])
      (statics_after libTaylor [(5, scenSR, parmsAging)]) GTwo 30 0 (1 / 1000) 0 0
      (1 / 10000) (by decide!) (by decide!) (by decide) (by decide) (by decide!) (by decide!),
    (get_ode_rates_history libTaylor 0 unnamed parmsOne).2 (by decide!)⟩

end Mspeirv
